import Mathlib

/-!
# Ledger consistency of the banking system (`bank-system/bank`)

A shallow embedding of `account.go`, `transaction.go`, `user.go` and `bank.go` (namespace
`Bank`), followed by one of the todo service of `src/main.go` (namespace `TodoApp`).

Modelling conventions.

* A Go `map[K]V` is an association list `List (K × V)` read with `mapGet` and written with
  `mapPut` (overwrite in place when the key is present, add a binding otherwise).  The
  enumeration order of the list stands for one iteration order of the Go map.
* Amounts.  The first embedding takes the `float64` amounts as exact rationals
  (`Amount := ℚ`), the "decimal currency amount" of the data model; it carries the statements
  that depend neither on rounding nor on NaN.  The second embedding (namespace
  `Bank.Binary64`) takes them as IEEE 754 binary64 values (`Float64`: NaN, the infinities,
  rounding to nearest with ties to even, comparisons false on NaN) and carries the statements
  about what rounding and NaN do to the program.  Theorems named `exact_…` hold for exact
  amounts only.
* `time.Time` is the number of nanoseconds since the Unix epoch (`Time := Int`).  Every call of
  `time.Now()` is an explicit argument: ledger and journal functions take the readings they make,
  the orchestrator functions take `clock : Nat → Time`, the readings made during the call in
  order.
* A method with a pointer receiver returns the receiver's new value together with its Go result;
  `error` is `Option BankError` (`none` is `nil`).
* Console output (`fmt.Printf`, the `Display…` methods) is not modelled.
* Go `int` is `Int`: overflow of the counters `nextID` is outside the model.
-/

namespace Bank

/-! ## Go maps -/

/-- Map read `v, ok := m[k]`: the first binding of `k`. -/
def mapGet {κ β : Type} [DecidableEq κ] : List (κ × β) → κ → Option β
  | [], _ => none
  | (k', v) :: m, k => if k' = k then some v else mapGet m k

/-- Map write `m[k] = v`: overwrite the binding of `k`, or add one. -/
def mapPut {κ β : Type} [DecidableEq κ] : List (κ × β) → κ → β → List (κ × β)
  | [], k, v => [(k, v)]
  | (k', v') :: m, k, v => if k' = k then (k, v) :: m else (k', v') :: mapPut m k v

/-- Map delete `delete(m, k)`. -/
def mapDelete {κ β : Type} [DecidableEq κ] : List (κ × β) → κ → List (κ × β)
  | [], _ => []
  | (k', v') :: m, k => if k' = k then mapDelete m k else (k', v') :: mapDelete m k

/-- The values of a map, in enumeration order (`for _, v := range m`). -/
def mapValues {κ β : Type} (m : List (κ × β)) : List β := m.map Prod.snd

/-- The keys of a map, in enumeration order. -/
def mapKeys {κ β : Type} (m : List (κ × β)) : List κ := m.map Prod.fst

/-! ## Basic types -/

/-- Go `float64` currency amounts, taken as exact rationals. -/
abbrev Amount := ℚ

/-- Go `time.Time`, as nanoseconds since the Unix epoch. -/
abbrev Time := Int

/-- The zero `time.Time` (January 1, year 1, 00:00 UTC). -/
def Time.zero : Time := -62135596800000000000

/-- Go `error` values of package `bank`: the package-level sentinels and the errors built at
the point of return with `errors.New` / `fmt.Errorf`, kept as their message. -/
inductive BankError where
  | ErrAccountNotFound
  | ErrInsufficientFunds
  | ErrInvalidAmount
  | ErrAccountExists
  | ErrUserNotFound
  | ErrEmailExists
  | ErrInvalidInput
  | ErrInternal
  | msg (text : String)
  deriving DecidableEq, Repr

/-! ## account.go -/

structure Account where
  AccountNumber : String
  HolderName : String
  Balance : Amount
  AccountType : String
  Status : String
  CreatedAt : Time
  UpdatedAt : Time
  deriving DecidableEq, Repr

/-- The ledger: `accounts map[string]Account`. -/
structure accountService where
  accounts : List (String × Account)
  deriving DecidableEq, Repr

def NewAccountService : accountService := { accounts := [] }

/-- `accountService.Create`; `t1`, `t2` are the two readings of `time.Now()`. -/
def accountService.Create (ac : accountService) (account : Account) (t1 t2 : Time) :
    accountService × Except BankError Account :=
  if account.AccountNumber = "" ∨ account.HolderName = "" ∨ account.AccountType = "" then
    (ac, .error .ErrInvalidInput)
  else
    match mapGet ac.accounts account.AccountNumber with
    | some _ => (ac, .error .ErrAccountExists)
    | none =>
      let account := { account with Balance := 0, Status := "Active", CreatedAt := t1, UpdatedAt := t2 }
      ({ accounts := mapPut ac.accounts account.AccountNumber account }, .ok account)

/-- `accountService.Deposit`; `now` is the reading of `time.Now()`. -/
def accountService.Deposit (ac : accountService) (accountNumber : String) (amount : Amount)
    (now : Time) : accountService × Option BankError :=
  if amount ≤ 0 then (ac, some .ErrInvalidAmount)
  else
    match mapGet ac.accounts accountNumber with
    | none => (ac, some .ErrAccountNotFound)
    | some account =>
      if account.Status ≠ "Active" then
        (ac, some (.msg ("cannot deposit to an account with status: " ++ account.Status)))
      else
        let account := { account with Balance := account.Balance + amount, UpdatedAt := now }
        ({ accounts := mapPut ac.accounts accountNumber account }, none)

/-- `accountService.Withdraw`; `now` is the reading of `time.Now()`. -/
def accountService.Withdraw (ac : accountService) (accountNumber : String) (amount : Amount)
    (now : Time) : accountService × Option BankError :=
  if amount ≤ 0 then (ac, some .ErrInvalidAmount)
  else
    match mapGet ac.accounts accountNumber with
    | none => (ac, some .ErrAccountNotFound)
    | some account =>
      if account.Status ≠ "Active" then
        (ac, some (.msg ("cannot withdraw from an account with status: " ++ account.Status)))
      else if account.Balance < amount then
        (ac, some .ErrInsufficientFunds)
      else
        let account := { account with Balance := account.Balance - amount, UpdatedAt := now }
        ({ accounts := mapPut ac.accounts accountNumber account }, none)

/-- `accountService.GetBalance`. -/
def accountService.GetBalance (ac : accountService) (accountNumber : String) :
    Except BankError Amount :=
  match mapGet ac.accounts accountNumber with
  | none => .error .ErrAccountNotFound
  | some account => .ok account.Balance

/-- `accountService.GetAccountDetails`. -/
def accountService.GetAccountDetails (ac : accountService) (accountNumber : String) :
    Except BankError Account :=
  match mapGet ac.accounts accountNumber with
  | none => .error .ErrAccountNotFound
  | some account => .ok account

/-- `accountService.CloseAccount`; `now` is the reading of `time.Now()`. -/
def accountService.CloseAccount (ac : accountService) (accountNumber : String) (now : Time) :
    accountService × Option BankError :=
  match mapGet ac.accounts accountNumber with
  | none => (ac, some .ErrAccountNotFound)
  | some account =>
    if account.Balance ≠ 0 then
      (ac, some (.msg "account balance must be zero to close the account"))
    else
      let account := { account with Status := "Closed", UpdatedAt := now }
      ({ accounts := mapPut ac.accounts accountNumber account }, none)

/-! ## transaction.go -/

/-- Go `type TransactionType string`. -/
abbrev TransactionType := String

def Deposit : TransactionType := "DEPOSIT"
def Withdrawal : TransactionType := "WITHDRAWAL"
def Transfer : TransactionType := "TRANSFER"
def Interest : TransactionType := "INTEREST"
def Fee : TransactionType := "FEE"

/-- Go `type TransactionStatus string`. -/
abbrev TransactionStatus := String

def Pending : TransactionStatus := "PENDING"
def Completed : TransactionStatus := "COMPLETED"
def Failed : TransactionStatus := "FAILED"
def Cancelled : TransactionStatus := "CANCELLED"

/-- Go `Transaction`; the field `Type` is written `Type_`. -/
structure Transaction where
  ID : String
  Type_ : TransactionType
  Status : TransactionStatus
  FromAccount : String
  ToAccount : String
  Amount : Bank.Amount
  Timestamp : Time
  Description : String
  ReferenceNumber : String
  BalanceAfter : Bank.Amount
  Fee : Bank.Amount
  deriving DecidableEq, Repr

structure TransactionSummary where
  AccountNumber : String
  TotalDeposits : Amount
  TotalWithdrawals : Amount
  TotalTransfersOut : Amount
  TotalTransfersIn : Amount
  TotalFees : Amount
  TransactionCount : Int
  LastTransaction : Time
  deriving DecidableEq, Repr

/-- The journal: `transactions map[string]*Transaction`.  The back pointer `bankingSystem` is
replaced by passing the ledger to the one method that reads it. -/
structure transactionService where
  transactions : List (String × Transaction)
  deriving DecidableEq, Repr

def NewTransactionService : transactionService := { transactions := [] }

/-- `generateTransactionID`: `fmt.Sprintf("TXN%d", time.Now().UnixNano())`. -/
def generateTransactionID (now : Time) : String := "TXN" ++ toString now

/-- `generateReferenceNumber`: `fmt.Sprintf("REF%d", time.Now().UnixNano())`. -/
def generateReferenceNumber (now : Time) : String := "REF" ++ toString now

/-- The `BalanceAfter` computed by the `switch tType` of `CreateTransaction`; the field keeps
its zero value when no case assigns it. -/
def balanceAfter (accounts : accountService) (tType : TransactionType) (fromAcc toAcc : String)
    (amount : Amount) : Amount :=
  if tType = Deposit then
    if toAcc ≠ "" then
      match accounts.GetBalance toAcc with
      | .ok balance => balance + amount
      | .error _ => 0
    else 0
  else if tType = Withdrawal then
    if fromAcc ≠ "" then
      match accounts.GetBalance fromAcc with
      | .ok balance => balance - amount
      | .error _ => 0
    else 0
  else if tType = Transfer then
    if fromAcc ≠ "" then
      match accounts.GetBalance fromAcc with
      | .ok balance => balance - amount
      | .error _ => 0
    else 0
  else 0

/-- `transactionService.CreateTransaction`; `accounts` is `ts.bankingSystem.accounts`, and
`tId`, `tStamp`, `tRef` are the readings of `time.Now()` made for the id, the timestamp and the
reference number. -/
def transactionService.CreateTransaction (ts : transactionService) (accounts : accountService)
    (tType : TransactionType) (fromAcc toAcc : String) (amount : Amount) (description : String)
    (tId tStamp tRef : Time) : transactionService × Except BankError Transaction :=
  if amount ≤ 0 then (ts, .error (.msg "transaction amount must be positive"))
  else
    let transaction : Transaction :=
      { ID := generateTransactionID tId
        Type_ := tType
        Status := Pending
        FromAccount := fromAcc
        ToAccount := toAcc
        Amount := amount
        Timestamp := tStamp
        Description := description
        ReferenceNumber := generateReferenceNumber tRef
        BalanceAfter := 0
        Fee := 0 }
    let transaction :=
      { transaction with BalanceAfter := balanceAfter accounts tType fromAcc toAcc amount }
    let transaction := { transaction with Status := Completed }
    ({ transactions := mapPut ts.transactions transaction.ID transaction }, .ok transaction)

/-- `transactionService.GetTransaction`. -/
def transactionService.GetTransaction (ts : transactionService) (transactionID : String) :
    Except BankError Transaction :=
  match mapGet ts.transactions transactionID with
  | none => .error (.msg "transaction not found")
  | some transaction => .ok transaction

/-- `transactionService.GetTransactionsByAccount`. -/
def transactionService.GetTransactionsByAccount (ts : transactionService)
    (accountNumber : String) : Except BankError (List Transaction) :=
  let accountTransactions := (mapValues ts.transactions).filter
    (fun transaction =>
      transaction.FromAccount = accountNumber ∨ transaction.ToAccount = accountNumber)
  if accountTransactions.length = 0 then .error (.msg "no transactions found for account")
  else .ok accountTransactions

/-- `transactionService.GetTransactionsByType`. -/
def transactionService.GetTransactionsByType (ts : transactionService)
    (tType : TransactionType) : Except BankError (List Transaction) :=
  let typeTransactions := (mapValues ts.transactions).filter
    (fun transaction => transaction.Type_ = tType)
  if typeTransactions.length = 0 then
    .error (.msg ("no " ++ tType ++ " transactions found"))
  else .ok typeTransactions

/-- `transactionService.GetTransactionsByDateRange`. -/
def transactionService.GetTransactionsByDateRange (ts : transactionService)
    (startDate endDate : Time) : Except BankError (List Transaction) :=
  let dateRangeTransactions := (mapValues ts.transactions).filter
    (fun transaction =>
      (transaction.Timestamp = startDate ∨ transaction.Timestamp > startDate) ∧
      (transaction.Timestamp = endDate ∨ transaction.Timestamp < endDate))
  if dateRangeTransactions.length = 0 then
    .error (.msg "no transactions found in the specified date range")
  else .ok dateRangeTransactions

/-- `transactionService.UpdateTransactionStatus`. -/
def transactionService.UpdateTransactionStatus (ts : transactionService)
    (transactionID : String) (status : TransactionStatus) :
    transactionService × Option BankError :=
  match mapGet ts.transactions transactionID with
  | none => (ts, some (.msg "transaction not found"))
  | some transaction =>
    let transaction := { transaction with Status := status }
    ({ transactions := mapPut ts.transactions transactionID transaction }, none)

/-- `transactionService.GetAllTransactions`. -/
def transactionService.GetAllTransactions (ts : transactionService) : List Transaction :=
  mapValues ts.transactions

/-- One iteration of the `for _, transaction := range transactions` loop of
`GetTransactionSummary`. -/
def summaryStep (accountNumber : String) (summary : TransactionSummary)
    (transaction : Transaction) : TransactionSummary :=
  if transaction.Status = Completed then
    let summary :=
      if transaction.Type_ = Deposit then
        { summary with TotalDeposits := summary.TotalDeposits + transaction.Amount }
      else if transaction.Type_ = Withdrawal then
        { summary with TotalWithdrawals := summary.TotalWithdrawals + transaction.Amount }
      else if transaction.Type_ = Transfer then
        if transaction.FromAccount = accountNumber then
          { summary with TotalTransfersOut := summary.TotalTransfersOut + transaction.Amount }
        else
          { summary with TotalTransfersIn := summary.TotalTransfersIn + transaction.Amount }
      else if transaction.Type_ = Fee then
        { summary with TotalFees := summary.TotalFees + transaction.Amount }
      else summary
    let summary := { summary with TransactionCount := summary.TransactionCount + 1 }
    if transaction.Timestamp > summary.LastTransaction then
      { summary with LastTransaction := transaction.Timestamp }
    else summary
  else summary

/-- The zero-valued summary `&TransactionSummary{AccountNumber: accountNumber}`. -/
def emptySummary (accountNumber : String) : TransactionSummary :=
  { AccountNumber := accountNumber
    TotalDeposits := 0
    TotalWithdrawals := 0
    TotalTransfersOut := 0
    TotalTransfersIn := 0
    TotalFees := 0
    TransactionCount := 0
    LastTransaction := Time.zero }

/-- `transactionService.GetTransactionSummary`. -/
def transactionService.GetTransactionSummary (ts : transactionService)
    (accountNumber : String) : TransactionSummary :=
  let summary := emptySummary accountNumber
  match ts.GetTransactionsByAccount accountNumber with
  | .error _ => summary
  | .ok transactions => transactions.foldl (summaryStep accountNumber) summary

/-- The `netAmount` printed by `TransactionSummary.DisplayTransactionSummary`. -/
def TransactionSummary.netAmount (ts : TransactionSummary) : Amount :=
  ts.TotalDeposits + ts.TotalTransfersIn - ts.TotalWithdrawals - ts.TotalTransfersOut -
    ts.TotalFees

/-! ## user.go -/

structure User where
  ID : Int
  FirstName : String
  LastName : String
  Email : String
  Password : String
  Address : String
  Phone : String
  PanCardNumber : String
  AadharCardNumber : String
  Accounts : List String
  deriving DecidableEq, Repr

/-- The directory: `users map[int]User` and the counter `nextID`. -/
structure userService where
  users : List (Int × User)
  nextID : Int
  deriving DecidableEq, Repr

def NewUserService : userService := { users := [], nextID := 1 }

/-- `userService.Create`. -/
def userService.Create (us : userService) (user : User) : userService × Except BankError User :=
  if user.Email = "" ∨ user.FirstName = "" ∨ user.LastName = "" then
    (us, .error .ErrInvalidInput)
  else if (mapValues us.users).any (fun u => u.Email = user.Email) then
    (us, .error .ErrEmailExists)
  else
    let user := { user with ID := us.nextID, Accounts := [] }
    ({ users := mapPut us.users us.nextID user, nextID := us.nextID + 1 }, .ok user)

/-- `userService.Get`. -/
def userService.Get (us : userService) (id : Int) : Except BankError User :=
  match mapGet us.users id with
  | none => .error .ErrUserNotFound
  | some user => .ok user

/-- `userService.GetByEmail`: the first user met by the loop with that email. -/
def userService.GetByEmail (us : userService) (email : String) : Except BankError User :=
  match (mapValues us.users).find? (fun user => user.Email = email) with
  | some user => .ok user
  | none => .error .ErrUserNotFound

/-- `userService.Update`. -/
def userService.Update (us : userService) (user : User) : userService × Option BankError :=
  match mapGet us.users user.ID with
  | none => (us, some .ErrUserNotFound)
  | some _ => ({ us with users := mapPut us.users user.ID user }, none)

/-- `userService.Delete`. -/
def userService.Delete (us : userService) (id : Int) : userService × Option BankError :=
  match mapGet us.users id with
  | none => (us, some .ErrUserNotFound)
  | some _ => ({ us with users := mapDelete us.users id }, none)

/-- `userService.List`. -/
def userService.List (us : userService) : List User := mapValues us.users

/-- `userService.AddAccountToUser`. -/
def userService.AddAccountToUser (us : userService) (userID : Int) (accountNumber : String) :
    userService × Option BankError :=
  match mapGet us.users userID with
  | none => (us, some .ErrUserNotFound)
  | some user =>
    if user.Accounts.any (fun acc => acc = accountNumber) then
      (us, some (.msg "account already linked to user"))
    else
      let user := { user with Accounts := user.Accounts ++ [accountNumber] }
      ({ us with users := mapPut us.users userID user }, none)

/-- `transactionService.GetTransactionsByUser` (transaction.go); `users` is
`ts.bankingSystem.users`. -/
def transactionService.GetTransactionsByUser (ts : transactionService) (users : userService)
    (userID : Int) : Except BankError (List Transaction) :=
  match users.Get userID with
  | .error err => .error err
  | .ok user =>
    let userTransactions := user.Accounts.foldl
      (fun userTransactions accountNumber =>
        match ts.GetTransactionsByAccount accountNumber with
        | .ok accountTxns => userTransactions ++ accountTxns
        | .error _ => userTransactions)
      []
    if userTransactions.length = 0 then .error (.msg "no transactions found for user")
    else .ok userTransactions

/-! ## bank.go -/

structure BankingSystem where
  users : userService
  accounts : accountService
  transactions : transactionService
  deriving DecidableEq, Repr

def NewBankingSystem : BankingSystem :=
  { users := NewUserService, accounts := NewAccountService, transactions := NewTransactionService }

/-- `BankingSystem.CreateUser`. -/
def BankingSystem.CreateUser (bs : BankingSystem)
    (firstName lastName email password address phone panCard aadharCard : String) :
    BankingSystem × Except BankError User :=
  let user : User :=
    { ID := 0
      FirstName := firstName
      LastName := lastName
      Email := email
      Password := password
      Address := address
      Phone := phone
      PanCardNumber := panCard
      AadharCardNumber := aadharCard
      Accounts := [] }
  match bs.users.Create user with
  | (users, .error err) => ({ bs with users := users }, .error err)
  | (users, .ok createdUser) => ({ bs with users := users }, .ok createdUser)

/-- `BankingSystem.CreateAccount`; `clock 0`, `clock 1` are the readings made by the ledger's
`Create`. -/
def BankingSystem.CreateAccount (bs : BankingSystem) (accountNumber holderName accountType : String)
    (userID : Int) (clock : Nat → Time) : BankingSystem × Option BankError :=
  match bs.users.Get userID with
  | .error _ => (bs, some (.msg "user not found"))
  | .ok _ =>
    let account : Account :=
      { AccountNumber := accountNumber
        HolderName := holderName
        Balance := 0
        AccountType := accountType
        Status := ""
        CreatedAt := Time.zero
        UpdatedAt := Time.zero }
    match bs.accounts.Create account (clock 0) (clock 1) with
    | (accounts, .error err) => ({ bs with accounts := accounts }, some err)
    | (accounts, .ok _) =>
      let bs := { bs with accounts := accounts }
      match bs.users.AddAccountToUser userID accountNumber with
      | (users, some err) => ({ bs with users := users }, some err)
      | (users, none) => ({ bs with users := users }, none)

/-- `BankingSystem.Deposit`; `clock 0` is the reading made by the ledger's `Deposit`, then
`clock 1`, `clock 2`, `clock 3` those made by `CreateTransaction`. -/
def BankingSystem.Deposit (bs : BankingSystem) (accountNumber : String) (amount : Amount)
    (clock : Nat → Time) : BankingSystem × Option BankError :=
  match bs.accounts.Deposit accountNumber amount (clock 0) with
  | (accounts, some err) => ({ bs with accounts := accounts }, some err)
  | (accounts, none) =>
    let bs := { bs with accounts := accounts }
    let (transactions, _) := bs.transactions.CreateTransaction bs.accounts Bank.Deposit ""
      accountNumber amount "Cash deposit" (clock 1) (clock 2) (clock 3)
    ({ bs with transactions := transactions }, none)

/-- `BankingSystem.Withdraw`; `clock 0` is the reading made by the ledger's `Withdraw`, then
`clock 1`, `clock 2`, `clock 3` those made by `CreateTransaction`. -/
def BankingSystem.Withdraw (bs : BankingSystem) (accountNumber : String) (amount : Amount)
    (clock : Nat → Time) : BankingSystem × Option BankError :=
  match bs.accounts.Withdraw accountNumber amount (clock 0) with
  | (accounts, some err) => ({ bs with accounts := accounts }, some err)
  | (accounts, none) =>
    let bs := { bs with accounts := accounts }
    let (transactions, _) := bs.transactions.CreateTransaction bs.accounts Bank.Withdrawal
      accountNumber "" amount "Cash withdrawal" (clock 1) (clock 2) (clock 3)
    ({ bs with transactions := transactions }, none)

/-- `BankingSystem.Transfer`; `clock 0` is the reading made by the ledger's `Withdraw`, `clock 1`
the next one (made by the `Deposit` to the destination when it gets that far, else by the
rollback `Deposit`), then `clock 2`, `clock 3`, `clock 4` those made by `CreateTransaction`.
The result of the rollback `Deposit` is dropped, as in the source. -/
def BankingSystem.Transfer (bs : BankingSystem) (fromAccount toAccount : String) (amount : Amount)
    (clock : Nat → Time) : BankingSystem × Option BankError :=
  match bs.accounts.Withdraw fromAccount amount (clock 0) with
  | (accounts, some err) => ({ bs with accounts := accounts }, some err)
  | (accounts, none) =>
    let bs := { bs with accounts := accounts }
    match bs.accounts.Deposit toAccount amount (clock 1) with
    | (accounts, some err) =>
      let bs := { bs with accounts := accounts }
      let (accounts, _) := bs.accounts.Deposit fromAccount amount (clock 1)
      ({ bs with accounts := accounts }, some err)
    | (accounts, none) =>
      let bs := { bs with accounts := accounts }
      let (transactions, _) := bs.transactions.CreateTransaction bs.accounts Bank.Transfer
        fromAccount toAccount amount "Fund transfer" (clock 2) (clock 3) (clock 4)
      ({ bs with transactions := transactions }, none)

/-- `BankingSystem.GetAccount`. -/
def BankingSystem.GetAccount (bs : BankingSystem) (accountNumber : String) :
    Except BankError Account :=
  bs.accounts.GetAccountDetails accountNumber

/-- `BankingSystem.GetBalance`. -/
def BankingSystem.GetBalance (bs : BankingSystem) (accountNumber : String) :
    Except BankError Amount :=
  bs.accounts.GetBalance accountNumber

/-- `BankingSystem.CloseAccount`; `clock 0` is the reading made by the ledger. -/
def BankingSystem.CloseAccount (bs : BankingSystem) (accountNumber : String)
    (clock : Nat → Time) : BankingSystem × Option BankError :=
  match bs.accounts.CloseAccount accountNumber (clock 0) with
  | (accounts, err) => ({ bs with accounts := accounts }, err)

/-- The summary shown by `BankingSystem.GetTransactionSummary`. -/
def BankingSystem.GetTransactionSummary (bs : BankingSystem) (accountNumber : String) :
    TransactionSummary :=
  bs.transactions.GetTransactionSummary accountNumber

/-! ## Observations used in the statements -/

/-- The balance of an account, `none` when the account number is not in the ledger. -/
def BankingSystem.balanceOf (bs : BankingSystem) (accountNumber : String) : Option Amount :=
  (mapGet bs.accounts.accounts accountNumber).map (fun a => a.Balance)

/-- The sum of the balances of all accounts of the ledger. -/
def accountService.totalBalance (ac : accountService) : Amount :=
  ((mapValues ac.accounts).map (fun a => a.Balance)).sum

/-- Every account of the ledger has a balance that is at least zero. -/
def accountService.NonNegative (ac : accountService) : Prop :=
  ∀ p ∈ ac.accounts, 0 ≤ p.2.Balance

/-! ## Calls and reachable states -/

/-- A call made on a banking system: a method of the ledger `bs.accounts` called directly
(`ledger…`), or a method of the orchestrator `BankingSystem`. -/
inductive Call where
  | ledgerCreate (account : Account)
  | ledgerDeposit (accountNumber : String) (amount : Amount)
  | ledgerWithdraw (accountNumber : String) (amount : Amount)
  | ledgerCloseAccount (accountNumber : String)
  | createUser (firstName lastName email password address phone panCard aadharCard : String)
  | createAccount (accountNumber holderName accountType : String) (userID : Int)
  | deposit (accountNumber : String) (amount : Amount)
  | withdraw (accountNumber : String) (amount : Amount)
  | transfer (fromAccount toAccount : String) (amount : Amount)
  | closeAccount (accountNumber : String)
  deriving DecidableEq, Repr

/-- The `error` of an `Except` result. -/
def errorOf {α : Type} : Except BankError α → Option BankError
  | .error err => some err
  | .ok _ => none

/-- Run one call; `clock` gives the readings of `time.Now()` made during the call. -/
def BankingSystem.call (bs : BankingSystem) (c : Call) (clock : Nat → Time) :
    BankingSystem × Option BankError :=
  match c with
  | .ledgerCreate account =>
    let r := bs.accounts.Create account (clock 0) (clock 1)
    ({ bs with accounts := r.1 }, errorOf r.2)
  | .ledgerDeposit accountNumber amount =>
    let r := bs.accounts.Deposit accountNumber amount (clock 0)
    ({ bs with accounts := r.1 }, r.2)
  | .ledgerWithdraw accountNumber amount =>
    let r := bs.accounts.Withdraw accountNumber amount (clock 0)
    ({ bs with accounts := r.1 }, r.2)
  | .ledgerCloseAccount accountNumber =>
    let r := bs.accounts.CloseAccount accountNumber (clock 0)
    ({ bs with accounts := r.1 }, r.2)
  | .createUser firstName lastName email password address phone panCard aadharCard =>
    let r := bs.CreateUser firstName lastName email password address phone panCard aadharCard
    (r.1, errorOf r.2)
  | .createAccount accountNumber holderName accountType userID =>
    bs.CreateAccount accountNumber holderName accountType userID clock
  | .deposit accountNumber amount => bs.Deposit accountNumber amount clock
  | .withdraw accountNumber amount => bs.Withdraw accountNumber amount clock
  | .transfer fromAccount toAccount amount => bs.Transfer fromAccount toAccount amount clock
  | .closeAccount accountNumber => bs.CloseAccount accountNumber clock

/-- The states reached from a new banking system by any sequence of calls, failing calls
included, under any clock readings. -/
inductive Reachable : BankingSystem → Prop where
  | init : Reachable NewBankingSystem
  | step {bs : BankingSystem} (c : Call) (clock : Nat → Time) :
      Reachable bs → Reachable (bs.call c clock).1

/-! ## Runs of calls and observations of the journal -/

/-- The entry that `CreateTransaction` builds and stores when the amount is above zero. -/
def newTransaction (accounts : accountService) (tType : TransactionType)
    (fromAcc toAcc : String) (amount : Amount) (description : String)
    (tId tStamp tRef : Time) : Transaction :=
  { ID := generateTransactionID tId
    Type_ := tType
    Status := Completed
    FromAccount := fromAcc
    ToAccount := toAcc
    Amount := amount
    Timestamp := tStamp
    Description := description
    ReferenceNumber := generateReferenceNumber tRef
    BalanceAfter := balanceAfter accounts tType fromAcc toAcc amount
    Fee := 0 }

/-- The slice returned next to the error: `nil` when the call fails. -/
def entriesOf : Except BankError (List Transaction) → List Transaction
  | .ok l => l
  | .error _ => []

/-- The transaction id generated during a call, if the call gets as far as
`CreateTransaction`: the id is made from the reading that follows the ledger's readings. -/
def Call.journalId : Call → (Nat → Time) → Option String
  | .deposit _ _, clock => some (generateTransactionID (clock 1))
  | .withdraw _ _, clock => some (generateTransactionID (clock 1))
  | .transfer _ _ _, clock => some (generateTransactionID (clock 2))
  | _, _ => none

/-- Run the calls in order, each with its clock readings; `none` as soon as a call returns an
error. -/
def BankingSystem.runOk : BankingSystem → List (Call × (Nat → Time)) → Option BankingSystem
  | bs, [] => some bs
  | bs, (c, clock) :: rest =>
    match bs.call c clock with
    | (bs', none) => runOk bs' rest
    | (_, some _) => none

/-- Whether every call of the run that generates a transaction id generates one that is not yet
a key of the journal at the time of the call. -/
def BankingSystem.freshIds : BankingSystem → List (Call × (Nat → Time)) → Bool
  | _, [] => true
  | bs, (c, clock) :: rest =>
    (match c.journalId clock with
      | some id => (mapGet bs.transactions.transactions id).isNone
      | none => true) &&
    freshIds (bs.call c clock).1 rest

/-- The amount a call deposits through the orchestrator's `Deposit`. -/
def Call.deposited : Call → Amount
  | .deposit _ amount => amount
  | _ => 0

/-- The amount a call withdraws through the orchestrator's `Withdraw`. -/
def Call.withdrawn : Call → Amount
  | .withdraw _ amount => amount
  | _ => 0

/-- Whether a call is the orchestrator's `Deposit` or `Withdraw` on the given account. -/
def Call.isCashOn (accountNumber : String) : Call → Bool
  | .deposit k _ => k = accountNumber
  | .withdraw k _ => k = accountNumber
  | _ => false

/-- Whether a call is the orchestrator's `Deposit`, `Withdraw` or `Transfer`, a `Transfer`
from the given account to itself excepted. -/
def Call.isMoneyCallFor (accountNumber : String) : Call → Bool
  | .deposit _ _ => true
  | .withdraw _ _ => true
  | .transfer f t _ => !(f = accountNumber && t = accountNumber)
  | _ => false

/-- The ledger `ac'` has every account number of `ac`, and has no account with the empty
number if `ac` has none. -/
def accountService.Extends (ac ac' : accountService) : Prop :=
  (∀ k, (mapGet ac.accounts k).isSome → (mapGet ac'.accounts k).isSome) ∧
  (mapGet ac.accounts "" = none → mapGet ac'.accounts "" = none)

/-- Every journal entry names, as source and as destination, the empty string or an account
of the ledger, and the ledger has no account with the empty number. -/
def BankingSystem.JournalInLedger (bs : BankingSystem) : Prop :=
  mapGet bs.accounts.accounts "" = none ∧
  ∀ p ∈ bs.transactions.transactions,
    (p.2.FromAccount = "" ∨ (mapGet bs.accounts.accounts p.2.FromAccount).isSome) ∧
    (p.2.ToAccount = "" ∨ (mapGet bs.accounts.accounts p.2.ToAccount).isSome)

/-- What the sample scenario observes of an account: its balance is `D - W`, the journal has
`n` entries for it, and its summary shows `D` deposited, `W` withdrawn and the net amount
`D - W`. -/
def BankingSystem.CashState (bs : BankingSystem) (accountNumber : String) (D W : Amount)
    (n : Nat) : Prop :=
  bs.balanceOf accountNumber = some (D - W) ∧
  (entriesOf (bs.transactions.GetTransactionsByAccount accountNumber)).length = n ∧
  (bs.GetTransactionSummary accountNumber).TotalDeposits = D ∧
  (bs.GetTransactionSummary accountNumber).TotalWithdrawals = W ∧
  (bs.GetTransactionSummary accountNumber).netAmount = D - W

/-! ## Later states, the life of an account, well-formed ledgers -/

/-- The states reached from `s` by any sequence of calls, failing calls included, under any
clock readings. -/
inductive ReachableFrom (s : BankingSystem) : BankingSystem → Prop where
  | refl : ReachableFrom s s
  | step {bs : BankingSystem} (c : Call) (clock : Nat → Time) :
      ReachableFrom s bs → ReachableFrom s (bs.call c clock).1

/-- What may become of an account record: its number, holder, type and creation time stay,
its status stays or becomes `Closed`, and once `Closed` its status and balance stay. -/
def Account.EvolvesTo (a a' : Account) : Prop :=
  a'.AccountNumber = a.AccountNumber ∧ a'.HolderName = a.HolderName ∧
  a'.AccountType = a.AccountType ∧ a'.CreatedAt = a.CreatedAt ∧
  (a'.Status = a.Status ∨ a'.Status = "Closed") ∧
  (a.Status = "Closed" → a'.Status = "Closed" ∧ a'.Balance = a.Balance)

/-- Every account of `ac` is still an account of `ac'`, under the same number, and has evolved
as `Account.EvolvesTo` allows. -/
def accountService.Evolves (ac ac' : accountService) : Prop :=
  ∀ k a, mapGet ac.accounts k = some a →
    ∃ a', mapGet ac'.accounts k = some a' ∧ a.EvolvesTo a'

/-- Every account is stored under its own number, which is not empty; its status is `Active`
or `Closed`; and a `Closed` account has balance 0. -/
def accountService.WellFormed (ac : accountService) : Prop :=
  ∀ p ∈ ac.accounts,
    p.2.AccountNumber = p.1 ∧ p.1 ≠ "" ∧ (p.2.Status = "Active" ∨ p.2.Status = "Closed") ∧
    (p.2.Status = "Closed" → p.2.Balance = 0)

/-- The sum of the amounts of the given entries. -/
def amountSum (l : List Transaction) : Amount := (l.map (fun e => e.Amount)).sum

/-! ## Calls of the orchestrator, the shape of journal entries, linked accounts -/

/-- Whether a call is a method of the orchestrator `BankingSystem`, not a method of the ledger
called directly. -/
def Call.isOrchestrator : Call → Bool
  | .ledgerCreate _ => false
  | .ledgerDeposit _ _ => false
  | .ledgerWithdraw _ _ => false
  | .ledgerCloseAccount _ => false
  | .createUser _ _ _ _ _ _ _ _ => true
  | .createAccount _ _ _ _ => true
  | .deposit _ _ => true
  | .withdraw _ _ => true
  | .transfer _ _ _ => true
  | .closeAccount _ => true

/-- The states reached from a new banking system by calls of the orchestrator only
(`CreateUser`, `CreateAccount`, `Deposit`, `Withdraw`, `Transfer`, `CloseAccount`), failing
calls included, under any clock readings. -/
inductive OrchestratorReachable : BankingSystem → Prop where
  | init : OrchestratorReachable NewBankingSystem
  | step {bs : BankingSystem} (c : Call) (clock : Nat → Time) :
      c.isOrchestrator = true → OrchestratorReachable bs →
      OrchestratorReachable (bs.call c clock).1

/-- A journal entry with an amount above zero that is a `DEPOSIT` without source and with a
destination, a `WITHDRAWAL` with a source and without destination, or a `TRANSFER` with
both. -/
def Transaction.WellShaped (e : Transaction) : Prop :=
  0 < e.Amount ∧
  ((e.Type_ = Deposit ∧ e.FromAccount = "" ∧ e.ToAccount ≠ "") ∨
    (e.Type_ = Withdrawal ∧ e.FromAccount ≠ "" ∧ e.ToAccount = "") ∨
    (e.Type_ = Transfer ∧ e.FromAccount ≠ "" ∧ e.ToAccount ≠ ""))

/-- How many times an account number occurs in the linked-account lists of all users
together. -/
def userService.linkCount (us : userService) (accountNumber : String) : Nat :=
  ((mapValues us.users).map (fun u => u.Accounts.count accountNumber)).sum

/-- The directory and the ledger agree: the users are stored under distinct ids below
`nextID`, and an account number occurs once in the linked-account lists of all users together
when it is in the ledger, and not at all when it is not. -/
def BankingSystem.Owned (bs : BankingSystem) : Prop :=
  (mapKeys bs.users.users).Nodup ∧
  (∀ p ∈ bs.users.users, p.1 < bs.users.nextID) ∧
  ∀ n, bs.users.linkCount n = if (mapGet bs.accounts.accounts n).isSome then 1 else 0

/-! ## Example states -/

/-- The clock of the examples: the `n`-th reading made during a call is `base + n`. -/
def exampleClock (base : Int) : Nat → Time := fun n => base + n

/-- An account value as `BankingSystem.CreateAccount` builds it before calling `Create`. -/
def exampleAccount (number : String) : Account :=
  { AccountNumber := number
    HolderName := "Holder"
    Balance := 0
    AccountType := "Savings"
    Status := ""
    CreatedAt := Time.zero
    UpdatedAt := Time.zero }

/-- A new system in which account `A1` has been created. -/
def exampleA1 : BankingSystem :=
  (NewBankingSystem.call (.ledgerCreate (exampleAccount "A1")) (exampleClock 10)).1

/-- Accounts `A1` and `A2` created. -/
def exampleA1A2 : BankingSystem :=
  (exampleA1.call (.ledgerCreate (exampleAccount "A2")) (exampleClock 20)).1

/-- Accounts `A1` and `A2` created, 1000 deposited into `A1`. -/
def exampleFunded : BankingSystem :=
  (exampleA1A2.call (.deposit "A1" 1000) (exampleClock 30)).1

/-- Accounts `A1` and `A2` created, 1000 deposited into `A1`, then `A2` closed. -/
def exampleClosed : BankingSystem :=
  (exampleFunded.call (.closeAccount "A2") (exampleClock 40)).1

/-- The clock of a coarse timer: every reading made during a call is the same instant. -/
def tickClock (t : Time) : Nat → Time := fun _ => t

/-- Accounts `A1` and `A2` created, 1000 deposited into `A1` at tick 30 of a coarse clock. -/
def exampleTick : BankingSystem :=
  (exampleA1A2.call (.deposit "A1" 1000) (tickClock 30)).1

/-- The sample scenario: on a new account `A1`, deposit 1000, deposit 500, withdraw 200. -/
def exampleScenario : List (Call × (Nat → Time)) :=
  [(.deposit "A1" 1000, exampleClock 30), (.deposit "A1" 500, exampleClock 40),
    (.withdraw "A1" 200, exampleClock 50)]

/-- The sample scenario with all three calls made within tick 30 of a coarse clock. -/
def exampleScenarioTick : List (Call × (Nat → Time)) :=
  [(.deposit "A1" 1000, tickClock 30), (.deposit "A1" 500, tickClock 30),
    (.withdraw "A1" 200, tickClock 30)]

/-- The state at the end of the sample scenario. -/
def exampleScenarioEnd : BankingSystem :=
  (((exampleA1.call (.deposit "A1" 1000) (exampleClock 30)).1.call (.deposit "A1" 500)
    (exampleClock 40)).1.call (.withdraw "A1" 200) (exampleClock 50)).1

/-- The state at the end of the sample scenario made within one tick of a coarse clock. -/
def exampleScenarioTickEnd : BankingSystem :=
  (((exampleA1.call (.deposit "A1" 1000) (tickClock 30)).1.call (.deposit "A1" 500)
    (tickClock 30)).1.call (.withdraw "A1" 200) (tickClock 30)).1

/-- On the new account `A1`: deposit 1000, then transfer 400 from `A1` to `A1`. -/
def exampleSelfTransfer : List (Call × (Nat → Time)) :=
  [(.deposit "A1" 1000, exampleClock 30), (.transfer "A1" "A1" 400, exampleClock 40)]

/-- The state after `exampleSelfTransfer`. -/
def exampleSelfTransferEnd : BankingSystem :=
  ((exampleA1.call (.deposit "A1" 1000) (exampleClock 30)).1.call (.transfer "A1" "A1" 400)
    (exampleClock 40)).1

/-- On the new accounts `A1` and `A2`: deposit 1000 into `A1`, transfer 400 from `A1` to `A2`,
transfer 150 back, withdraw 50 from `A2`. -/
def exampleTransfers : List (Call × (Nat → Time)) :=
  [(.deposit "A1" 1000, exampleClock 30), (.transfer "A1" "A2" 400, exampleClock 40),
    (.transfer "A2" "A1" 150, exampleClock 50), (.withdraw "A2" 50, exampleClock 60)]

/-- The state after `exampleTransfers`. -/
def exampleTransfersEnd : BankingSystem :=
  ((((exampleA1A2.call (.deposit "A1" 1000) (exampleClock 30)).1.call
    (.transfer "A1" "A2" 400) (exampleClock 40)).1.call
    (.transfer "A2" "A1" 150) (exampleClock 50)).1.call (.withdraw "A2" 50) (exampleClock 60)).1

/-- The state `exampleClosed`, in which `A2` is closed, after a later deposit into `A1`. -/
def exampleClosedLater : BankingSystem :=
  (exampleClosed.call (.deposit "A1" 5) (exampleClock 50)).1

/-- A new system in which the user with id 1 has been created through the orchestrator. -/
def exampleUser : BankingSystem :=
  (NewBankingSystem.call
    (.createUser "Asha" "Rao" "asha@example.com" "secret" "Pune" "100" "PAN1" "AADHAR1")
    (exampleClock 0)).1

/-- User 1 with account `A1` created through the orchestrator. -/
def exampleOwnedA1 : BankingSystem :=
  (exampleUser.call (.createAccount "A1" "Asha Rao" "Savings" 1) (exampleClock 10)).1

/-- User 1 with accounts `A1` and `A2` created through the orchestrator. -/
def exampleOwnedA1A2 : BankingSystem :=
  (exampleOwnedA1.call (.createAccount "A2" "Asha Rao" "Current" 1) (exampleClock 20)).1

/-- User 1 with accounts `A1` and `A2`, after a deposit of 1000 into `A1`, a transfer of 400
from `A1` to `A2` and a withdrawal of 50 from `A2`, all through the orchestrator. -/
def exampleOwnedEnd : BankingSystem :=
  (((exampleOwnedA1A2.call (.deposit "A1" 1000) (exampleClock 30)).1.call
    (.transfer "A1" "A2" 400) (exampleClock 40)).1.call (.withdraw "A2" 50) (exampleClock 50)).1

/-- User 1 with accounts `A1` and `A2` created through the orchestrator, then 1000 deposited
into `A1` through the orchestrator at tick 30 of a coarse clock. -/
def exampleOwnedTick : BankingSystem :=
  (exampleOwnedA1A2.call (.deposit "A1" 1000) (tickClock 30)).1

/-! ## Go `float64`

The second embedding of the ledger, the journal and the orchestrator, with amounts as Go
`float64` values: IEEE 754 binary64 with NaN, the two infinities, rounding to nearest with
ties to even after every `+` and `-`, and comparisons that are false when an operand is NaN.
The two zeros are one value.  It is used where exact amounts hide what the program does. -/

/-- A Go `float64`: NaN, an infinity, or a finite value, given by the rational number it
denotes. -/
inductive Float64 where
  | nan
  | inf (negative : Bool)
  | finite (value : ℚ)
  deriving DecidableEq, Repr

/-- The floor of the binary logarithm of `n`, for `n` at most `fuel`. -/
def log2Fuel : Nat → Nat → Nat
  | 0, _ => 0
  | fuel + 1, n => if n < 2 then 0 else log2Fuel fuel (n / 2) + 1

/-- The integer nearest to `n / d`, the even one of the two when `n / d` lies halfway. -/
def roundHalfEven (n d : Nat) : Nat :=
  let k := n / d
  let r := n % d
  if 2 * r < d then k
  else if d < 2 * r then k + 1
  else if k % 2 = 0 then k else k + 1

/-- The `float64` nearest to a rational number (ties to even): the result of an operation
whose exact value is `q`, and the value `strconv.ParseFloat` gives a decimal numeral.  With
`e` the floor of the binary logarithm of `|q|`, the result is a multiple of `2 ^ u`, where
`u = max e (-1022) - 52`; from `2 ^ 1024` on it is an infinity. -/
def Float64.ofRat (q : ℚ) : Float64 :=
  let n := q.num.natAbs
  let d := q.den
  if n = 0 then .finite 0
  else
    let e0 : Int := (log2Fuel n n : Int) - (log2Fuel d d : Int)
    let e : Int :=
      if (if 0 ≤ e0 then d * 2 ^ e0.toNat ≤ n else d ≤ n * 2 ^ (-e0).toNat) then e0 else e0 - 1
    let u : Int := max e (-1022) - 52
    let m : Nat :=
      if 0 ≤ u then roundHalfEven n (d * 2 ^ u.toNat) else roundHalfEven (n * 2 ^ (-u).toNat) d
    if 0 ≤ u ∧ 2 ^ 256 * 2 ^ 256 * 2 ^ 256 * 2 ^ 256 ≤ m * 2 ^ u.toNat then
      .inf (decide (q.num < 0))
    else
      let value : ℚ := if 0 ≤ u then mkRat (m * 2 ^ u.toNat) 1 else mkRat m (2 ^ (-u).toNat)
      .finite (if q.num < 0 then -value else value)

/-- The `float64` zero. -/
def Float64.zero : Float64 := .finite 0

/-- Go `-x`. -/
def Float64.neg : Float64 → Float64
  | .nan => .nan
  | .inf negative => .inf (!negative)
  | .finite value => .finite (-value)

/-- Go `x + y`. -/
def Float64.add : Float64 → Float64 → Float64
  | .nan, _ => .nan
  | _, .nan => .nan
  | .inf a, .inf b => if a = b then .inf a else .nan
  | .inf a, .finite _ => .inf a
  | .finite _, .inf b => .inf b
  | .finite x, .finite y => Float64.ofRat (x + y)

/-- Go `x - y`. -/
def Float64.sub (x y : Float64) : Float64 := x.add y.neg

/-- Go `x < y`. -/
def Float64.lt : Float64 → Float64 → Bool
  | .nan, _ => false
  | _, .nan => false
  | .inf a, .inf b => a && !b
  | .inf a, .finite _ => a
  | .finite _, .inf b => !b
  | .finite x, .finite y => decide (x < y)

/-- Go `x <= y`. -/
def Float64.le : Float64 → Float64 → Bool
  | .nan, _ => false
  | _, .nan => false
  | .inf a, .inf b => a || !b
  | .inf a, .finite _ => a
  | .finite _, .inf b => !b
  | .finite x, .finite y => decide (x ≤ y)

/-- Go `x != y`. -/
def Float64.ne : Float64 → Float64 → Bool
  | .nan, _ => true
  | _, .nan => true
  | .inf a, .inf b => a != b
  | .inf _, .finite _ => true
  | .finite _, .inf _ => true
  | .finite x, .finite y => decide (x ≠ y)

/-- The number a finite `float64` denotes; 0 for NaN and the infinities. -/
def Float64.toRat : Float64 → ℚ
  | .finite value => value
  | _ => 0

namespace Binary64

/-! ### account.go -/

structure Account where
  AccountNumber : String
  HolderName : String
  Balance : Float64
  AccountType : String
  Status : String
  CreatedAt : Time
  UpdatedAt : Time
  deriving DecidableEq, Repr

/-- The ledger: `accounts map[string]Account`. -/
structure accountService where
  accounts : List (String × Account)
  deriving DecidableEq, Repr

def NewAccountService : accountService := { accounts := [] }

/-- `accountService.Create`; `t1`, `t2` are the two readings of `time.Now()`. -/
def accountService.Create (ac : accountService) (account : Account) (t1 t2 : Time) :
    accountService × Except BankError Account :=
  if account.AccountNumber = "" ∨ account.HolderName = "" ∨ account.AccountType = "" then
    (ac, .error .ErrInvalidInput)
  else
    match mapGet ac.accounts account.AccountNumber with
    | some _ => (ac, .error .ErrAccountExists)
    | none =>
      let account :=
        { account with Balance := Float64.zero, Status := "Active", CreatedAt := t1,
                       UpdatedAt := t2 }
      ({ accounts := mapPut ac.accounts account.AccountNumber account }, .ok account)

/-- `accountService.Deposit`; `now` is the reading of `time.Now()`. -/
def accountService.Deposit (ac : accountService) (accountNumber : String) (amount : Float64)
    (now : Time) : accountService × Option BankError :=
  if amount.le Float64.zero then (ac, some .ErrInvalidAmount)
  else
    match mapGet ac.accounts accountNumber with
    | none => (ac, some .ErrAccountNotFound)
    | some account =>
      if account.Status ≠ "Active" then
        (ac, some (.msg ("cannot deposit to an account with status: " ++ account.Status)))
      else
        let account := { account with Balance := account.Balance.add amount, UpdatedAt := now }
        ({ accounts := mapPut ac.accounts accountNumber account }, none)

/-- `accountService.Withdraw`; `now` is the reading of `time.Now()`. -/
def accountService.Withdraw (ac : accountService) (accountNumber : String) (amount : Float64)
    (now : Time) : accountService × Option BankError :=
  if amount.le Float64.zero then (ac, some .ErrInvalidAmount)
  else
    match mapGet ac.accounts accountNumber with
    | none => (ac, some .ErrAccountNotFound)
    | some account =>
      if account.Status ≠ "Active" then
        (ac, some (.msg ("cannot withdraw from an account with status: " ++ account.Status)))
      else if account.Balance.lt amount then
        (ac, some .ErrInsufficientFunds)
      else
        let account := { account with Balance := account.Balance.sub amount, UpdatedAt := now }
        ({ accounts := mapPut ac.accounts accountNumber account }, none)

/-- `accountService.GetBalance`. -/
def accountService.GetBalance (ac : accountService) (accountNumber : String) :
    Except BankError Float64 :=
  match mapGet ac.accounts accountNumber with
  | none => .error .ErrAccountNotFound
  | some account => .ok account.Balance

/-- `accountService.CloseAccount`; `now` is the reading of `time.Now()`. -/
def accountService.CloseAccount (ac : accountService) (accountNumber : String) (now : Time) :
    accountService × Option BankError :=
  match mapGet ac.accounts accountNumber with
  | none => (ac, some .ErrAccountNotFound)
  | some account =>
    if account.Balance.ne Float64.zero then
      (ac, some (.msg "account balance must be zero to close the account"))
    else
      let account := { account with Status := "Closed", UpdatedAt := now }
      ({ accounts := mapPut ac.accounts accountNumber account }, none)

/-! ### transaction.go -/

/-- Go `Transaction`; the field `Type` is written `Type_`. -/
structure Transaction where
  ID : String
  Type_ : TransactionType
  Status : TransactionStatus
  FromAccount : String
  ToAccount : String
  Amount : Float64
  Timestamp : Time
  Description : String
  ReferenceNumber : String
  BalanceAfter : Float64
  Fee : Float64
  deriving DecidableEq, Repr

structure TransactionSummary where
  AccountNumber : String
  TotalDeposits : Float64
  TotalWithdrawals : Float64
  TotalTransfersOut : Float64
  TotalTransfersIn : Float64
  TotalFees : Float64
  TransactionCount : Int
  LastTransaction : Time
  deriving DecidableEq, Repr

/-- The journal: `transactions map[string]*Transaction`. -/
structure transactionService where
  transactions : List (String × Transaction)
  deriving DecidableEq, Repr

def NewTransactionService : transactionService := { transactions := [] }

/-- The `BalanceAfter` computed by the `switch tType` of `CreateTransaction`; the field keeps
its zero value when no case assigns it. -/
def balanceAfter (accounts : accountService) (tType : TransactionType) (fromAcc toAcc : String)
    (amount : Float64) : Float64 :=
  if tType = Deposit then
    if toAcc ≠ "" then
      match accounts.GetBalance toAcc with
      | .ok balance => balance.add amount
      | .error _ => Float64.zero
    else Float64.zero
  else if tType = Withdrawal then
    if fromAcc ≠ "" then
      match accounts.GetBalance fromAcc with
      | .ok balance => balance.sub amount
      | .error _ => Float64.zero
    else Float64.zero
  else if tType = Transfer then
    if fromAcc ≠ "" then
      match accounts.GetBalance fromAcc with
      | .ok balance => balance.sub amount
      | .error _ => Float64.zero
    else Float64.zero
  else Float64.zero

/-- `transactionService.CreateTransaction`; `accounts` is `ts.bankingSystem.accounts`, and
`tId`, `tStamp`, `tRef` are the readings of `time.Now()` made for the id, the timestamp and the
reference number. -/
def transactionService.CreateTransaction (ts : transactionService) (accounts : accountService)
    (tType : TransactionType) (fromAcc toAcc : String) (amount : Float64) (description : String)
    (tId tStamp tRef : Time) : transactionService × Except BankError Transaction :=
  if amount.le Float64.zero then (ts, .error (.msg "transaction amount must be positive"))
  else
    let transaction : Transaction :=
      { ID := generateTransactionID tId
        Type_ := tType
        Status := Pending
        FromAccount := fromAcc
        ToAccount := toAcc
        Amount := amount
        Timestamp := tStamp
        Description := description
        ReferenceNumber := generateReferenceNumber tRef
        BalanceAfter := Float64.zero
        Fee := Float64.zero }
    let transaction :=
      { transaction with BalanceAfter := balanceAfter accounts tType fromAcc toAcc amount }
    let transaction := { transaction with Status := Completed }
    ({ transactions := mapPut ts.transactions transaction.ID transaction }, .ok transaction)

/-- `transactionService.GetTransactionsByAccount`. -/
def transactionService.GetTransactionsByAccount (ts : transactionService)
    (accountNumber : String) : Except BankError (List Transaction) :=
  let accountTransactions := (mapValues ts.transactions).filter
    (fun transaction =>
      transaction.FromAccount = accountNumber ∨ transaction.ToAccount = accountNumber)
  if accountTransactions.length = 0 then .error (.msg "no transactions found for account")
  else .ok accountTransactions

/-- One iteration of the `for _, transaction := range transactions` loop of
`GetTransactionSummary`. -/
def summaryStep (accountNumber : String) (summary : TransactionSummary)
    (transaction : Transaction) : TransactionSummary :=
  if transaction.Status = Completed then
    let summary :=
      if transaction.Type_ = Deposit then
        { summary with TotalDeposits := summary.TotalDeposits.add transaction.Amount }
      else if transaction.Type_ = Withdrawal then
        { summary with TotalWithdrawals := summary.TotalWithdrawals.add transaction.Amount }
      else if transaction.Type_ = Transfer then
        if transaction.FromAccount = accountNumber then
          { summary with TotalTransfersOut := summary.TotalTransfersOut.add transaction.Amount }
        else
          { summary with TotalTransfersIn := summary.TotalTransfersIn.add transaction.Amount }
      else if transaction.Type_ = Fee then
        { summary with TotalFees := summary.TotalFees.add transaction.Amount }
      else summary
    let summary := { summary with TransactionCount := summary.TransactionCount + 1 }
    if transaction.Timestamp > summary.LastTransaction then
      { summary with LastTransaction := transaction.Timestamp }
    else summary
  else summary

/-- The zero-valued summary `&TransactionSummary{AccountNumber: accountNumber}`. -/
def emptySummary (accountNumber : String) : TransactionSummary :=
  { AccountNumber := accountNumber
    TotalDeposits := Float64.zero
    TotalWithdrawals := Float64.zero
    TotalTransfersOut := Float64.zero
    TotalTransfersIn := Float64.zero
    TotalFees := Float64.zero
    TransactionCount := 0
    LastTransaction := Time.zero }

/-- `transactionService.GetTransactionSummary`. -/
def transactionService.GetTransactionSummary (ts : transactionService)
    (accountNumber : String) : TransactionSummary :=
  let summary := emptySummary accountNumber
  match ts.GetTransactionsByAccount accountNumber with
  | .error _ => summary
  | .ok transactions => transactions.foldl (summaryStep accountNumber) summary

/-- The `netAmount` printed by `TransactionSummary.DisplayTransactionSummary`. -/
def TransactionSummary.netAmount (ts : TransactionSummary) : Float64 :=
  ((((ts.TotalDeposits.add ts.TotalTransfersIn).sub ts.TotalWithdrawals).sub
    ts.TotalTransfersOut).sub ts.TotalFees)

/-! ### bank.go -/

structure BankingSystem where
  users : userService
  accounts : accountService
  transactions : transactionService
  deriving DecidableEq, Repr

def NewBankingSystem : BankingSystem :=
  { users := NewUserService, accounts := NewAccountService, transactions := NewTransactionService }

/-- `BankingSystem.CreateUser`. -/
def BankingSystem.CreateUser (bs : BankingSystem)
    (firstName lastName email password address phone panCard aadharCard : String) :
    BankingSystem × Except BankError User :=
  let user : User :=
    { ID := 0
      FirstName := firstName
      LastName := lastName
      Email := email
      Password := password
      Address := address
      Phone := phone
      PanCardNumber := panCard
      AadharCardNumber := aadharCard
      Accounts := [] }
  match bs.users.Create user with
  | (users, .error err) => ({ bs with users := users }, .error err)
  | (users, .ok createdUser) => ({ bs with users := users }, .ok createdUser)

/-- `BankingSystem.CreateAccount`; `clock 0`, `clock 1` are the readings made by the ledger's
`Create`. -/
def BankingSystem.CreateAccount (bs : BankingSystem) (accountNumber holderName accountType : String)
    (userID : Int) (clock : Nat → Time) : BankingSystem × Option BankError :=
  match bs.users.Get userID with
  | .error _ => (bs, some (.msg "user not found"))
  | .ok _ =>
    let account : Account :=
      { AccountNumber := accountNumber
        HolderName := holderName
        Balance := Float64.zero
        AccountType := accountType
        Status := ""
        CreatedAt := Time.zero
        UpdatedAt := Time.zero }
    match bs.accounts.Create account (clock 0) (clock 1) with
    | (accounts, .error err) => ({ bs with accounts := accounts }, some err)
    | (accounts, .ok _) =>
      let bs := { bs with accounts := accounts }
      match bs.users.AddAccountToUser userID accountNumber with
      | (users, some err) => ({ bs with users := users }, some err)
      | (users, none) => ({ bs with users := users }, none)

/-- `BankingSystem.Deposit`; `clock 0` is the reading made by the ledger's `Deposit`, then
`clock 1`, `clock 2`, `clock 3` those made by `CreateTransaction`. -/
def BankingSystem.Deposit (bs : BankingSystem) (accountNumber : String) (amount : Float64)
    (clock : Nat → Time) : BankingSystem × Option BankError :=
  match bs.accounts.Deposit accountNumber amount (clock 0) with
  | (accounts, some err) => ({ bs with accounts := accounts }, some err)
  | (accounts, none) =>
    let bs := { bs with accounts := accounts }
    let (transactions, _) := bs.transactions.CreateTransaction bs.accounts Bank.Deposit ""
      accountNumber amount "Cash deposit" (clock 1) (clock 2) (clock 3)
    ({ bs with transactions := transactions }, none)

/-- `BankingSystem.Withdraw`; `clock 0` is the reading made by the ledger's `Withdraw`, then
`clock 1`, `clock 2`, `clock 3` those made by `CreateTransaction`. -/
def BankingSystem.Withdraw (bs : BankingSystem) (accountNumber : String) (amount : Float64)
    (clock : Nat → Time) : BankingSystem × Option BankError :=
  match bs.accounts.Withdraw accountNumber amount (clock 0) with
  | (accounts, some err) => ({ bs with accounts := accounts }, some err)
  | (accounts, none) =>
    let bs := { bs with accounts := accounts }
    let (transactions, _) := bs.transactions.CreateTransaction bs.accounts Bank.Withdrawal
      accountNumber "" amount "Cash withdrawal" (clock 1) (clock 2) (clock 3)
    ({ bs with transactions := transactions }, none)

/-- `BankingSystem.Transfer`; `clock 0` is the reading made by the ledger's `Withdraw`, `clock 1`
the one made by the ledger's `Deposit` that writes (into the destination, or the rollback
`Deposit`), then `clock 2`, `clock 3`, `clock 4` those made by `CreateTransaction`.  The result
of the rollback `Deposit` is dropped, as in the source. -/
def BankingSystem.Transfer (bs : BankingSystem) (fromAccount toAccount : String)
    (amount : Float64) (clock : Nat → Time) : BankingSystem × Option BankError :=
  match bs.accounts.Withdraw fromAccount amount (clock 0) with
  | (accounts, some err) => ({ bs with accounts := accounts }, some err)
  | (accounts, none) =>
    let bs := { bs with accounts := accounts }
    match bs.accounts.Deposit toAccount amount (clock 1) with
    | (accounts, some err) =>
      let bs := { bs with accounts := accounts }
      let (accounts, _) := bs.accounts.Deposit fromAccount amount (clock 1)
      ({ bs with accounts := accounts }, some err)
    | (accounts, none) =>
      let bs := { bs with accounts := accounts }
      let (transactions, _) := bs.transactions.CreateTransaction bs.accounts Bank.Transfer
        fromAccount toAccount amount "Fund transfer" (clock 2) (clock 3) (clock 4)
      ({ bs with transactions := transactions }, none)

/-- `BankingSystem.CloseAccount`; `clock 0` is the reading made by the ledger. -/
def BankingSystem.CloseAccount (bs : BankingSystem) (accountNumber : String)
    (clock : Nat → Time) : BankingSystem × Option BankError :=
  match bs.accounts.CloseAccount accountNumber (clock 0) with
  | (accounts, err) => ({ bs with accounts := accounts }, err)

/-- The summary shown by `BankingSystem.GetTransactionSummary`. -/
def BankingSystem.GetTransactionSummary (bs : BankingSystem) (accountNumber : String) :
    TransactionSummary :=
  bs.transactions.GetTransactionSummary accountNumber

/-! ### Observations and sample states -/

/-- The balance of an account, `none` when the account number is not in the ledger. -/
def BankingSystem.balanceOf (bs : BankingSystem) (accountNumber : String) : Option Float64 :=
  (mapGet bs.accounts.accounts accountNumber).map (fun a => a.Balance)

/-- The exact sum of the numbers that the balances of the ledger denote. -/
def accountService.totalBalance (ac : accountService) : ℚ :=
  ((mapValues ac.accounts).map (fun a => a.Balance.toRat)).sum

/-- An account value as `BankingSystem.CreateAccount` builds it before calling `Create`. -/
def sampleAccount (number : String) : Account :=
  { AccountNumber := number
    HolderName := "Holder"
    Balance := Float64.zero
    AccountType := "Savings"
    Status := ""
    CreatedAt := Time.zero
    UpdatedAt := Time.zero }

/-- A new ledger in which account `A1` has been created. -/
def sampleLedgerA1 : accountService :=
  (NewAccountService.Create (sampleAccount "A1") 10 11).1

/-- A new system in which the user with id 1 and, for that user, the accounts `A1` and `A2`
have been created through the orchestrator. -/
def sampleA1A2 : BankingSystem :=
  (((NewBankingSystem.CreateUser "Asha" "Rao" "asha@example.com" "secret" "Pune" "100" "PAN1"
    "AADHAR1").1.CreateAccount "A1" "Asha Rao" "Savings" 1 (exampleClock 10)).1.CreateAccount
    "A2" "Asha Rao" "Current" 1 (exampleClock 20)).1

/-- The ledger `sampleLedgerA1` after a deposit of 1000 into `A1`. -/
def sampleLedgerFunded : accountService :=
  (sampleLedgerA1.Deposit "A1" (Float64.ofRat 1000) 20).1

/-- The ledger `sampleLedgerA1` after a deposit of 0.1 into `A1`. -/
def sampleLedgerTenth : accountService :=
  (sampleLedgerA1.Deposit "A1" (Float64.ofRat (1 / 10)) 20).1

/-- The system `sampleA1A2` after a deposit of 10000000000000000 into `A1`. -/
def sampleLarge : BankingSystem :=
  (sampleA1A2.Deposit "A1" (Float64.ofRat 10000000000000000) (exampleClock 30)).1

/-- The system `sampleA1A2` after a deposit of 0.9 into `A1` and the closing of `A2`. -/
def sampleClosed : BankingSystem :=
  ((sampleA1A2.Deposit "A1" (Float64.ofRat (9 / 10)) (exampleClock 30)).1.CloseAccount "A2"
    (exampleClock 40)).1

/-- The system `sampleA1A2` after a deposit of 2.7 into `A1` and withdrawals of 0.2 and 0.7
from it. -/
def sampleCash : BankingSystem :=
  (((sampleA1A2.Deposit "A1" (Float64.ofRat (27 / 10)) (exampleClock 30)).1.Withdraw "A1"
    (Float64.ofRat (2 / 10)) (exampleClock 40)).1.Withdraw "A1" (Float64.ofRat (7 / 10))
    (exampleClock 50)).1

/-- The system `sampleA1A2` after deposits of 0.1, 0.2 and 0.3 into `A1`. -/
def sampleThree : BankingSystem :=
  (((sampleA1A2.Deposit "A1" (Float64.ofRat (1 / 10)) (exampleClock 30)).1.Deposit "A1"
    (Float64.ofRat (2 / 10)) (exampleClock 40)).1.Deposit "A1" (Float64.ofRat (3 / 10))
    (exampleClock 50)).1

end Binary64

end Bank

/-! # The todo service (`src/main.go`)

`Todo` and `InMemoryTodoService` with its methods.  Go `int` is `Int`; the slice `todos` is a
list; a method with a pointer receiver returns the receiver's new value together with its Go
result; the `error` built by `fmt.Errorf` is kept as its message. -/

namespace TodoApp

structure Todo where
  ID : Int
  Task : String
  Completed : Bool
  deriving DecidableEq, Repr

structure InMemoryTodoService where
  todos : List Todo
  nextID : Int
  deriving DecidableEq, Repr

def NewInMemoryTodoService : InMemoryTodoService := { todos := [], nextID := 1 }

/-- `InMemoryTodoService.Add`; the second component is the todo whose address is returned. -/
def InMemoryTodoService.Add (s : InMemoryTodoService) (task : String) :
    InMemoryTodoService × Todo :=
  let todo : Todo := { ID := s.nextID, Task := task, Completed := false }
  ({ todos := s.todos ++ [todo], nextID := s.nextID + 1 }, todo)

/-- `InMemoryTodoService.List`. -/
def InMemoryTodoService.List (s : InMemoryTodoService) : List Todo := s.todos

/-- The message of `fmt.Errorf("todo with ID %d not found", id)`. -/
def notFound (id : Int) : String := "todo with ID " ++ toString id ++ " not found"

/-- The loop of `Complete` over the slice: at the first todo with the id, `Completed` is set
and the loop returns; `none` when the loop ends without a match. -/
def completeLoop (id : Int) : List Todo → Option (List Todo)
  | [] => none
  | todo :: rest =>
    if todo.ID = id then some ({ todo with Completed := true } :: rest)
    else (completeLoop id rest).map (fun rest' => todo :: rest')

/-- `InMemoryTodoService.Complete`. -/
def InMemoryTodoService.Complete (s : InMemoryTodoService) (id : Int) :
    InMemoryTodoService × Option String :=
  match completeLoop id s.todos with
  | some todos => ({ s with todos := todos }, none)
  | none => (s, some (notFound id))

/-- The loop of `Delete` over the slice: at the first index `i` whose todo has the id, the
slice becomes `append(todos[:i], todos[i+1:]...)` and the loop returns; `none` when the loop
ends without a match. -/
def deleteLoop (id : Int) : List Todo → Option (List Todo)
  | [] => none
  | todo :: rest =>
    if todo.ID = id then some rest
    else (deleteLoop id rest).map (fun rest' => todo :: rest')

/-- `InMemoryTodoService.Delete`. -/
def InMemoryTodoService.Delete (s : InMemoryTodoService) (id : Int) :
    InMemoryTodoService × Option String :=
  match deleteLoop id s.todos with
  | some todos => ({ s with todos := todos }, none)
  | none => (s, some (notFound id))

/-- `InMemoryTodoService.Get`: the first todo met by the loop with that id. -/
def InMemoryTodoService.Get (s : InMemoryTodoService) (id : Int) : Except String Todo :=
  match s.todos.find? (fun todo => todo.ID = id) with
  | some todo => .ok todo
  | none => .error (notFound id)

/-- A call that changes the service. -/
inductive TodoCall where
  | add (task : String)
  | complete (id : Int)
  | delete (id : Int)
  deriving DecidableEq, Repr

/-- Run one call and keep the new state of the service. -/
def InMemoryTodoService.call (s : InMemoryTodoService) : TodoCall → InMemoryTodoService
  | .add task => (s.Add task).1
  | .complete id => (s.Complete id).1
  | .delete id => (s.Delete id).1

/-- Run the calls in order, failing calls included. -/
def runCalls (s : InMemoryTodoService) : List TodoCall → InMemoryTodoService
  | [] => s
  | c :: rest => runCalls (s.call c) rest

/-- The states reached from a new service by any sequence of `Add`, `Complete` and `Delete`,
failing calls included. -/
inductive TodoReachable : InMemoryTodoService → Prop where
  | init : TodoReachable NewInMemoryTodoService
  | step {s : InMemoryTodoService} (c : TodoCall) : TodoReachable s → TodoReachable (s.call c)

/-- The ids of the list are strictly increasing in list order and all below `nextID`. -/
def InMemoryTodoService.Ordered (s : InMemoryTodoService) : Prop :=
  s.todos.Pairwise (fun a b => a.ID < b.ID) ∧ ∀ todo ∈ s.todos, todo.ID < s.nextID

/-- Three todos added, the second one then deleted and the third completed. -/
def exampleTodos : InMemoryTodoService :=
  runCalls NewInMemoryTodoService
    [.add "write", .add "review", .add "ship", .delete 2, .complete 3]

end TodoApp

namespace Bank

/-! ## Lemmas on maps -/

theorem mapGet_mapPut_same {κ β : Type} [DecidableEq κ] (m : List (κ × β)) (k : κ) (v : β) :
    mapGet (mapPut m k v) k = some v := by
  induction m with
  | nil => simp [mapPut, mapGet]
  | cons p m ih =>
    obtain ⟨k', v'⟩ := p
    by_cases h : k' = k
    · simp [mapPut, mapGet, h]
    · simp [mapPut, mapGet, h, ih]

theorem mapGet_mapPut_ne {κ β : Type} [DecidableEq κ] (m : List (κ × β)) {k k' : κ} (v : β)
    (h : k ≠ k') : mapGet (mapPut m k v) k' = mapGet m k' := by
  induction m with
  | nil => simp [mapPut, mapGet, h]
  | cons p m ih =>
    obtain ⟨k₀, v₀⟩ := p
    by_cases h₀ : k₀ = k
    · subst h₀
      simp [mapPut, mapGet, h]
    · by_cases h₁ : k₀ = k'
      · subst h₁
        simp [mapPut, mapGet, h₀]
      · simp [mapPut, mapGet, h₀, h₁, ih]

theorem mem_of_mapGet {κ β : Type} [DecidableEq κ] {m : List (κ × β)} {k : κ} {v : β}
    (h : mapGet m k = some v) : (k, v) ∈ m := by
  induction m with
  | nil => simp [mapGet] at h
  | cons p m ih =>
    obtain ⟨k', v'⟩ := p
    by_cases hk : k' = k
    · simp [mapGet, hk] at h
      simp [hk, h]
    · simp [mapGet, hk] at h
      exact List.mem_cons_of_mem _ (ih h)

theorem mem_mapPut {κ β : Type} [DecidableEq κ] {m : List (κ × β)} {k : κ} {v : β}
    {p : κ × β} (h : p ∈ mapPut m k v) : p = (k, v) ∨ p ∈ m := by
  induction m with
  | nil => simpa [mapPut] using h
  | cons q m ih =>
    obtain ⟨k', v'⟩ := q
    by_cases hk : k' = k
    · simp [mapPut, hk] at h
      rcases h with h | h
      · exact Or.inl h
      · exact Or.inr (List.mem_cons_of_mem _ h)
    · simp [mapPut, hk] at h
      rcases h with h | h
      · exact Or.inr (by simp [h])
      · rcases ih h with h' | h'
        · exact Or.inl h'
        · exact Or.inr (List.mem_cons_of_mem _ h')

/-- Overwriting the binding of a key that is present changes a sum over the map by the
difference of the two summands. -/
theorem sum_mapPut_of_mapGet {κ β : Type} [DecidableEq κ] (f : β → ℚ) {m : List (κ × β)}
    {k : κ} {a : β} (v : β) (h : mapGet m k = some a) :
    (((mapPut m k v).map Prod.snd).map f).sum = ((m.map Prod.snd).map f).sum - f a + f v := by
  induction m with
  | nil => simp [mapGet] at h
  | cons p m ih =>
    obtain ⟨k', v'⟩ := p
    by_cases hk : k' = k
    · simp [mapGet, hk] at h
      subst h
      simp [mapPut, hk]
      ring
    · simp [mapGet, hk] at h
      have ih' := ih h
      simp only [mapPut, hk, if_false, List.map_cons, List.sum_cons, ih']
      ring

/-- Adding a binding for a key that is absent appends it to the enumeration. -/
theorem mapPut_of_mapGet_none {κ β : Type} [DecidableEq κ] {m : List (κ × β)} {k : κ} (v : β)
    (h : mapGet m k = none) : mapPut m k v = m ++ [(k, v)] := by
  induction m with
  | nil => simp [mapPut]
  | cons p m ih =>
    obtain ⟨k', v'⟩ := p
    by_cases hk : k' = k
    · simp [mapGet, hk] at h
    · simp [mapGet, hk] at h
      simp [mapPut, hk, ih h]

/-! ## Lemmas on the ledger -/

/-- A successful `Withdraw`, read backwards: what the guards established and what was
written. -/
theorem accountService.Withdraw_eq_none {ac : accountService} {k : String} {amount : Amount}
    {now : Time} (h : (ac.Withdraw k amount now).2 = none) :
    ∃ a, mapGet ac.accounts k = some a ∧ 0 < amount ∧ a.Status = "Active" ∧
      amount ≤ a.Balance ∧
      (ac.Withdraw k amount now).1 =
        { accounts := mapPut ac.accounts k
            { a with Balance := a.Balance - amount, UpdatedAt := now } } := by
  unfold accountService.Withdraw at h ⊢
  by_cases h0 : amount ≤ 0
  · simp [h0] at h
  · cases hg : mapGet ac.accounts k with
    | none => simp [h0, hg] at h
    | some a =>
      by_cases hs : a.Status = "Active"
      · by_cases hb : a.Balance < amount
        · simp [h0, hg, hs, hb] at h
        · exact ⟨a, rfl, lt_of_not_ge h0, hs, le_of_not_lt hb, by simp [h0, hs, hb]⟩
      · simp [h0, hg, hs] at h

/-- A failing `Withdraw` leaves the ledger as it was. -/
theorem accountService.Withdraw_of_error {ac : accountService} {k : String} {amount : Amount}
    {now : Time} (h : (ac.Withdraw k amount now).2 ≠ none) :
    (ac.Withdraw k amount now).1 = ac := by
  unfold accountService.Withdraw at h ⊢
  by_cases h0 : amount ≤ 0
  · simp [h0]
  · cases hg : mapGet ac.accounts k with
    | none => simp [h0]
    | some a =>
      by_cases hs : a.Status = "Active"
      · by_cases hb : a.Balance < amount
        · simp [h0, hs, hb]
        · simp [h0, hg, hs, hb] at h
      · simp [h0, hs]

/-- A successful `Deposit`, read backwards. -/
theorem accountService.Deposit_eq_none {ac : accountService} {k : String} {amount : Amount}
    {now : Time} (h : (ac.Deposit k amount now).2 = none) :
    ∃ a, mapGet ac.accounts k = some a ∧ 0 < amount ∧ a.Status = "Active" ∧
      (ac.Deposit k amount now).1 =
        { accounts := mapPut ac.accounts k
            { a with Balance := a.Balance + amount, UpdatedAt := now } } := by
  unfold accountService.Deposit at h ⊢
  by_cases h0 : amount ≤ 0
  · simp [h0] at h
  · cases hg : mapGet ac.accounts k with
    | none => simp [h0, hg] at h
    | some a =>
      by_cases hs : a.Status = "Active"
      · exact ⟨a, rfl, lt_of_not_ge h0, hs, by simp [h0, hs]⟩
      · simp [h0, hg, hs] at h

/-- A failing `Deposit` leaves the ledger as it was. -/
theorem accountService.Deposit_of_error {ac : accountService} {k : String} {amount : Amount}
    {now : Time} (h : (ac.Deposit k amount now).2 ≠ none) :
    (ac.Deposit k amount now).1 = ac := by
  unfold accountService.Deposit at h ⊢
  by_cases h0 : amount ≤ 0
  · simp [h0]
  · cases hg : mapGet ac.accounts k with
    | none => simp [h0]
    | some a =>
      by_cases hs : a.Status = "Active"
      · simp [h0, hg, hs] at h
      · simp [h0, hs]

/-- `Deposit` succeeds on an `Active` account with a positive amount. -/
theorem accountService.Deposit_of_active {ac : accountService} {k : String} {amount : Amount}
    {a : Account} (now : Time) (hg : mapGet ac.accounts k = some a) (h0 : 0 < amount)
    (hs : a.Status = "Active") :
    ac.Deposit k amount now =
      ({ accounts := mapPut ac.accounts k
          { a with Balance := a.Balance + amount, UpdatedAt := now } }, none) := by
  unfold accountService.Deposit
  simp [not_le.mpr h0, hg, hs]

/-- `Withdraw` succeeds on an `Active` account holding at least the positive amount. -/
theorem accountService.Withdraw_of_active {ac : accountService} {k : String} {amount : Amount}
    {a : Account} (now : Time) (hg : mapGet ac.accounts k = some a) (h0 : 0 < amount)
    (hs : a.Status = "Active") (hb : amount ≤ a.Balance) :
    ac.Withdraw k amount now =
      ({ accounts := mapPut ac.accounts k
          { a with Balance := a.Balance - amount, UpdatedAt := now } }, none) := by
  unfold accountService.Withdraw
  simp [not_le.mpr h0, hg, hs, not_lt.mpr hb]

/-- Writing an account with a balance of at least zero keeps every balance at least zero. -/
theorem accountService.NonNegative_mapPut {ac : accountService} {k : String} {a : Account}
    (h : ac.NonNegative) (ha : 0 ≤ a.Balance) :
    accountService.NonNegative { accounts := mapPut ac.accounts k a } := by
  intro p hp
  rcases mem_mapPut hp with hp' | hp'
  · subst hp'
    exact ha
  · exact h p hp'

theorem accountService.NonNegative_Create {ac : accountService} (account : Account)
    (t1 t2 : Time) (h : ac.NonNegative) : (ac.Create account t1 t2).1.NonNegative := by
  unfold accountService.Create
  split
  · exact h
  · split
    · exact h
    · exact accountService.NonNegative_mapPut h (le_refl _)

theorem accountService.NonNegative_Deposit {ac : accountService} (k : String) (amount : Amount)
    (now : Time) (h : ac.NonNegative) : (ac.Deposit k amount now).1.NonNegative := by
  cases hr : (ac.Deposit k amount now).2 with
  | some err =>
    rw [accountService.Deposit_of_error (by simp [hr])]
    exact h
  | none =>
    obtain ⟨a, hg, h0, _, heq⟩ := accountService.Deposit_eq_none hr
    rw [heq]
    have ha : 0 ≤ a.Balance := h _ (mem_of_mapGet hg)
    exact accountService.NonNegative_mapPut h (by simp only; linarith)

theorem accountService.NonNegative_Withdraw {ac : accountService} (k : String)
    (amount : Amount) (now : Time) (h : ac.NonNegative) :
    (ac.Withdraw k amount now).1.NonNegative := by
  cases hr : (ac.Withdraw k amount now).2 with
  | some err =>
    rw [accountService.Withdraw_of_error (by simp [hr])]
    exact h
  | none =>
    obtain ⟨a, hg, h0, _, hb, heq⟩ := accountService.Withdraw_eq_none hr
    rw [heq]
    exact accountService.NonNegative_mapPut h (by simp only; linarith)

theorem accountService.NonNegative_CloseAccount {ac : accountService} (k : String) (now : Time)
    (h : ac.NonNegative) : (ac.CloseAccount k now).1.NonNegative := by
  unfold accountService.CloseAccount
  cases hg : mapGet ac.accounts k with
  | none => exact h
  | some a =>
    by_cases hb : a.Balance = 0
    · simp only [hb, ne_eq, not_true_eq_false, if_false]
      exact accountService.NonNegative_mapPut h (by simp [hb])
    · simp only [hb, ne_eq, not_false_eq_true, if_true]
      exact h

/-! ## Lemmas on the orchestrator -/

/-- `Transfer` when the withdrawal fails: the error is returned and nothing is written. -/
theorem BankingSystem.Transfer_of_withdraw_error {bs : BankingSystem} {f t : String}
    {amount : Amount} {clock : Nat → Time} {err : BankError}
    (h : (bs.accounts.Withdraw f amount (clock 0)).2 = some err) :
    bs.Transfer f t amount clock = (bs, some err) := by
  have hst := accountService.Withdraw_of_error (by simp [h] :
    (bs.accounts.Withdraw f amount (clock 0)).2 ≠ none)
  rcases hw : bs.accounts.Withdraw f amount (clock 0) with ⟨w, e⟩
  rw [hw] at h hst
  simp only at h hst
  subst h hst
  simp [BankingSystem.Transfer, hw]

/-- `Transfer` when the withdrawal succeeds and the deposit fails: the deposit's error is
returned after the rollback deposit has run on the source. -/
theorem BankingSystem.Transfer_of_deposit_error {bs : BankingSystem} {f t : String}
    {amount : Amount} {clock : Nat → Time} {err : BankError}
    (hw : (bs.accounts.Withdraw f amount (clock 0)).2 = none)
    (hd : ((bs.accounts.Withdraw f amount (clock 0)).1.Deposit t amount (clock 1)).2 = some err) :
    bs.Transfer f t amount clock =
      ({ bs with accounts :=
          (((bs.accounts.Withdraw f amount (clock 0)).1.Deposit t amount (clock 1)).1.Deposit
            f amount (clock 1)).1 }, some err) := by
  rcases hw' : bs.accounts.Withdraw f amount (clock 0) with ⟨w, e⟩
  rw [hw'] at hw hd
  simp only at hw hd
  subst hw
  rcases hd' : w.Deposit t amount (clock 1) with ⟨d, e'⟩
  rw [hd'] at hd
  simp only at hd
  subst hd
  simp [BankingSystem.Transfer, hw', hd']

/-- `Transfer` when both legs succeed: the journal entry is written on the new ledger. -/
theorem BankingSystem.Transfer_of_ok {bs : BankingSystem} {f t : String}
    {amount : Amount} {clock : Nat → Time}
    (hw : (bs.accounts.Withdraw f amount (clock 0)).2 = none)
    (hd : ((bs.accounts.Withdraw f amount (clock 0)).1.Deposit t amount (clock 1)).2 = none) :
    bs.Transfer f t amount clock =
      ({ bs with
          accounts := ((bs.accounts.Withdraw f amount (clock 0)).1.Deposit t amount (clock 1)).1
          transactions :=
            (bs.transactions.CreateTransaction
              ((bs.accounts.Withdraw f amount (clock 0)).1.Deposit t amount (clock 1)).1
              Bank.Transfer f t amount "Fund transfer" (clock 2) (clock 3) (clock 4)).1 },
        none) := by
  rcases hw' : bs.accounts.Withdraw f amount (clock 0) with ⟨w, e⟩
  rw [hw'] at hw hd
  simp only at hw hd
  subst hw
  rcases hd' : w.Deposit t amount (clock 1) with ⟨d, e'⟩
  rw [hd'] at hd
  simp only at hd
  subst hd
  simp [BankingSystem.Transfer, hw', hd']

/-- The ledger after `Transfer` is the ledger after one, two or three ledger calls. -/
theorem BankingSystem.Transfer_accounts (bs : BankingSystem) (f t : String) (amount : Amount)
    (clock : Nat → Time) :
    (bs.Transfer f t amount clock).1.accounts = bs.accounts ∨
    (bs.Transfer f t amount clock).1.accounts =
      ((bs.accounts.Withdraw f amount (clock 0)).1.Deposit t amount (clock 1)).1 ∨
    (bs.Transfer f t amount clock).1.accounts =
      (((bs.accounts.Withdraw f amount (clock 0)).1.Deposit t amount (clock 1)).1.Deposit
        f amount (clock 1)).1 := by
  cases hw : (bs.accounts.Withdraw f amount (clock 0)).2 with
  | some err => left; rw [BankingSystem.Transfer_of_withdraw_error hw]
  | none =>
    cases hd : ((bs.accounts.Withdraw f amount (clock 0)).1.Deposit t amount (clock 1)).2 with
    | some err => right; right; rw [BankingSystem.Transfer_of_deposit_error hw hd]
    | none => right; left; rw [BankingSystem.Transfer_of_ok hw hd]

/-- The ledger after the orchestrator's `Deposit` is the ledger after the ledger's `Deposit`. -/
theorem BankingSystem.Deposit_accounts (bs : BankingSystem) (k : String) (amount : Amount)
    (clock : Nat → Time) :
    (bs.Deposit k amount clock).1.accounts = (bs.accounts.Deposit k amount (clock 0)).1 := by
  rcases h : bs.accounts.Deposit k amount (clock 0) with ⟨d, _ | err⟩ <;>
    simp [BankingSystem.Deposit, h]

/-- The ledger after the orchestrator's `Withdraw` is the ledger after the ledger's
`Withdraw`. -/
theorem BankingSystem.Withdraw_accounts (bs : BankingSystem) (k : String) (amount : Amount)
    (clock : Nat → Time) :
    (bs.Withdraw k amount clock).1.accounts = (bs.accounts.Withdraw k amount (clock 0)).1 := by
  rcases h : bs.accounts.Withdraw k amount (clock 0) with ⟨d, _ | err⟩ <;>
    simp [BankingSystem.Withdraw, h]

/-- The ledger after `CreateAccount` is unchanged or the ledger after the ledger's `Create`. -/
theorem BankingSystem.CreateAccount_accounts (bs : BankingSystem) (n h t : String) (u : Int)
    (clock : Nat → Time) :
    (bs.CreateAccount n h t u clock).1.accounts = bs.accounts ∨
    (bs.CreateAccount n h t u clock).1.accounts =
      (bs.accounts.Create
        { AccountNumber := n, HolderName := h, Balance := 0, AccountType := t, Status := "",
          CreatedAt := Time.zero, UpdatedAt := Time.zero } (clock 0) (clock 1)).1 := by
  unfold BankingSystem.CreateAccount
  cases hu : bs.users.Get u with
  | error e => left; rfl
  | ok usr =>
    right
    simp only
    split
    · next accounts err heq => simp [heq]
    · next accounts a heq =>
      simp only [heq]
      split <;> rfl

/-- `CreateUser` does not touch the ledger. -/
theorem BankingSystem.CreateUser_accounts (bs : BankingSystem)
    (a b c d e f g h : String) : (bs.CreateUser a b c d e f g h).1.accounts = bs.accounts := by
  unfold BankingSystem.CreateUser
  simp only
  split <;> rfl

/-- Every call keeps every balance at least zero. -/
theorem BankingSystem.NonNegative_call {bs : BankingSystem} (c : Call) (clock : Nat → Time)
    (h : bs.accounts.NonNegative) : (bs.call c clock).1.accounts.NonNegative := by
  cases c with
  | ledgerCreate account => exact accountService.NonNegative_Create _ _ _ h
  | ledgerDeposit k amount => exact accountService.NonNegative_Deposit _ _ _ h
  | ledgerWithdraw k amount => exact accountService.NonNegative_Withdraw _ _ _ h
  | ledgerCloseAccount k => exact accountService.NonNegative_CloseAccount _ _ h
  | createUser a b c d e f g i =>
    show (bs.CreateUser a b c d e f g i).1.accounts.NonNegative
    rw [BankingSystem.CreateUser_accounts]
    exact h
  | createAccount n hn t u =>
    show (bs.CreateAccount n hn t u clock).1.accounts.NonNegative
    rcases BankingSystem.CreateAccount_accounts bs n hn t u clock with e | e
    · rw [e]; exact h
    · rw [e]; exact accountService.NonNegative_Create _ _ _ h
  | deposit k amount =>
    show (bs.Deposit k amount clock).1.accounts.NonNegative
    rw [BankingSystem.Deposit_accounts]
    exact accountService.NonNegative_Deposit _ _ _ h
  | withdraw k amount =>
    show (bs.Withdraw k amount clock).1.accounts.NonNegative
    rw [BankingSystem.Withdraw_accounts]
    exact accountService.NonNegative_Withdraw _ _ _ h
  | transfer f t amount =>
    show (bs.Transfer f t amount clock).1.accounts.NonNegative
    rcases BankingSystem.Transfer_accounts bs f t amount clock with e | e | e
    · rw [e]; exact h
    · rw [e]
      exact accountService.NonNegative_Deposit _ _ _ (accountService.NonNegative_Withdraw _ _ _ h)
    · rw [e]
      exact accountService.NonNegative_Deposit _ _ _ (accountService.NonNegative_Deposit _ _ _
        (accountService.NonNegative_Withdraw _ _ _ h))
  | closeAccount k =>
    show (bs.accounts.CloseAccount k (clock 0)).1.NonNegative
    exact accountService.NonNegative_CloseAccount _ _ h

/-- Every balance of a reachable state is at least zero. -/
theorem Reachable.nonNegative {bs : BankingSystem} (h : Reachable bs) :
    bs.accounts.NonNegative := by
  induction h with
  | init => intro p hp; simp [NewBankingSystem, NewAccountService] at hp
  | step c clock _ ih => exact BankingSystem.NonNegative_call c clock ih

theorem exampleA1_reachable : Reachable exampleA1 := Reachable.step _ _ Reachable.init

theorem exampleA1A2_reachable : Reachable exampleA1A2 := Reachable.step _ _ exampleA1_reachable

theorem exampleFunded_reachable : Reachable exampleFunded :=
  Reachable.step _ _ exampleA1A2_reachable

theorem exampleClosed_reachable : Reachable exampleClosed :=
  Reachable.step _ _ exampleFunded_reachable

theorem exampleTick_reachable : Reachable exampleTick :=
  Reachable.step _ _ exampleA1A2_reachable

/-! ## Lemmas on the total balance -/

theorem accountService.totalBalance_mapPut {ac : accountService} {k : String} {a : Account}
    (v : Account) (h : mapGet ac.accounts k = some a) :
    accountService.totalBalance { accounts := mapPut ac.accounts k v } =
      ac.totalBalance - a.Balance + v.Balance := by
  unfold accountService.totalBalance mapValues
  exact sum_mapPut_of_mapGet (fun a => a.Balance) v h

theorem accountService.totalBalance_Deposit {ac : accountService} {k : String}
    {amount : Amount} {now : Time} (h : (ac.Deposit k amount now).2 = none) :
    (ac.Deposit k amount now).1.totalBalance = ac.totalBalance + amount := by
  obtain ⟨a, hg, _, _, heq⟩ := accountService.Deposit_eq_none h
  rw [heq, accountService.totalBalance_mapPut _ hg]
  ring

theorem accountService.totalBalance_Withdraw {ac : accountService} {k : String}
    {amount : Amount} {now : Time} (h : (ac.Withdraw k amount now).2 = none) :
    (ac.Withdraw k amount now).1.totalBalance = ac.totalBalance - amount := by
  obtain ⟨a, hg, _, _, _, heq⟩ := accountService.Withdraw_eq_none h
  rw [heq, accountService.totalBalance_mapPut _ hg]
  ring

/-- The rollback of `Transfer`: once the withdrawal from `f` has succeeded and the deposit to
`t` has failed, the deposit back to `f` succeeds and restores the account of `f` up to its
update time. -/
theorem accountService.rollback_Deposit {ac : accountService} {f : String} {amount : Amount}
    {t0 : Time} (t : String) (t1 t2 : Time) (hw : (ac.Withdraw f amount t0).2 = none)
    (hd : ((ac.Withdraw f amount t0).1.Deposit t amount t1).2 ≠ none) :
    ∃ a, mapGet ac.accounts f = some a ∧
      (((ac.Withdraw f amount t0).1.Deposit t amount t1).1.Deposit f amount t2) =
        ({ accounts := mapPut (mapPut ac.accounts f
              { a with Balance := a.Balance - amount, UpdatedAt := t0 }) f
              { a with Balance := a.Balance - amount + amount, UpdatedAt := t2 } }, none) := by
  obtain ⟨a, hg, h0, hs, _, heq⟩ := accountService.Withdraw_eq_none hw
  refine ⟨a, hg, ?_⟩
  rw [accountService.Deposit_of_error hd, heq]
  exact accountService.Deposit_of_active t2 (mapGet_mapPut_same _ _ _) h0 hs

/-! ## Balances never go below zero, transfers conserve money -/

/-- With amounts as exact numbers: in every state reachable from a new banking system (an
empty ledger) by any sequence of calls, successful or failing (the ledger's `Create`,
`Deposit`, `Withdraw`, `CloseAccount` and the orchestrator's calls, `Transfer` among them),
every account's balance is at least zero.  With `float64` amounts a deposit of NaN breaks
this, see `Binary64`. -/
theorem exact_balance_nonneg_of_reachable (bs : BankingSystem) (h : Reachable bs) :
    bs.accounts.NonNegative ∧ ∀ k b, bs.balanceOf k = some b → 0 ≤ b := by
  have hn := h.nonNegative
  refine ⟨hn, ?_⟩
  intro k b hb
  unfold BankingSystem.balanceOf at hb
  cases hg : mapGet bs.accounts.accounts k with
  | none => simp [hg] at hb
  | some a =>
    simp [hg] at hb
    subst hb
    exact hn _ (mem_of_mapGet hg)

/-- The law of the balances at least zero at the state reached by creating `A1` and `A2`,
depositing 1000 into `A1` and closing `A2`. -/
theorem exact_balance_nonneg_of_reachable_witness :
    Reachable exampleClosed ∧
      (exampleClosed.accounts.NonNegative ∧ ∀ k b, exampleClosed.balanceOf k = some b → 0 ≤ b) :=
  ⟨exampleClosed_reachable, exact_balance_nonneg_of_reachable exampleClosed exampleClosed_reachable⟩

/-- With amounts as exact numbers: for every state, every pair of account numbers and every
amount, `Transfer` leaves the sum of the balances of all accounts unchanged, whether it
returns `nil` or an error.  With `float64` amounts the rounding of the two balances breaks
this, see `Binary64`. -/
theorem exact_transfer_preserves_total (bs : BankingSystem) (fromAccount toAccount : String)
    (amount : Amount) (clock : Nat → Time) :
    (bs.Transfer fromAccount toAccount amount clock).1.accounts.totalBalance =
      bs.accounts.totalBalance := by
  cases hw : (bs.accounts.Withdraw fromAccount amount (clock 0)).2 with
  | some err => rw [BankingSystem.Transfer_of_withdraw_error hw]
  | none =>
    cases hd : ((bs.accounts.Withdraw fromAccount amount (clock 0)).1.Deposit toAccount amount
        (clock 1)).2 with
    | some err =>
      rw [BankingSystem.Transfer_of_deposit_error hw hd]
      have hr : ((((bs.accounts.Withdraw fromAccount amount (clock 0)).1.Deposit toAccount amount
          (clock 1)).1.Deposit fromAccount amount (clock 1)).2 = none) := by
        obtain ⟨a, _, heq⟩ := accountService.rollback_Deposit toAccount (clock 1)
          (clock 1) hw (by simp [hd])
        rw [heq]
      show ((((bs.accounts.Withdraw fromAccount amount (clock 0)).1.Deposit toAccount amount
          (clock 1)).1.Deposit fromAccount amount (clock 1)).1).totalBalance = _
      rw [accountService.totalBalance_Deposit hr,
        accountService.Deposit_of_error (by simp [hd]), accountService.totalBalance_Withdraw hw]
      ring
    | none =>
      rw [BankingSystem.Transfer_of_ok hw hd]
      show (((bs.accounts.Withdraw fromAccount amount (clock 0)).1.Deposit toAccount amount
          (clock 1)).1).totalBalance = _
      rw [accountService.totalBalance_Deposit hd, accountService.totalBalance_Withdraw hw]
      ring

/-- What `Transfer` does when the withdrawal from `A` succeeds and the deposit to `B` then
fails, which happens exactly when `B` is unknown or not `Active`: it returns the deposit's
error, the journal is unchanged, and the balance of `A` is `(balance - amount) + amount`, the
amount added back to what the withdrawal left. -/
theorem transfer_compensation_effects (bs : BankingSystem) (A B : String) (amount : Amount)
    (clock : Nat → Time) (err : BankError)
    (hw : (bs.accounts.Withdraw A amount (clock 0)).2 = none)
    (hd : ((bs.accounts.Withdraw A amount (clock 0)).1.Deposit B amount (clock 1)).2 = some err) :
    (bs.Transfer A B amount clock).2 = some err ∧
    (∃ a, mapGet bs.accounts.accounts A = some a ∧
      (bs.Transfer A B amount clock).1.balanceOf A = some (a.Balance - amount + amount)) ∧
    (bs.Transfer A B amount clock).1.transactions = bs.transactions ∧
    ((mapGet bs.accounts.accounts B = none ∧ err = .ErrAccountNotFound) ∨
      ∃ b, mapGet bs.accounts.accounts B = some b ∧ b.Status ≠ "Active" ∧
        err = .msg ("cannot deposit to an account with status: " ++ b.Status)) := by
  rw [BankingSystem.Transfer_of_deposit_error hw hd]
  obtain ⟨a, hg, heq⟩ := accountService.rollback_Deposit B (clock 1) (clock 1) hw
    (by simp [hd])
  refine ⟨rfl, ⟨a, hg, ?_⟩, rfl, ?_⟩
  · simp only [BankingSystem.balanceOf, heq, mapGet_mapPut_same, Option.map_some']
  · obtain ⟨a', hg', h0, hs, _, hweq⟩ := accountService.Withdraw_eq_none hw
    have hAB : A ≠ B := by
      intro hAB
      subst hAB
      rw [hweq] at hd
      simp [accountService.Deposit, not_le.mpr h0, mapGet_mapPut_same, hs] at hd
    rw [hweq] at hd
    unfold accountService.Deposit at hd
    simp only [not_le.mpr h0, if_false, mapGet_mapPut_ne _ _ hAB] at hd
    cases hB : mapGet bs.accounts.accounts B with
    | none =>
      left
      simp only [hB, Option.some.injEq] at hd
      exact ⟨rfl, hd.symm⟩
    | some b =>
      right
      by_cases hbs : b.Status = "Active"
      · simp [hB, hbs] at hd
      · simp only [hB, ne_eq, hbs, not_false_eq_true, if_true, Option.some.injEq] at hd
        exact ⟨b, rfl, hbs, hd.symm⟩

/-- The effects of the compensation at a transfer of 400 from the funded account `A1` to the
closed account `A2`. -/
theorem transfer_compensation_effects_witness :
    (exampleClosed.Transfer "A1" "A2" 400 (exampleClock 50)).2 =
        some (.msg "cannot deposit to an account with status: Closed") ∧
    (∃ a, mapGet exampleClosed.accounts.accounts "A1" = some a ∧
      (exampleClosed.Transfer "A1" "A2" 400 (exampleClock 50)).1.balanceOf "A1" =
        some (a.Balance - 400 + 400)) ∧
    (exampleClosed.Transfer "A1" "A2" 400 (exampleClock 50)).1.transactions =
        exampleClosed.transactions ∧
    ((mapGet exampleClosed.accounts.accounts "A2" = none ∧
        BankError.msg "cannot deposit to an account with status: Closed" = .ErrAccountNotFound) ∨
      ∃ b, mapGet exampleClosed.accounts.accounts "A2" = some b ∧ b.Status ≠ "Active" ∧
        BankError.msg "cannot deposit to an account with status: Closed" =
          .msg ("cannot deposit to an account with status: " ++ b.Status)) :=
  transfer_compensation_effects exampleClosed "A1" "A2" 400 (exampleClock 50)
    (.msg "cannot deposit to an account with status: Closed")
    (by with_unfolding_all rfl) (by with_unfolding_all rfl)

/-- C4: for every state with accounts `A` and `B` and every amount greater than the balance of
`A`, `Transfer` returns an error, leaves the balances of `A` and `B` unchanged and adds no
journal entry; indeed it leaves the whole state unchanged. -/
theorem C4_transfer_insufficient_funds (bs : BankingSystem) (A B : String) (a b : Account)
    (amount : Amount) (clock : Nat → Time)
    (hA : mapGet bs.accounts.accounts A = some a) (hB : mapGet bs.accounts.accounts B = some b)
    (h : a.Balance < amount) :
    (bs.Transfer A B amount clock).2 ≠ none ∧
    (bs.Transfer A B amount clock).1.balanceOf A = some a.Balance ∧
    (bs.Transfer A B amount clock).1.balanceOf B = some b.Balance ∧
    (bs.Transfer A B amount clock).1.transactions = bs.transactions ∧
    (bs.Transfer A B amount clock).1 = bs := by
  have hw : ∃ err, (bs.accounts.Withdraw A amount (clock 0)).2 = some err := by
    unfold accountService.Withdraw
    by_cases h0 : amount ≤ 0
    · exact ⟨.ErrInvalidAmount, by simp [h0]⟩
    · by_cases hs : a.Status = "Active"
      · exact ⟨.ErrInsufficientFunds, by simp [h0, hA, hs, h]⟩
      · exact ⟨.msg ("cannot withdraw from an account with status: " ++ a.Status),
          by simp [h0, hA, hs]⟩
  obtain ⟨err, hw⟩ := hw
  rw [BankingSystem.Transfer_of_withdraw_error hw]
  simp [BankingSystem.balanceOf, hA, hB]

/-- C4 at a transfer of 4000 from `A1`, which holds 1000, to `A2`. -/
theorem C4_transfer_insufficient_funds_witness :
    (exampleFunded.Transfer "A1" "A2" 4000 (exampleClock 40)).2 ≠ none ∧
    (exampleFunded.Transfer "A1" "A2" 4000 (exampleClock 40)).1.balanceOf "A1" = some 1000 ∧
    (exampleFunded.Transfer "A1" "A2" 4000 (exampleClock 40)).1.balanceOf "A2" = some 0 ∧
    (exampleFunded.Transfer "A1" "A2" 4000 (exampleClock 40)).1.transactions =
      exampleFunded.transactions ∧
    (exampleFunded.Transfer "A1" "A2" 4000 (exampleClock 40)).1 = exampleFunded :=
  C4_transfer_insufficient_funds exampleFunded "A1" "A2"
    { AccountNumber := "A1", HolderName := "Holder", Balance := 1000, AccountType := "Savings",
      Status := "Active", CreatedAt := 10, UpdatedAt := 30 }
    { AccountNumber := "A2", HolderName := "Holder", Balance := 0, AccountType := "Savings",
      Status := "Active", CreatedAt := 20, UpdatedAt := 21 }
    4000 (exampleClock 40) (by with_unfolding_all rfl) (by with_unfolding_all rfl)
    (by with_unfolding_all decide)

/-! ## The ledger's `Deposit` and `Withdraw` -/

/-- With amounts as exact numbers: for every `Active` account of a reachable state and every
amount above zero, `Deposit(id, amount)` succeeds, the following `Withdraw(id, amount)`
succeeds as well, and the balance is then the one the account had before the deposit.  With
`float64` amounts the balance drifts, see `Binary64`. -/
theorem exact_deposit_then_withdraw (bs : BankingSystem) (id : String) (a : Account)
    (amount : Amount) (t1 t2 : Time) (hr : Reachable bs)
    (hg : mapGet bs.accounts.accounts id = some a) (hs : a.Status = "Active")
    (h0 : 0 < amount) :
    (bs.accounts.Deposit id amount t1).2 = none ∧
    ((bs.accounts.Deposit id amount t1).1.Withdraw id amount t2).2 = none ∧
    (mapGet ((bs.accounts.Deposit id amount t1).1.Withdraw id amount t2).1.accounts id).map
      (fun x => x.Balance) = some a.Balance := by
  have hn : 0 ≤ a.Balance := hr.nonNegative _ (mem_of_mapGet hg)
  rw [accountService.Deposit_of_active t1 hg h0 hs]
  have hw := @accountService.Withdraw_of_active
    { accounts := mapPut bs.accounts.accounts id
        { a with Balance := a.Balance + amount, UpdatedAt := t1 } }
    id amount { a with Balance := a.Balance + amount, UpdatedAt := t1 } t2
    (mapGet_mapPut_same _ _ _) h0 hs (by simp only; linarith)
  refine ⟨rfl, ?_, ?_⟩
  · rw [hw]
  · rw [hw]
    simp only [mapGet_mapPut_same, Option.map_some']
    congr 1
    ring

/-- The law of deposit then withdrawal at account `A1` holding 1000, with a deposit and a
withdrawal of 250. -/
theorem exact_deposit_then_withdraw_witness :
    (exampleFunded.accounts.Deposit "A1" 250 40).2 = none ∧
    ((exampleFunded.accounts.Deposit "A1" 250 40).1.Withdraw "A1" 250 41).2 = none ∧
    (mapGet ((exampleFunded.accounts.Deposit "A1" 250 40).1.Withdraw "A1" 250 41).1.accounts
      "A1").map (fun x => x.Balance) = some 1000 :=
  exact_deposit_then_withdraw exampleFunded "A1"
    { AccountNumber := "A1", HolderName := "Holder", Balance := 1000, AccountType := "Savings",
      Status := "Active", CreatedAt := 10, UpdatedAt := 30 }
    250 40 41 exampleFunded_reachable (by with_unfolding_all rfl) rfl (by norm_num)

/-- With amounts as exact numbers (for `float64` amounts see `withdraw_contract_float64`):
the ledger's `Withdraw` succeeds if and only if the amount is above zero, the account
exists, its status is `Active` and its balance is at least the amount; on success the balance
becomes `balance - amount` and no other account changes; a failure is `ErrInvalidAmount` if the
amount is at most zero, else `ErrAccountNotFound` if the number is unknown, else the
inactive-account error if the status is not `Active`, else `ErrInsufficientFunds` if the
balance is below the amount, and a failing call changes nothing. -/
theorem exact_withdraw_contract (ac : accountService) (id : String) (amount : Amount) (now : Time) :
    ((ac.Withdraw id amount now).2 = none ↔
      0 < amount ∧ ∃ a, mapGet ac.accounts id = some a ∧ a.Status = "Active" ∧
        amount ≤ a.Balance) ∧
    (∀ a, 0 < amount → mapGet ac.accounts id = some a → a.Status = "Active" →
      amount ≤ a.Balance →
      (mapGet (ac.Withdraw id amount now).1.accounts id).map (fun x => x.Balance) =
          some (a.Balance - amount) ∧
        ∀ other, other ≠ id →
          mapGet (ac.Withdraw id amount now).1.accounts other = mapGet ac.accounts other) ∧
    (amount ≤ 0 → ac.Withdraw id amount now = (ac, some .ErrInvalidAmount)) ∧
    (0 < amount → mapGet ac.accounts id = none →
      ac.Withdraw id amount now = (ac, some .ErrAccountNotFound)) ∧
    (∀ a, 0 < amount → mapGet ac.accounts id = some a → a.Status ≠ "Active" →
      ac.Withdraw id amount now =
        (ac, some (.msg ("cannot withdraw from an account with status: " ++ a.Status)))) ∧
    (∀ a, 0 < amount → mapGet ac.accounts id = some a → a.Status = "Active" →
      a.Balance < amount → ac.Withdraw id amount now = (ac, some .ErrInsufficientFunds)) := by
  refine ⟨⟨?_, ?_⟩, ?_, ?_, ?_, ?_, ?_⟩
  · intro h
    obtain ⟨a, hg, h0, hs, hb, _⟩ := accountService.Withdraw_eq_none h
    exact ⟨h0, a, hg, hs, hb⟩
  · rintro ⟨h0, a, hg, hs, hb⟩
    rw [accountService.Withdraw_of_active now hg h0 hs hb]
  · intro a h0 hg hs hb
    rw [accountService.Withdraw_of_active now hg h0 hs hb]
    refine ⟨by simp [mapGet_mapPut_same], ?_⟩
    intro other hne
    exact mapGet_mapPut_ne _ _ (Ne.symm hne)
  · intro h0
    simp [accountService.Withdraw, h0]
  · intro h0 hg
    simp [accountService.Withdraw, not_le.mpr h0, hg]
  · intro a h0 hg hs
    simp [accountService.Withdraw, not_le.mpr h0, hg, hs]
  · intro a h0 hg hs hb
    simp [accountService.Withdraw, not_le.mpr h0, hg, hs, hb]

/-- C10, as stated, fails on a `Closed` account: `A2` exists in the reachable state
`exampleClosed` with balance 0, the amount 5 is above it, and `Withdraw` reports the
inactive-account error, not `ErrInsufficientFunds`. -/
theorem C10_counterexample_closed_account :
    Reachable exampleClosed ∧
    exampleClosed.balanceOf "A2" = some 0 ∧
    (0 : Amount) < 5 ∧
    exampleClosed.accounts.Withdraw "A2" 5 50 =
      (exampleClosed.accounts,
        some (.msg "cannot withdraw from an account with status: Closed")) ∧
    (exampleClosed.accounts.Withdraw "A2" 5 50).2 ≠ some .ErrInsufficientFunds :=
  ⟨exampleClosed_reachable, by with_unfolding_all rfl, by norm_num, by with_unfolding_all rfl,
    by with_unfolding_all decide⟩

/-- C10, amended: for every `Active` account of a reachable state and every amount greater
than its balance, `Withdraw(id, amount)` reports `ErrInsufficientFunds` and leaves the ledger,
hence the account's balance, unchanged. -/
theorem C10_withdraw_insufficient_funds (bs : BankingSystem) (id : String) (a : Account)
    (amount : Amount) (now : Time) (hr : Reachable bs)
    (hg : mapGet bs.accounts.accounts id = some a) (hs : a.Status = "Active")
    (hb : a.Balance < amount) :
    (bs.accounts.Withdraw id amount now).2 = some .ErrInsufficientFunds ∧
    (bs.accounts.Withdraw id amount now).1 = bs.accounts ∧
    (mapGet (bs.accounts.Withdraw id amount now).1.accounts id).map (fun x => x.Balance) =
      some a.Balance := by
  have hn : 0 ≤ a.Balance := hr.nonNegative _ (mem_of_mapGet hg)
  have h0 : ¬ amount ≤ 0 := not_le.mpr (lt_of_le_of_lt hn hb)
  have h : bs.accounts.Withdraw id amount now = (bs.accounts, some .ErrInsufficientFunds) := by
    simp [accountService.Withdraw, h0, hg, hs, hb]
  rw [h]
  simp [hg]

/-- The amended C10 at account `A1` holding 1000 and a withdrawal of 4000. -/
theorem C10_withdraw_insufficient_funds_witness :
    (exampleFunded.accounts.Withdraw "A1" 4000 40).2 = some .ErrInsufficientFunds ∧
    (exampleFunded.accounts.Withdraw "A1" 4000 40).1 = exampleFunded.accounts ∧
    (mapGet (exampleFunded.accounts.Withdraw "A1" 4000 40).1.accounts "A1").map
      (fun x => x.Balance) = some 1000 :=
  C10_withdraw_insufficient_funds exampleFunded "A1"
    { AccountNumber := "A1", HolderName := "Holder", Balance := 1000, AccountType := "Savings",
      Status := "Active", CreatedAt := 10, UpdatedAt := 30 }
    4000 40 exampleFunded_reachable (by with_unfolding_all rfl) rfl (by norm_num)

/-! ## Lemmas on the journal -/

/-- `CreateTransaction` with an amount above zero stores the new entry under its id. -/
theorem transactionService.CreateTransaction_of_pos (ts : transactionService)
    (accounts : accountService) (tType : TransactionType) (fromAcc toAcc : String)
    {amount : Amount} (description : String) (tId tStamp tRef : Time) (h : 0 < amount) :
    ts.CreateTransaction accounts tType fromAcc toAcc amount description tId tStamp tRef =
      ({ transactions := mapPut ts.transactions (generateTransactionID tId)
          (newTransaction accounts tType fromAcc toAcc amount description tId tStamp tRef) },
        .ok (newTransaction accounts tType fromAcc toAcc amount description tId tStamp tRef)) := by
  unfold transactionService.CreateTransaction
  simp [not_le.mpr h, newTransaction]

/-- The orchestrator's `Deposit` when the ledger's `Deposit` fails. -/
theorem BankingSystem.Deposit_of_ledger_error {bs : BankingSystem} {k : String} {amount : Amount}
    {clock : Nat → Time} {err : BankError}
    (h : (bs.accounts.Deposit k amount (clock 0)).2 = some err) :
    bs.Deposit k amount clock = (bs, some err) := by
  have hst := accountService.Deposit_of_error (by simp [h] :
    (bs.accounts.Deposit k amount (clock 0)).2 ≠ none)
  rcases hd : bs.accounts.Deposit k amount (clock 0) with ⟨d, e⟩
  rw [hd] at h hst
  simp only at h hst
  subst h hst
  simp [BankingSystem.Deposit, hd]

/-- The orchestrator's `Deposit` when the ledger's `Deposit` succeeds. -/
theorem BankingSystem.Deposit_of_ok {bs : BankingSystem} {k : String} {amount : Amount}
    {clock : Nat → Time} (h : (bs.accounts.Deposit k amount (clock 0)).2 = none) :
    bs.Deposit k amount clock =
      ({ bs with
          accounts := (bs.accounts.Deposit k amount (clock 0)).1
          transactions :=
            { transactions := mapPut bs.transactions.transactions (generateTransactionID (clock 1))
                (newTransaction (bs.accounts.Deposit k amount (clock 0)).1 Bank.Deposit "" k
                  amount "Cash deposit" (clock 1) (clock 2) (clock 3)) } }, none) := by
  obtain ⟨_, _, h0, _, _⟩ := accountService.Deposit_eq_none h
  rcases hd : bs.accounts.Deposit k amount (clock 0) with ⟨d, e⟩
  rw [hd] at h
  simp only at h
  subst h
  simp [BankingSystem.Deposit, hd, transactionService.CreateTransaction_of_pos _ _ _ _ _ _ _ _ _ h0]

/-- The orchestrator's `Withdraw` when the ledger's `Withdraw` fails. -/
theorem BankingSystem.Withdraw_of_ledger_error {bs : BankingSystem} {k : String} {amount : Amount}
    {clock : Nat → Time} {err : BankError}
    (h : (bs.accounts.Withdraw k amount (clock 0)).2 = some err) :
    bs.Withdraw k amount clock = (bs, some err) := by
  have hst := accountService.Withdraw_of_error (by simp [h] :
    (bs.accounts.Withdraw k amount (clock 0)).2 ≠ none)
  rcases hd : bs.accounts.Withdraw k amount (clock 0) with ⟨d, e⟩
  rw [hd] at h hst
  simp only at h hst
  subst h hst
  simp [BankingSystem.Withdraw, hd]

/-- The orchestrator's `Withdraw` when the ledger's `Withdraw` succeeds. -/
theorem BankingSystem.Withdraw_of_ok {bs : BankingSystem} {k : String} {amount : Amount}
    {clock : Nat → Time} (h : (bs.accounts.Withdraw k amount (clock 0)).2 = none) :
    bs.Withdraw k amount clock =
      ({ bs with
          accounts := (bs.accounts.Withdraw k amount (clock 0)).1
          transactions :=
            { transactions := mapPut bs.transactions.transactions (generateTransactionID (clock 1))
                (newTransaction (bs.accounts.Withdraw k amount (clock 0)).1 Bank.Withdrawal k ""
                  amount "Cash withdrawal" (clock 1) (clock 2) (clock 3)) } }, none) := by
  obtain ⟨_, _, h0, _, _⟩ := accountService.Withdraw_eq_none h
  rcases hd : bs.accounts.Withdraw k amount (clock 0) with ⟨d, e⟩
  rw [hd] at h
  simp only at h
  subst h
  simp [BankingSystem.Withdraw, hd, transactionService.CreateTransaction_of_pos _ _ _ _ _ _ _ _ _ h0]

/-- `Transfer` when both legs succeed, with the stored entry spelled out. -/
theorem BankingSystem.Transfer_of_ok_entry {bs : BankingSystem} {f t : String}
    {amount : Amount} {clock : Nat → Time}
    (hw : (bs.accounts.Withdraw f amount (clock 0)).2 = none)
    (hd : ((bs.accounts.Withdraw f amount (clock 0)).1.Deposit t amount (clock 1)).2 = none) :
    bs.Transfer f t amount clock =
      ({ bs with
          accounts := ((bs.accounts.Withdraw f amount (clock 0)).1.Deposit t amount (clock 1)).1
          transactions :=
            { transactions := mapPut bs.transactions.transactions (generateTransactionID (clock 2))
                (newTransaction
                  ((bs.accounts.Withdraw f amount (clock 0)).1.Deposit t amount (clock 1)).1
                  Bank.Transfer f t amount "Fund transfer" (clock 2) (clock 3) (clock 4)) } },
        none) := by
  obtain ⟨_, _, h0, _, _⟩ := accountService.Withdraw_eq_none hw
  rw [BankingSystem.Transfer_of_ok hw hd,
    transactionService.CreateTransaction_of_pos _ _ _ _ _ _ _ _ _ h0]

/-- The entries `GetTransactionsByAccount` returns are the journal's values that have the
account as source or destination. -/
theorem transactionService.entriesOf_GetTransactionsByAccount (ts : transactionService)
    (k : String) :
    entriesOf (ts.GetTransactionsByAccount k) =
      (mapValues ts.transactions).filter
        (fun transaction => transaction.FromAccount = k ∨ transaction.ToAccount = k) := by
  unfold transactionService.GetTransactionsByAccount
  simp only
  split
  · next h => simp only [entriesOf]; exact (List.length_eq_zero.mp h).symm
  · rfl

/-- When no entry has the account as source or destination, `GetTransactionsByAccount`
returns its error. -/
theorem transactionService.GetTransactionsByAccount_of_nil (ts : transactionService)
    (k : String) (h : entriesOf (ts.GetTransactionsByAccount k) = []) :
    ts.GetTransactionsByAccount k = .error (.msg "no transactions found for account") := by
  unfold transactionService.GetTransactionsByAccount at h ⊢
  simp only at h ⊢
  split
  · rfl
  · next hlen =>
    rw [if_neg hlen] at h
    simp only [entriesOf] at h
    exact absurd (by rw [h]; rfl) hlen

/-- `GetTransactionSummary` folds `summaryStep` over the entries of the account. -/
theorem transactionService.GetTransactionSummary_eq_foldl (ts : transactionService)
    (k : String) :
    ts.GetTransactionSummary k =
      (entriesOf (ts.GetTransactionsByAccount k)).foldl (summaryStep k) (emptySummary k) := by
  unfold transactionService.GetTransactionSummary
  cases h : ts.GetTransactionsByAccount k with
  | error e => simp [entriesOf]
  | ok l => simp [entriesOf]

/-- The entries of an account after a new binding is appended to the journal. -/
theorem transactionService.entriesOf_append (m : List (String × Transaction)) (id : String)
    (e : Transaction) (k : String) :
    entriesOf (transactionService.GetTransactionsByAccount { transactions := m ++ [(id, e)] } k) =
      entriesOf (transactionService.GetTransactionsByAccount { transactions := m } k) ++
        (if e.FromAccount = k ∨ e.ToAccount = k then [e] else []) := by
  simp only [transactionService.entriesOf_GetTransactionsByAccount, mapValues, List.map_append,
    List.filter_append, List.map_cons, List.map_nil]
  congr 1
  by_cases h : e.FromAccount = k ∨ e.ToAccount = k
  · simp [List.filter_cons, h]
  · simp [List.filter_cons, h]

/-- The summary of an account after a new binding is appended to the journal. -/
theorem transactionService.GetTransactionSummary_append (m : List (String × Transaction))
    (id : String) (e : Transaction) (k : String) :
    transactionService.GetTransactionSummary { transactions := m ++ [(id, e)] } k =
      if e.FromAccount = k ∨ e.ToAccount = k then
        summaryStep k (transactionService.GetTransactionSummary { transactions := m } k) e
      else transactionService.GetTransactionSummary { transactions := m } k := by
  simp only [transactionService.GetTransactionSummary_eq_foldl,
    transactionService.entriesOf_append]
  by_cases h : e.FromAccount = k ∨ e.ToAccount = k
  · simp [h, List.foldl_append]
  · simp [h]

/-! ## Transfers between two accounts -/

/-- C5 at a clock reading that repeats: the clock gives `CreateTransaction` an instant whose
id is already a key of the journal.  In `exampleTick` the accounts `A1` (balance 1000) and
`A2` are `Active` and the journal holds the one entry of the deposit, made at tick 30; a
transfer of 400 from `A1` to `A2` within the same tick succeeds and the journal still holds
one entry: the `TRANSFER` entry has taken the place of the `DEPOSIT` entry under the id
`TXN30`. -/
theorem C5_counterexample_same_tick :
    Reachable exampleTick ∧
    (mapGet exampleTick.accounts.accounts "A1").map (fun x => (x.Balance, x.Status)) =
      some (1000, "Active") ∧
    (mapGet exampleTick.accounts.accounts "A2").map (fun x => x.Status) = some "Active" ∧
    "A1" ≠ "A2" ∧ (0 : Amount) < 400 ∧ (400 : Amount) ≤ 1000 ∧
    (exampleTick.Transfer "A1" "A2" 400 (tickClock 30)).2 = none ∧
    mapKeys exampleTick.transactions.transactions = ["TXN30"] ∧
    (mapValues exampleTick.transactions.transactions).map (fun e => e.Type_) = ["DEPOSIT"] ∧
    mapKeys (exampleTick.Transfer "A1" "A2" 400 (tickClock 30)).1.transactions.transactions =
      ["TXN30"] ∧
    (mapValues (exampleTick.Transfer "A1" "A2" 400 (tickClock 30)).1.transactions.transactions).map
      (fun e => e.Type_) = ["TRANSFER"] :=
  ⟨exampleTick_reachable, by with_unfolding_all rfl, by with_unfolding_all rfl, by decide,
    by norm_num, by norm_num, by with_unfolding_all rfl, by with_unfolding_all rfl,
    by with_unfolding_all rfl, by with_unfolding_all rfl, by with_unfolding_all rfl⟩

/-- A transfer between two accounts: for every state with two distinct `Active` accounts `A`
and `B` and every amount with `0 < amount ≤ balance(A)`, `Transfer(A, B, amount)` succeeds,
afterwards the balance of `A` is `balance(A) - amount` and the balance of `B` is
`balance(B) + amount`, every other account is unchanged, and, when the id generated for the
entry is not yet a key of the journal, the journal is the old journal with exactly one more
entry, of type `TRANSFER`, completed, with source `A`, destination `B` and that amount. -/
theorem transfer_between_active_accounts (bs : BankingSystem) (A B : String)
    (a b : Account) (amount : Amount) (clock : Nat → Time)
    (hA : mapGet bs.accounts.accounts A = some a) (hB : mapGet bs.accounts.accounts B = some b)
    (hAB : A ≠ B) (hsA : a.Status = "Active") (hsB : b.Status = "Active")
    (h0 : 0 < amount) (hle : amount ≤ a.Balance) :
    (bs.Transfer A B amount clock).2 = none ∧
    (bs.Transfer A B amount clock).1.balanceOf A = some (a.Balance - amount) ∧
    (bs.Transfer A B amount clock).1.balanceOf B = some (b.Balance + amount) ∧
    (∀ other, other ≠ A → other ≠ B →
      mapGet (bs.Transfer A B amount clock).1.accounts.accounts other =
        mapGet bs.accounts.accounts other) ∧
    (mapGet bs.transactions.transactions (generateTransactionID (clock 2)) = none →
      ∃ e, (bs.Transfer A B amount clock).1.transactions.transactions =
          bs.transactions.transactions ++ [(generateTransactionID (clock 2), e)] ∧
        e.ID = generateTransactionID (clock 2) ∧ e.Type_ = Bank.Transfer ∧
        e.Status = Completed ∧ e.FromAccount = A ∧ e.ToAccount = B ∧ e.Amount = amount) := by
  have hw := accountService.Withdraw_of_active (clock 0) hA h0 hsA hle
  have hBw : mapGet (bs.accounts.Withdraw A amount (clock 0)).1.accounts B = some b := by
    rw [hw]
    simp only
    rw [mapGet_mapPut_ne _ _ hAB]
    exact hB
  have hd := accountService.Deposit_of_active (clock 1) hBw h0 hsB
  have hw2 : (bs.accounts.Withdraw A amount (clock 0)).2 = none := by rw [hw]
  have hd2 : ((bs.accounts.Withdraw A amount (clock 0)).1.Deposit B amount (clock 1)).2 = none := by
    rw [hd]
  rw [BankingSystem.Transfer_of_ok_entry hw2 hd2, hd, hw]
  refine ⟨rfl, ?_, ?_, ?_, ?_⟩
  · simp [BankingSystem.balanceOf, mapGet_mapPut_ne _ _ (Ne.symm hAB), mapGet_mapPut_same]
  · simp [BankingSystem.balanceOf, mapGet_mapPut_same]
  · intro other hoA hoB
    simp only
    rw [mapGet_mapPut_ne _ _ (Ne.symm hoB), mapGet_mapPut_ne _ _ (Ne.symm hoA)]
  · intro hfresh
    exact ⟨_, mapPut_of_mapGet_none _ hfresh, rfl, rfl, rfl, rfl, rfl, rfl⟩

/-- The transfer law at the sample scenario: `A1` and `A2` created, 1000 deposited into `A1`,
400 transferred from `A1` to `A2`; then `A1` holds 600, `A2` holds 400 and the journal has
gained the one `TRANSFER` entry. -/
theorem transfer_between_active_accounts_witness :
    (exampleFunded.Transfer "A1" "A2" 400 (exampleClock 40)).2 = none ∧
    (exampleFunded.Transfer "A1" "A2" 400 (exampleClock 40)).1.balanceOf "A1" = some 600 ∧
    (exampleFunded.Transfer "A1" "A2" 400 (exampleClock 40)).1.balanceOf "A2" = some 400 ∧
    ∃ e, (exampleFunded.Transfer "A1" "A2" 400 (exampleClock 40)).1.transactions.transactions =
        exampleFunded.transactions.transactions ++ [("TXN42", e)] ∧
      e.ID = "TXN42" ∧ e.Type_ = "TRANSFER" ∧ e.Status = "COMPLETED" ∧ e.FromAccount = "A1" ∧
      e.ToAccount = "A2" ∧ e.Amount = 400 := by
  have h := transfer_between_active_accounts exampleFunded "A1" "A2"
    { AccountNumber := "A1", HolderName := "Holder", Balance := 1000, AccountType := "Savings",
      Status := "Active", CreatedAt := 10, UpdatedAt := 30 }
    { AccountNumber := "A2", HolderName := "Holder", Balance := 0, AccountType := "Savings",
      Status := "Active", CreatedAt := 20, UpdatedAt := 21 }
    400 (exampleClock 40) (by with_unfolding_all rfl) (by with_unfolding_all rfl) (by decide)
    rfl rfl (by norm_num) (by norm_num)
  obtain ⟨h1, h2, h3, _, h5⟩ := h
  refine ⟨h1, ?_, ?_, h5 (by with_unfolding_all rfl)⟩
  · rw [h2]; norm_num
  · rw [h3]; norm_num

/-! ## The journal names accounts of the ledger -/

theorem accountService.Extends.refl (ac : accountService) : ac.Extends ac :=
  ⟨fun _ h => h, fun h => h⟩

theorem accountService.Extends.trans {a b c : accountService} (h₁ : a.Extends b)
    (h₂ : b.Extends c) : a.Extends c :=
  ⟨fun k h => h₂.1 k (h₁.1 k h), fun h => h₂.2 (h₁.2 h)⟩

/-- Overwriting an account that is present, or adding one whose number is not empty, extends
the ledger. -/
theorem accountService.Extends_mapPut (ac : accountService) (k : String) (v : Account)
    (h : (mapGet ac.accounts k).isSome ∨ k ≠ "") :
    ac.Extends { accounts := mapPut ac.accounts k v } := by
  constructor
  · intro k' hk'
    by_cases hkk : k = k'
    · subst hkk
      simp [mapGet_mapPut_same]
    · simp only [mapGet_mapPut_ne _ _ hkk]
      exact hk'
  · intro hnone
    have hk : k ≠ "" := by
      rcases h with h | h
      · intro hk
        subst hk
        simp [hnone] at h
      · exact h
    simp only [mapGet_mapPut_ne _ _ hk]
    exact hnone

/-- A successful `Create`, read backwards. -/
theorem accountService.Create_eq_ok {ac : accountService} {account created : Account}
    {t1 t2 : Time} (h : (ac.Create account t1 t2).2 = .ok created) :
    account.AccountNumber ≠ "" ∧ mapGet ac.accounts account.AccountNumber = none ∧
    created = { account with Balance := 0, Status := "Active", CreatedAt := t1, UpdatedAt := t2 } ∧
    (ac.Create account t1 t2).1 =
      { accounts := mapPut ac.accounts account.AccountNumber created } := by
  unfold accountService.Create at h ⊢
  split at h
  · simp at h
  · next hne =>
    cases hg : mapGet ac.accounts account.AccountNumber with
    | some x => simp [hg] at h
    | none =>
      simp only [hg] at h
      have hc : created =
          { account with Balance := 0, Status := "Active", CreatedAt := t1, UpdatedAt := t2 } := by
        injection h with h
        exact h.symm
      subst hc
      refine ⟨fun hh => hne (Or.inl hh), rfl, rfl, ?_⟩
      simp [hne]

/-- A failing `Create` leaves the ledger as it was. -/
theorem accountService.Create_of_error {ac : accountService} {account : Account}
    {t1 t2 : Time} {err : BankError} (h : (ac.Create account t1 t2).2 = .error err) :
    (ac.Create account t1 t2).1 = ac := by
  unfold accountService.Create at h ⊢
  split
  · rfl
  · next hne =>
    cases hg : mapGet ac.accounts account.AccountNumber with
    | some x => rfl
    | none => simp [hne, hg] at h

theorem accountService.Extends_Create (ac : accountService) (account : Account) (t1 t2 : Time) :
    ac.Extends (ac.Create account t1 t2).1 := by
  cases h : (ac.Create account t1 t2).2 with
  | error err =>
    rw [accountService.Create_of_error h]
    exact accountService.Extends.refl ac
  | ok created =>
    obtain ⟨hne, _, _, heq⟩ := accountService.Create_eq_ok h
    rw [heq]
    exact accountService.Extends_mapPut ac _ _ (Or.inr hne)

theorem accountService.Extends_Deposit (ac : accountService) (k : String) (amount : Amount)
    (now : Time) : ac.Extends (ac.Deposit k amount now).1 := by
  cases h : (ac.Deposit k amount now).2 with
  | some err =>
    rw [accountService.Deposit_of_error (by simp [h])]
    exact accountService.Extends.refl ac
  | none =>
    obtain ⟨a, hg, _, _, heq⟩ := accountService.Deposit_eq_none h
    rw [heq]
    exact accountService.Extends_mapPut ac _ _ (Or.inl (by simp [hg]))

theorem accountService.Extends_Withdraw (ac : accountService) (k : String) (amount : Amount)
    (now : Time) : ac.Extends (ac.Withdraw k amount now).1 := by
  cases h : (ac.Withdraw k amount now).2 with
  | some err =>
    rw [accountService.Withdraw_of_error (by simp [h])]
    exact accountService.Extends.refl ac
  | none =>
    obtain ⟨a, hg, _, _, _, heq⟩ := accountService.Withdraw_eq_none h
    rw [heq]
    exact accountService.Extends_mapPut ac _ _ (Or.inl (by simp [hg]))

theorem accountService.Extends_CloseAccount (ac : accountService) (k : String) (now : Time) :
    ac.Extends (ac.CloseAccount k now).1 := by
  unfold accountService.CloseAccount
  cases hg : mapGet ac.accounts k with
  | none => exact accountService.Extends.refl ac
  | some a =>
    by_cases hb : a.Balance = 0
    · simp only [hb, ne_eq, not_true_eq_false, if_false]
      exact accountService.Extends_mapPut ac _ _ (Or.inl (by simp [hg]))
    · simp only [hb, ne_eq, not_false_eq_true, if_true]
      exact accountService.Extends.refl ac

/-- Every call extends the ledger. -/
theorem BankingSystem.Extends_call (bs : BankingSystem) (c : Call) (clock : Nat → Time) :
    bs.accounts.Extends (bs.call c clock).1.accounts := by
  cases c with
  | ledgerCreate account => exact accountService.Extends_Create _ _ _ _
  | ledgerDeposit k amount => exact accountService.Extends_Deposit _ _ _ _
  | ledgerWithdraw k amount => exact accountService.Extends_Withdraw _ _ _ _
  | ledgerCloseAccount k => exact accountService.Extends_CloseAccount _ _ _
  | createUser a b c d e f g i =>
    show bs.accounts.Extends (bs.CreateUser a b c d e f g i).1.accounts
    rw [BankingSystem.CreateUser_accounts]
    exact accountService.Extends.refl _
  | createAccount n hn t u =>
    show bs.accounts.Extends (bs.CreateAccount n hn t u clock).1.accounts
    rcases BankingSystem.CreateAccount_accounts bs n hn t u clock with e | e
    · rw [e]; exact accountService.Extends.refl _
    · rw [e]; exact accountService.Extends_Create _ _ _ _
  | deposit k amount =>
    show bs.accounts.Extends (bs.Deposit k amount clock).1.accounts
    rw [BankingSystem.Deposit_accounts]
    exact accountService.Extends_Deposit _ _ _ _
  | withdraw k amount =>
    show bs.accounts.Extends (bs.Withdraw k amount clock).1.accounts
    rw [BankingSystem.Withdraw_accounts]
    exact accountService.Extends_Withdraw _ _ _ _
  | transfer f t amount =>
    show bs.accounts.Extends (bs.Transfer f t amount clock).1.accounts
    rcases BankingSystem.Transfer_accounts bs f t amount clock with e | e | e
    · rw [e]; exact accountService.Extends.refl _
    · rw [e]
      exact (accountService.Extends_Withdraw _ _ _ _).trans (accountService.Extends_Deposit _ _ _ _)
    · rw [e]
      exact ((accountService.Extends_Withdraw _ _ _ _).trans
        (accountService.Extends_Deposit _ _ _ _)).trans (accountService.Extends_Deposit _ _ _ _)
  | closeAccount k =>
    show bs.accounts.Extends (bs.accounts.CloseAccount k (clock 0)).1
    exact accountService.Extends_CloseAccount _ _ _

/-- `CreateAccount` does not touch the journal. -/
theorem BankingSystem.CreateAccount_transactions (bs : BankingSystem) (n h t : String)
    (u : Int) (clock : Nat → Time) :
    (bs.CreateAccount n h t u clock).1.transactions = bs.transactions := by
  unfold BankingSystem.CreateAccount
  cases hu : bs.users.Get u with
  | error e => rfl
  | ok usr =>
    simp only
    split
    · rfl
    · split <;> rfl

/-- `CreateUser` does not touch the journal. -/
theorem BankingSystem.CreateUser_transactions (bs : BankingSystem)
    (a b c d e f g h : String) :
    (bs.CreateUser a b c d e f g h).1.transactions = bs.transactions := by
  unfold BankingSystem.CreateUser
  simp only
  split <;> rfl

/-- An entry of the journal after a call was in the journal before the call, or names as
source and destination the empty string or accounts of the ledger after the call. -/
theorem BankingSystem.journal_call (bs : BankingSystem) (c : Call) (clock : Nat → Time)
    (p : String × Transaction) (hp : p ∈ (bs.call c clock).1.transactions.transactions) :
    p ∈ bs.transactions.transactions ∨
    ((p.2.FromAccount = "" ∨
        (mapGet (bs.call c clock).1.accounts.accounts p.2.FromAccount).isSome) ∧
      (p.2.ToAccount = "" ∨
        (mapGet (bs.call c clock).1.accounts.accounts p.2.ToAccount).isSome)) := by
  cases c with
  | ledgerCreate account => exact Or.inl hp
  | ledgerDeposit k amount => exact Or.inl hp
  | ledgerWithdraw k amount => exact Or.inl hp
  | ledgerCloseAccount k => exact Or.inl hp
  | createUser a b c d e f g i =>
    left
    have h := BankingSystem.CreateUser_transactions bs a b c d e f g i
    change p ∈ (bs.CreateUser a b c d e f g i).1.transactions.transactions at hp
    rwa [h] at hp
  | createAccount n hn t u =>
    left
    have h := BankingSystem.CreateAccount_transactions bs n hn t u clock
    change p ∈ (bs.CreateAccount n hn t u clock).1.transactions.transactions at hp
    rwa [h] at hp
  | closeAccount k => exact Or.inl hp
  | deposit k amount =>
    change p ∈ (bs.Deposit k amount clock).1.transactions.transactions at hp
    show _ ∨ ((_ ∨ (mapGet (bs.Deposit k amount clock).1.accounts.accounts _).isSome) ∧
      (_ ∨ (mapGet (bs.Deposit k amount clock).1.accounts.accounts _).isSome))
    cases h : (bs.accounts.Deposit k amount (clock 0)).2 with
    | some err =>
      rw [BankingSystem.Deposit_of_ledger_error h] at hp
      exact Or.inl hp
    | none =>
      rw [BankingSystem.Deposit_of_ok h] at hp ⊢
      rcases mem_mapPut hp with hp' | hp'
      · right
        subst hp'
        obtain ⟨a, _, _, _, heq⟩ := accountService.Deposit_eq_none h
        refine ⟨Or.inl rfl, Or.inr ?_⟩
        simp only [newTransaction, heq, mapGet_mapPut_same, Option.isSome_some]
      · exact Or.inl hp'
  | withdraw k amount =>
    change p ∈ (bs.Withdraw k amount clock).1.transactions.transactions at hp
    show _ ∨ ((_ ∨ (mapGet (bs.Withdraw k amount clock).1.accounts.accounts _).isSome) ∧
      (_ ∨ (mapGet (bs.Withdraw k amount clock).1.accounts.accounts _).isSome))
    cases h : (bs.accounts.Withdraw k amount (clock 0)).2 with
    | some err =>
      rw [BankingSystem.Withdraw_of_ledger_error h] at hp
      exact Or.inl hp
    | none =>
      rw [BankingSystem.Withdraw_of_ok h] at hp ⊢
      rcases mem_mapPut hp with hp' | hp'
      · right
        subst hp'
        obtain ⟨a, _, _, _, _, heq⟩ := accountService.Withdraw_eq_none h
        refine ⟨Or.inr ?_, Or.inl rfl⟩
        simp only [newTransaction, heq, mapGet_mapPut_same, Option.isSome_some]
      · exact Or.inl hp'
  | transfer f t amount =>
    change p ∈ (bs.Transfer f t amount clock).1.transactions.transactions at hp
    show _ ∨ ((_ ∨ (mapGet (bs.Transfer f t amount clock).1.accounts.accounts _).isSome) ∧
      (_ ∨ (mapGet (bs.Transfer f t amount clock).1.accounts.accounts _).isSome))
    cases hw : (bs.accounts.Withdraw f amount (clock 0)).2 with
    | some err =>
      rw [BankingSystem.Transfer_of_withdraw_error hw] at hp
      exact Or.inl hp
    | none =>
      cases hd : ((bs.accounts.Withdraw f amount (clock 0)).1.Deposit t amount (clock 1)).2 with
      | some err =>
        rw [BankingSystem.Transfer_of_deposit_error hw hd] at hp
        exact Or.inl hp
      | none =>
        rw [BankingSystem.Transfer_of_ok_entry hw hd] at hp ⊢
        rcases mem_mapPut hp with hp' | hp'
        · right
          subst hp'
          obtain ⟨a, _, _, _, _, heqw⟩ := accountService.Withdraw_eq_none hw
          obtain ⟨b, _, _, _, heqd⟩ := accountService.Deposit_eq_none hd
          refine ⟨Or.inr ?_, Or.inr ?_⟩
          · apply (accountService.Extends_Deposit _ t amount (clock 1)).1
            simp only [newTransaction, heqw, mapGet_mapPut_same, Option.isSome_some]
          · simp only [newTransaction, heqd, mapGet_mapPut_same, Option.isSome_some]
        · exact Or.inl hp'

/-- Every call keeps the journal within the ledger. -/
theorem BankingSystem.JournalInLedger_call {bs : BankingSystem} (c : Call)
    (clock : Nat → Time) (h : bs.JournalInLedger) : (bs.call c clock).1.JournalInLedger := by
  have hext := BankingSystem.Extends_call bs c clock
  refine ⟨hext.2 h.1, ?_⟩
  intro p hp
  rcases BankingSystem.journal_call bs c clock p hp with hp' | hp'
  · obtain ⟨h1, h2⟩ := h.2 p hp'
    exact ⟨h1.imp id (hext.1 _), h2.imp id (hext.1 _)⟩
  · exact hp'

/-- In a reachable state the journal is within the ledger. -/
theorem Reachable.journalInLedger {bs : BankingSystem} (h : Reachable bs) :
    bs.JournalInLedger := by
  induction h with
  | init =>
    refine ⟨rfl, ?_⟩
    intro p hp
    simp [NewBankingSystem, NewTransactionService] at hp
  | step c clock _ ih => exact BankingSystem.JournalInLedger_call c clock ih

/-- In a state whose journal is within the ledger, no entry has as source or destination an
account number that is not empty and not in the ledger. -/
theorem BankingSystem.JournalInLedger.entries_eq_nil {bs : BankingSystem}
    (h : bs.JournalInLedger) {k : String} (hk : k ≠ "")
    (hg : mapGet bs.accounts.accounts k = none) :
    entriesOf (bs.transactions.GetTransactionsByAccount k) = [] := by
  rw [transactionService.entriesOf_GetTransactionsByAccount, List.filter_eq_nil_iff]
  intro e he
  obtain ⟨p, hp, rfl⟩ := List.mem_map.mp he
  obtain ⟨h1, h2⟩ := h.2 p hp
  simp only [decide_eq_true_eq, not_or]
  constructor
  · intro hf
    rcases h1 with h1 | h1
    · exact hk (hf ▸ h1)
    · rw [hf, hg] at h1
      simp at h1
  · intro hf
    rcases h2 with h2 | h2
    · exact hk (hf ▸ h2)
    · rw [hf, hg] at h2
      simp at h2

/-! ## Lemmas on the summary -/

/-- The loop body of the summary on a completed `DEPOSIT` entry. -/
theorem summaryStep_deposit (k : String) (S : TransactionSummary) (e : Transaction)
    (hs : e.Status = Completed) (ht : e.Type_ = Bank.Deposit) :
    (summaryStep k S e).TotalDeposits = S.TotalDeposits + e.Amount ∧
    (summaryStep k S e).TotalWithdrawals = S.TotalWithdrawals ∧
    (summaryStep k S e).TotalTransfersOut = S.TotalTransfersOut ∧
    (summaryStep k S e).TotalTransfersIn = S.TotalTransfersIn ∧
    (summaryStep k S e).TotalFees = S.TotalFees := by
  unfold summaryStep
  simp only [hs, ht, if_true]
  split_ifs <;> simp

/-- The loop body of the summary on a completed `WITHDRAWAL` entry. -/
theorem summaryStep_withdrawal (k : String) (S : TransactionSummary) (e : Transaction)
    (hs : e.Status = Completed) (ht : e.Type_ = Bank.Withdrawal) :
    (summaryStep k S e).TotalDeposits = S.TotalDeposits ∧
    (summaryStep k S e).TotalWithdrawals = S.TotalWithdrawals + e.Amount ∧
    (summaryStep k S e).TotalTransfersOut = S.TotalTransfersOut ∧
    (summaryStep k S e).TotalTransfersIn = S.TotalTransfersIn ∧
    (summaryStep k S e).TotalFees = S.TotalFees := by
  unfold summaryStep
  have h1 : Bank.Withdrawal ≠ Bank.Deposit := by decide
  simp only [hs, ht, if_true, h1, if_false]
  split_ifs <;> simp

/-- The loop body of the summary on a completed `TRANSFER` entry whose source is the account
summarised. -/
theorem summaryStep_transfer_out (k : String) (S : TransactionSummary) (e : Transaction)
    (hs : e.Status = Completed) (ht : e.Type_ = Bank.Transfer) (hf : e.FromAccount = k) :
    (summaryStep k S e).TotalDeposits = S.TotalDeposits ∧
    (summaryStep k S e).TotalWithdrawals = S.TotalWithdrawals ∧
    (summaryStep k S e).TotalTransfersOut = S.TotalTransfersOut + e.Amount ∧
    (summaryStep k S e).TotalTransfersIn = S.TotalTransfersIn ∧
    (summaryStep k S e).TotalFees = S.TotalFees := by
  unfold summaryStep
  have h1 : Bank.Transfer ≠ Bank.Deposit := by decide
  have h2 : Bank.Transfer ≠ Bank.Withdrawal := by decide
  simp only [hs, ht, if_true, h1, h2, if_false, hf]
  split_ifs <;> simp

/-- The loop body of the summary on a completed `TRANSFER` entry whose source is another
account. -/
theorem summaryStep_transfer_in (k : String) (S : TransactionSummary) (e : Transaction)
    (hs : e.Status = Completed) (ht : e.Type_ = Bank.Transfer) (hf : e.FromAccount ≠ k) :
    (summaryStep k S e).TotalDeposits = S.TotalDeposits ∧
    (summaryStep k S e).TotalWithdrawals = S.TotalWithdrawals ∧
    (summaryStep k S e).TotalTransfersOut = S.TotalTransfersOut ∧
    (summaryStep k S e).TotalTransfersIn = S.TotalTransfersIn + e.Amount ∧
    (summaryStep k S e).TotalFees = S.TotalFees := by
  unfold summaryStep
  have h1 : Bank.Transfer ≠ Bank.Deposit := by decide
  have h2 : Bank.Transfer ≠ Bank.Withdrawal := by decide
  simp only [hs, ht, if_true, h1, h2, if_false, hf]
  split_ifs <;> simp

/-- The orchestrator's `Deposit` returns `nil` only if the ledger's `Deposit` does. -/
theorem BankingSystem.Deposit_ledger_ok {bs : BankingSystem} {k : String} {amount : Amount}
    {clock : Nat → Time} (h : (bs.Deposit k amount clock).2 = none) :
    (bs.accounts.Deposit k amount (clock 0)).2 = none := by
  cases hl : (bs.accounts.Deposit k amount (clock 0)).2 with
  | none => rfl
  | some err => rw [BankingSystem.Deposit_of_ledger_error hl] at h; simp at h

/-- The orchestrator's `Withdraw` returns `nil` only if the ledger's `Withdraw` does. -/
theorem BankingSystem.Withdraw_ledger_ok {bs : BankingSystem} {k : String} {amount : Amount}
    {clock : Nat → Time} (h : (bs.Withdraw k amount clock).2 = none) :
    (bs.accounts.Withdraw k amount (clock 0)).2 = none := by
  cases hl : (bs.accounts.Withdraw k amount (clock 0)).2 with
  | none => rfl
  | some err => rw [BankingSystem.Withdraw_of_ledger_error hl] at h; simp at h

/-- `Transfer` returns `nil` only if both ledger calls do. -/
theorem BankingSystem.Transfer_ledger_ok {bs : BankingSystem} {f t : String} {amount : Amount}
    {clock : Nat → Time} (h : (bs.Transfer f t amount clock).2 = none) :
    (bs.accounts.Withdraw f amount (clock 0)).2 = none ∧
    ((bs.accounts.Withdraw f amount (clock 0)).1.Deposit t amount (clock 1)).2 = none := by
  cases hw : (bs.accounts.Withdraw f amount (clock 0)).2 with
  | some err => rw [BankingSystem.Transfer_of_withdraw_error hw] at h; simp at h
  | none =>
    cases hd : ((bs.accounts.Withdraw f amount (clock 0)).1.Deposit t amount (clock 1)).2 with
    | some err => rw [BankingSystem.Transfer_of_deposit_error hw hd] at h; simp at h
    | none => exact ⟨rfl, rfl⟩

/-- A successful `Deposit` on the account, with a new id, moves the observations of the sample
scenario from `D`, `W`, `n` to `D + amount`, `W`, `n + 1`. -/
theorem BankingSystem.CashState_Deposit {bs : BankingSystem} {X : String} {D W : Amount}
    {n : Nat} {amount : Amount} {clock : Nat → Time} (h : bs.CashState X D W n)
    (hok : (bs.Deposit X amount clock).2 = none)
    (hfresh : mapGet bs.transactions.transactions (generateTransactionID (clock 1)) = none) :
    (bs.Deposit X amount clock).1.CashState X (D + amount) W (n + 1) := by
  have hl := BankingSystem.Deposit_ledger_ok hok
  obtain ⟨a, hg, _, _, heq⟩ := accountService.Deposit_eq_none hl
  obtain ⟨hb, hn, hD, hW, hnet⟩ := h
  have ha : a.Balance = D - W := by
    simpa [BankingSystem.balanceOf, hg] using hb
  rw [BankingSystem.Deposit_of_ok hl, mapPut_of_mapGet_none _ hfresh]
  obtain ⟨s1, s2, s3, s4, s5⟩ := summaryStep_deposit X
    (transactionService.GetTransactionSummary bs.transactions X)
    (newTransaction (bs.accounts.Deposit X amount (clock 0)).1 Bank.Deposit "" X amount
      "Cash deposit" (clock 1) (clock 2) (clock 3)) rfl rfl
  have hD' : (transactionService.GetTransactionSummary bs.transactions X).TotalDeposits = D := hD
  have hW' : (transactionService.GetTransactionSummary bs.transactions X).TotalWithdrawals = W :=
    hW
  have hnet' : (transactionService.GetTransactionSummary bs.transactions X).netAmount = D - W :=
    hnet
  refine ⟨?_, ?_, ?_, ?_, ?_⟩
  · simp only [BankingSystem.balanceOf, heq, mapGet_mapPut_same, Option.map_some', ha]
    congr 1
    ring
  · simp only [transactionService.entriesOf_append, newTransaction, or_true, if_true,
      List.length_append, List.length_singleton, hn]
  · simp only [BankingSystem.GetTransactionSummary,
      transactionService.GetTransactionSummary_append]
    simp only [newTransaction, or_true, if_true] at s1 ⊢
    rw [s1, hD']
  · simp only [BankingSystem.GetTransactionSummary,
      transactionService.GetTransactionSummary_append]
    simp only [newTransaction, or_true, if_true] at s2 ⊢
    rw [s2, hW']
  · simp only [BankingSystem.GetTransactionSummary,
      transactionService.GetTransactionSummary_append]
    simp only [newTransaction, or_true, if_true, TransactionSummary.netAmount] at s1 s2 s3 s4 s5 ⊢
    rw [s1, s2, s3, s4, s5]
    simp only [TransactionSummary.netAmount] at hnet'
    linarith

/-- A successful `Withdraw` on the account, with a new id, moves the observations of the
sample scenario from `D`, `W`, `n` to `D`, `W + amount`, `n + 1`. -/
theorem BankingSystem.CashState_Withdraw {bs : BankingSystem} {X : String} {D W : Amount}
    {n : Nat} {amount : Amount} {clock : Nat → Time} (h : bs.CashState X D W n)
    (hok : (bs.Withdraw X amount clock).2 = none)
    (hfresh : mapGet bs.transactions.transactions (generateTransactionID (clock 1)) = none) :
    (bs.Withdraw X amount clock).1.CashState X D (W + amount) (n + 1) := by
  have hl := BankingSystem.Withdraw_ledger_ok hok
  obtain ⟨a, hg, _, _, _, heq⟩ := accountService.Withdraw_eq_none hl
  obtain ⟨hb, hn, hD, hW, hnet⟩ := h
  have ha : a.Balance = D - W := by
    simpa [BankingSystem.balanceOf, hg] using hb
  rw [BankingSystem.Withdraw_of_ok hl, mapPut_of_mapGet_none _ hfresh]
  obtain ⟨s1, s2, s3, s4, s5⟩ := summaryStep_withdrawal X
    (transactionService.GetTransactionSummary bs.transactions X)
    (newTransaction (bs.accounts.Withdraw X amount (clock 0)).1 Bank.Withdrawal X "" amount
      "Cash withdrawal" (clock 1) (clock 2) (clock 3)) rfl rfl
  have hD' : (transactionService.GetTransactionSummary bs.transactions X).TotalDeposits = D := hD
  have hW' : (transactionService.GetTransactionSummary bs.transactions X).TotalWithdrawals = W :=
    hW
  have hnet' : (transactionService.GetTransactionSummary bs.transactions X).netAmount = D - W :=
    hnet
  refine ⟨?_, ?_, ?_, ?_, ?_⟩
  · simp only [BankingSystem.balanceOf, heq, mapGet_mapPut_same, Option.map_some', ha]
    congr 1
    ring
  · simp only [transactionService.entriesOf_append, newTransaction, true_or, if_true,
      List.length_append, List.length_singleton, hn]
  · simp only [BankingSystem.GetTransactionSummary,
      transactionService.GetTransactionSummary_append]
    simp only [newTransaction, true_or, if_true] at s1 ⊢
    rw [s1, hD']
  · simp only [BankingSystem.GetTransactionSummary,
      transactionService.GetTransactionSummary_append]
    simp only [newTransaction, true_or, if_true] at s2 ⊢
    rw [s2, hW']
  · simp only [BankingSystem.GetTransactionSummary,
      transactionService.GetTransactionSummary_append]
    simp only [newTransaction, true_or, if_true, TransactionSummary.netAmount] at s1 s2 s3 s4 s5 ⊢
    rw [s1, s2, s3, s4, s5]
    simp only [TransactionSummary.netAmount] at hnet'
    linarith

/-- A run of successful `Deposit` and `Withdraw` calls on the account, each with a new id,
adds the deposited amounts to `D`, the withdrawn amounts to `W` and the number of calls to
`n`. -/
theorem BankingSystem.CashState_runOk {X : String} :
    ∀ (ops : List (Call × (Nat → Time))) (bs bs' : BankingSystem) (D W : Amount) (n : Nat),
      bs.CashState X D W n → (∀ p ∈ ops, p.1.isCashOn X = true) → bs.runOk ops = some bs' →
      bs.freshIds ops = true →
      bs'.CashState X (D + (ops.map (fun p => p.1.deposited)).sum)
        (W + (ops.map (fun p => p.1.withdrawn)).sum) (n + ops.length) := by
  intro ops
  induction ops with
  | nil =>
    intro bs bs' D W n h _ hrun _
    simp only [BankingSystem.runOk, Option.some.injEq] at hrun
    subst hrun
    simpa using h
  | cons p ops ih =>
    intro bs bs' D W n h hops hrun hfresh
    obtain ⟨c, clock⟩ := p
    have hc : c.isCashOn X = true := hops (c, clock) (List.mem_cons_self _ _)
    have hops' : ∀ p ∈ ops, p.1.isCashOn X = true :=
      fun p hp => hops p (List.mem_cons_of_mem _ hp)
    simp only [BankingSystem.freshIds, Bool.and_eq_true] at hfresh
    obtain ⟨hf1, hf2⟩ := hfresh
    simp only [BankingSystem.runOk] at hrun
    rcases hcall : bs.call c clock with ⟨bs1, err⟩
    rw [hcall] at hrun hf2
    cases err with
    | some e => simp at hrun
    | none =>
      simp only at hrun hf2
      have hstep : bs1.CashState X (D + c.deposited) (W + c.withdrawn) (n + 1) := by
        cases c with
        | deposit k amount =>
          simp only [Call.isCashOn, decide_eq_true_eq] at hc
          subst hc
          simp only [Call.journalId, Option.isNone_iff_eq_none] at hf1
          have hok : (bs.Deposit k amount clock).2 = none := by
            change (bs.call (.deposit k amount) clock).2 = none
            rw [hcall]
          have h1 := BankingSystem.CashState_Deposit h hok hf1
          have hb : (bs.Deposit k amount clock).1 = bs1 := by
            change (bs.call (.deposit k amount) clock).1 = bs1
            rw [hcall]
          rw [hb] at h1
          simpa [Call.deposited, Call.withdrawn] using h1
        | withdraw k amount =>
          simp only [Call.isCashOn, decide_eq_true_eq] at hc
          subst hc
          simp only [Call.journalId, Option.isNone_iff_eq_none] at hf1
          have hok : (bs.Withdraw k amount clock).2 = none := by
            change (bs.call (.withdraw k amount) clock).2 = none
            rw [hcall]
          have h1 := BankingSystem.CashState_Withdraw h hok hf1
          have hb : (bs.Withdraw k amount clock).1 = bs1 := by
            change (bs.call (.withdraw k amount) clock).1 = bs1
            rw [hcall]
          rw [hb] at h1
          simpa [Call.deposited, Call.withdrawn] using h1
        | ledgerCreate _ => simp [Call.isCashOn] at hc
        | ledgerDeposit _ _ => simp [Call.isCashOn] at hc
        | ledgerWithdraw _ _ => simp [Call.isCashOn] at hc
        | ledgerCloseAccount _ => simp [Call.isCashOn] at hc
        | createUser _ _ _ _ _ _ _ _ => simp [Call.isCashOn] at hc
        | createAccount _ _ _ _ => simp [Call.isCashOn] at hc
        | transfer _ _ _ => simp [Call.isCashOn] at hc
        | closeAccount _ => simp [Call.isCashOn] at hc
      have h2 := ih bs1 bs' _ _ _ hstep hops' hrun hf2
      simp only [List.map_cons, List.sum_cons, List.length_cons]
      have e1 : D + (c.deposited + (ops.map (fun p => p.1.deposited)).sum) =
          D + c.deposited + (ops.map (fun p => p.1.deposited)).sum := by ring
      have e2 : W + (c.withdrawn + (ops.map (fun p => p.1.withdrawn)).sum) =
          W + c.withdrawn + (ops.map (fun p => p.1.withdrawn)).sum := by ring
      have e3 : n + (ops.length + 1) = n + 1 + ops.length := by omega
      rw [e1, e2, e3]
      exact h2

/-! ## The sample scenario: deposits and withdrawals on a new account -/

/-- A successful `CreateAccount`, read backwards: the ledger's `Create` succeeded and the new
ledger is its result. -/
theorem BankingSystem.CreateAccount_eq_none {bs : BankingSystem} {n h t : String} {u : Int}
    {clock : Nat → Time} (hok : (bs.CreateAccount n h t u clock).2 = none) :
    ∃ created,
      (bs.accounts.Create
        { AccountNumber := n, HolderName := h, Balance := 0, AccountType := t, Status := "",
          CreatedAt := Time.zero, UpdatedAt := Time.zero } (clock 0) (clock 1)).2 = .ok created ∧
      (bs.CreateAccount n h t u clock).1.accounts =
        (bs.accounts.Create
          { AccountNumber := n, HolderName := h, Balance := 0, AccountType := t, Status := "",
            CreatedAt := Time.zero, UpdatedAt := Time.zero } (clock 0) (clock 1)).1 := by
  unfold BankingSystem.CreateAccount at hok ⊢
  cases hu : bs.users.Get u with
  | error e => simp [hu] at hok
  | ok usr =>
    simp only [hu] at hok ⊢
    rcases hc : bs.accounts.Create
        { AccountNumber := n, HolderName := h, Balance := 0, AccountType := t, Status := "",
          CreatedAt := Time.zero, UpdatedAt := Time.zero } (clock 0) (clock 1) with ⟨acc, r⟩
    cases r with
    | error e => simp [hc] at hok
    | ok created =>
      refine ⟨created, rfl, ?_⟩
      simp only
      split <;> rfl

/-- Right after its creation an account has balance 0, no journal entry and an empty
summary. -/
theorem BankingSystem.CashState_of_created {s bs : BankingSystem} (account : Account)
    {created : Account} {t1 t2 : Time} (hj : s.JournalInLedger)
    (hcreate : (s.accounts.Create account t1 t2).2 = .ok created)
    (hacc : bs.accounts = (s.accounts.Create account t1 t2).1)
    (htx : bs.transactions = s.transactions) :
    bs.CashState account.AccountNumber 0 0 0 := by
  obtain ⟨hne, hnone, hc, heq⟩ := accountService.Create_eq_ok hcreate
  have hent : entriesOf (bs.transactions.GetTransactionsByAccount account.AccountNumber) = [] := by
    rw [htx]
    exact hj.entries_eq_nil hne hnone
  have hsum : bs.GetTransactionSummary account.AccountNumber =
      emptySummary account.AccountNumber := by
    simp only [BankingSystem.GetTransactionSummary,
      transactionService.GetTransactionSummary_eq_foldl, hent, List.foldl_nil]
  refine ⟨?_, ?_, ?_, ?_, ?_⟩
  · simp only [BankingSystem.balanceOf, hacc, heq, mapGet_mapPut_same, Option.map_some', hc,
      sub_zero]
  · rw [hent]; rfl
  · rw [hsum]; rfl
  · rw [hsum]; rfl
  · rw [hsum]; simp [emptySummary, TransactionSummary.netAmount]

/-- C7 at a clock reading that repeats: the clock gives the calls the same instant for the
transaction id.  On the new account `A1`, deposit 1000, deposit 500 and withdraw 200 all
succeed within tick 30 of a coarse clock and leave the balance 1300, but each entry is stored
under the id `TXN30` over the previous one: the journal has 1 entry for `A1`, not 3, and the
summary shows total deposits 0, total withdrawals 200 and the net amount -200. -/
theorem C7_counterexample_same_tick :
    (NewBankingSystem.call (.ledgerCreate (exampleAccount "A1")) (exampleClock 10)) =
      (exampleA1, none) ∧
    exampleA1.runOk exampleScenarioTick = some exampleScenarioTickEnd ∧
    exampleScenarioTickEnd.balanceOf "A1" = some 1300 ∧
    (entriesOf (exampleScenarioTickEnd.transactions.GetTransactionsByAccount "A1")).length = 1 ∧
    (exampleScenarioTickEnd.GetTransactionSummary "A1").TotalDeposits = 0 ∧
    (exampleScenarioTickEnd.GetTransactionSummary "A1").TotalWithdrawals = 200 ∧
    (exampleScenarioTickEnd.GetTransactionSummary "A1").netAmount = -200 :=
  ⟨by with_unfolding_all rfl, by with_unfolding_all rfl, by with_unfolding_all rfl,
    by with_unfolding_all rfl, by with_unfolding_all rfl, by with_unfolding_all rfl,
    by with_unfolding_all rfl⟩

/-- With amounts as exact numbers: take an account just created in a reachable state, by the
ledger's `Create`
or by the orchestrator's `CreateAccount`, and any run of `n` successful orchestrator `Deposit`
and `Withdraw` calls on it in which every call generates a transaction id that is not yet a
key of the journal.  Then the account's balance is the sum of the deposited amounts minus the
sum of the withdrawn amounts, `GetTransactionsByAccount` returns exactly `n` entries for it
(with an error next to the empty slice when `n = 0`), and its summary has total deposits
the sum of the deposits, total withdrawals the sum of the withdrawals and a net amount equal
to the balance. -/
theorem exact_cash_run_on_new_account (s : BankingSystem) (account : Account) (holder type : String)
    (userID : Int) (c : Call) (clock : Nat → Time) (ops : List (Call × (Nat → Time)))
    (bs' : BankingSystem) (hr : Reachable s)
    (hc : c = .ledgerCreate account ∨
      c = .createAccount account.AccountNumber holder type userID)
    (hcreate : (s.call c clock).2 = none)
    (hops : ∀ p ∈ ops, p.1.isCashOn account.AccountNumber = true)
    (hrun : (s.call c clock).1.runOk ops = some bs')
    (hfresh : (s.call c clock).1.freshIds ops = true) :
    bs'.balanceOf account.AccountNumber =
      some ((ops.map (fun p => p.1.deposited)).sum - (ops.map (fun p => p.1.withdrawn)).sum) ∧
    (entriesOf (bs'.transactions.GetTransactionsByAccount account.AccountNumber)).length =
      ops.length ∧
    (ops ≠ [] → ∃ l, bs'.transactions.GetTransactionsByAccount account.AccountNumber = .ok l ∧
      l.length = ops.length) ∧
    (ops = [] → bs'.transactions.GetTransactionsByAccount account.AccountNumber =
      .error (.msg "no transactions found for account")) ∧
    (bs'.GetTransactionSummary account.AccountNumber).TotalDeposits =
      (ops.map (fun p => p.1.deposited)).sum ∧
    (bs'.GetTransactionSummary account.AccountNumber).TotalWithdrawals =
      (ops.map (fun p => p.1.withdrawn)).sum ∧
    some (bs'.GetTransactionSummary account.AccountNumber).netAmount =
      bs'.balanceOf account.AccountNumber := by
  have h0 : (s.call c clock).1.CashState account.AccountNumber 0 0 0 := by
    rcases hc with hc | hc
    · subst hc
      have hok : ∃ created, (s.accounts.Create account (clock 0) (clock 1)).2 = .ok created := by
        change errorOf (s.accounts.Create account (clock 0) (clock 1)).2 = none at hcreate
        cases h : (s.accounts.Create account (clock 0) (clock 1)).2 with
        | error e => rw [h] at hcreate; simp [errorOf] at hcreate
        | ok created => exact ⟨created, rfl⟩
      obtain ⟨created, hok⟩ := hok
      exact BankingSystem.CashState_of_created account hr.journalInLedger hok rfl rfl
    · subst hc
      change (s.CreateAccount account.AccountNumber holder type userID clock).2 = none at hcreate
      obtain ⟨created, hok, hacc⟩ := BankingSystem.CreateAccount_eq_none hcreate
      exact BankingSystem.CashState_of_created
        { AccountNumber := account.AccountNumber, HolderName := holder, Balance := 0,
            AccountType := type, Status := "", CreatedAt := Time.zero, UpdatedAt := Time.zero }
        hr.journalInLedger hok hacc
        (BankingSystem.CreateAccount_transactions s _ _ _ _ _)
  have h := BankingSystem.CashState_runOk ops _ bs' 0 0 0 h0 hops hrun hfresh
  simp only [zero_add] at h
  obtain ⟨hb, hn, hD, hW, hnet⟩ := h
  refine ⟨hb, hn, ?_, ?_, hD, hW, ?_⟩
  · intro hne
    cases hres : bs'.transactions.GetTransactionsByAccount account.AccountNumber with
    | error e =>
      rw [hres] at hn
      simp only [entriesOf, List.length_nil] at hn
      exact absurd (List.length_eq_zero.mp hn.symm) hne
    | ok l =>
      rw [hres] at hn
      exact ⟨l, rfl, hn⟩
  · intro hnil
    apply transactionService.GetTransactionsByAccount_of_nil
    rw [hnil] at hn
    exact List.length_eq_zero.mp hn
  · rw [hb, hnet]

/-- The law of the cash run at the sample scenario: create `A1`, deposit 1000, deposit 500, withdraw
200, with distinct clock readings; the balance is 1300, the journal has 3 entries for `A1`,
and the summary shows total deposits 1500, total withdrawals 200 and the net amount 1300. -/
theorem exact_cash_run_on_new_account_witness :
    exampleScenarioEnd.balanceOf "A1" = some 1300 ∧
    (entriesOf (exampleScenarioEnd.transactions.GetTransactionsByAccount "A1")).length = 3 ∧
    (exampleScenarioEnd.GetTransactionSummary "A1").TotalDeposits = 1500 ∧
    (exampleScenarioEnd.GetTransactionSummary "A1").TotalWithdrawals = 200 ∧
    some (exampleScenarioEnd.GetTransactionSummary "A1").netAmount = some 1300 := by
  have h := exact_cash_run_on_new_account NewBankingSystem (exampleAccount "A1") "" "" 0
    (.ledgerCreate (exampleAccount "A1")) (exampleClock 10) exampleScenario exampleScenarioEnd
    Reachable.init (Or.inl rfl) (by with_unfolding_all rfl)
    (by
      intro p hp
      simp only [exampleScenario, List.mem_cons, List.mem_singleton, List.not_mem_nil,
        or_false] at hp
      rcases hp with rfl | rfl | rfl <;> rfl)
    (by with_unfolding_all rfl) (by with_unfolding_all rfl)
  obtain ⟨h1, h2, _, _, h4, h5, h6⟩ := h
  have e1 : (exampleScenario.map (fun p => p.1.deposited)).sum = 1500 := by
    simp [exampleScenario, Call.deposited]; norm_num
  have e2 : (exampleScenario.map (fun p => p.1.withdrawn)).sum = 200 := by
    simp [exampleScenario, Call.withdrawn]
  rw [e1, e2] at h1
  rw [e1] at h4
  rw [e2] at h5
  have e3 : (1500 : Amount) - 200 = 1300 := by norm_num
  rw [e3] at h1
  exact ⟨h1, h2, h4, h5, h6.trans h1⟩

/-! ## The summary against the change in balance -/

theorem netAmount_summaryStep_deposit (k : String) (S : TransactionSummary) (e : Transaction)
    (hs : e.Status = Completed) (ht : e.Type_ = Bank.Deposit) :
    (summaryStep k S e).netAmount = S.netAmount + e.Amount := by
  obtain ⟨s1, s2, s3, s4, s5⟩ := summaryStep_deposit k S e hs ht
  simp only [TransactionSummary.netAmount, s1, s2, s3, s4, s5]
  ring

theorem netAmount_summaryStep_withdrawal (k : String) (S : TransactionSummary)
    (e : Transaction) (hs : e.Status = Completed) (ht : e.Type_ = Bank.Withdrawal) :
    (summaryStep k S e).netAmount = S.netAmount - e.Amount := by
  obtain ⟨s1, s2, s3, s4, s5⟩ := summaryStep_withdrawal k S e hs ht
  simp only [TransactionSummary.netAmount, s1, s2, s3, s4, s5]
  ring

theorem netAmount_summaryStep_transfer_out (k : String) (S : TransactionSummary)
    (e : Transaction) (hs : e.Status = Completed) (ht : e.Type_ = Bank.Transfer)
    (hf : e.FromAccount = k) : (summaryStep k S e).netAmount = S.netAmount - e.Amount := by
  obtain ⟨s1, s2, s3, s4, s5⟩ := summaryStep_transfer_out k S e hs ht hf
  simp only [TransactionSummary.netAmount, s1, s2, s3, s4, s5]
  ring

theorem netAmount_summaryStep_transfer_in (k : String) (S : TransactionSummary)
    (e : Transaction) (hs : e.Status = Completed) (ht : e.Type_ = Bank.Transfer)
    (hf : e.FromAccount ≠ k) : (summaryStep k S e).netAmount = S.netAmount + e.Amount := by
  obtain ⟨s1, s2, s3, s4, s5⟩ := summaryStep_transfer_in k S e hs ht hf
  simp only [TransactionSummary.netAmount, s1, s2, s3, s4, s5]
  ring

/-- A successful orchestrator `Deposit` with a new id changes the net amount of the summary
of an account by as much as the account's balance. -/
theorem BankingSystem.net_Deposit {bs : BankingSystem} {X k : String} {b amount : Amount}
    {clock : Nat → Time} (hX : X ≠ "") (hb : bs.balanceOf X = some b)
    (hok : (bs.Deposit k amount clock).2 = none)
    (hfresh : mapGet bs.transactions.transactions (generateTransactionID (clock 1)) = none) :
    ∃ b', (bs.Deposit k amount clock).1.balanceOf X = some b' ∧
      ((bs.Deposit k amount clock).1.GetTransactionSummary X).netAmount - b' =
        (bs.GetTransactionSummary X).netAmount - b := by
  have hl := BankingSystem.Deposit_ledger_ok hok
  obtain ⟨a, hg, _, _, heq⟩ := accountService.Deposit_eq_none hl
  rw [BankingSystem.Deposit_of_ok hl, mapPut_of_mapGet_none _ hfresh]
  simp only [BankingSystem.GetTransactionSummary,
    transactionService.GetTransactionSummary_append]
  by_cases hk : k = X
  · subst hk
    have ha : a.Balance = b := by simpa [BankingSystem.balanceOf, hg] using hb
    refine ⟨b + amount, ?_, ?_⟩
    · simp only [BankingSystem.balanceOf, heq, mapGet_mapPut_same, Option.map_some', ha]
    · have hn := netAmount_summaryStep_deposit k
        (transactionService.GetTransactionSummary bs.transactions k)
        (newTransaction (bs.accounts.Deposit k amount (clock 0)).1 Bank.Deposit "" k amount
          "Cash deposit" (clock 1) (clock 2) (clock 3)) rfl rfl
      simp only [newTransaction, or_true, if_true] at hn ⊢
      rw [hn]
      ring
  · refine ⟨b, ?_, ?_⟩
    · simp only [BankingSystem.balanceOf, heq, mapGet_mapPut_ne _ _ hk]
      exact hb
    · simp only [newTransaction, Ne.symm hX, hk, or_self, if_false]

/-- A successful orchestrator `Withdraw` with a new id changes the net amount of the summary
of an account by as much as the account's balance. -/
theorem BankingSystem.net_Withdraw {bs : BankingSystem} {X k : String} {b amount : Amount}
    {clock : Nat → Time} (hX : X ≠ "") (hb : bs.balanceOf X = some b)
    (hok : (bs.Withdraw k amount clock).2 = none)
    (hfresh : mapGet bs.transactions.transactions (generateTransactionID (clock 1)) = none) :
    ∃ b', (bs.Withdraw k amount clock).1.balanceOf X = some b' ∧
      ((bs.Withdraw k amount clock).1.GetTransactionSummary X).netAmount - b' =
        (bs.GetTransactionSummary X).netAmount - b := by
  have hl := BankingSystem.Withdraw_ledger_ok hok
  obtain ⟨a, hg, _, _, _, heq⟩ := accountService.Withdraw_eq_none hl
  rw [BankingSystem.Withdraw_of_ok hl, mapPut_of_mapGet_none _ hfresh]
  simp only [BankingSystem.GetTransactionSummary,
    transactionService.GetTransactionSummary_append]
  by_cases hk : k = X
  · subst hk
    have ha : a.Balance = b := by simpa [BankingSystem.balanceOf, hg] using hb
    refine ⟨b - amount, ?_, ?_⟩
    · simp only [BankingSystem.balanceOf, heq, mapGet_mapPut_same, Option.map_some', ha]
    · have hn := netAmount_summaryStep_withdrawal k
        (transactionService.GetTransactionSummary bs.transactions k)
        (newTransaction (bs.accounts.Withdraw k amount (clock 0)).1 Bank.Withdrawal k "" amount
          "Cash withdrawal" (clock 1) (clock 2) (clock 3)) rfl rfl
      simp only [newTransaction, true_or, if_true] at hn ⊢
      rw [hn]
      ring
  · refine ⟨b, ?_, ?_⟩
    · simp only [BankingSystem.balanceOf, heq, mapGet_mapPut_ne _ _ hk]
      exact hb
    · simp only [newTransaction, Ne.symm hX, hk, or_self, if_false]

/-- A successful `Transfer` with a new id, other than one from the account to itself, changes
the net amount of the summary of the account by as much as the account's balance. -/
theorem BankingSystem.net_Transfer {bs : BankingSystem} {X f t : String} {b amount : Amount}
    {clock : Nat → Time} (hb : bs.balanceOf X = some b) (hft : ¬ (f = X ∧ t = X))
    (hok : (bs.Transfer f t amount clock).2 = none)
    (hfresh : mapGet bs.transactions.transactions (generateTransactionID (clock 2)) = none) :
    ∃ b', (bs.Transfer f t amount clock).1.balanceOf X = some b' ∧
      ((bs.Transfer f t amount clock).1.GetTransactionSummary X).netAmount - b' =
        (bs.GetTransactionSummary X).netAmount - b := by
  obtain ⟨hw, hd⟩ := BankingSystem.Transfer_ledger_ok hok
  obtain ⟨a, hga, _, _, _, heqw⟩ := accountService.Withdraw_eq_none hw
  obtain ⟨c, hgc, _, _, heqd⟩ := accountService.Deposit_eq_none hd
  rw [BankingSystem.Transfer_of_ok_entry hw hd, mapPut_of_mapGet_none _ hfresh]
  simp only [BankingSystem.GetTransactionSummary,
    transactionService.GetTransactionSummary_append]
  by_cases ht : t = X
  · subst ht
    have hf : f ≠ t := fun h => hft ⟨h, rfl⟩
    have hc : c.Balance = b := by
      rw [heqw] at hgc
      simp only [mapGet_mapPut_ne _ _ hf] at hgc
      simpa [BankingSystem.balanceOf, hgc] using hb
    refine ⟨b + amount, ?_, ?_⟩
    · simp only [BankingSystem.balanceOf, heqd, mapGet_mapPut_same, Option.map_some', hc]
    · have hn := netAmount_summaryStep_transfer_in t
        (transactionService.GetTransactionSummary bs.transactions t)
        (newTransaction ((bs.accounts.Withdraw f amount (clock 0)).1.Deposit t amount (clock 1)).1
          Bank.Transfer f t amount "Fund transfer" (clock 2) (clock 3) (clock 4)) rfl rfl hf
      simp only [newTransaction, or_true, if_true] at hn ⊢
      rw [hn]
      ring
  · by_cases hf : f = X
    · subst hf
      have ha : a.Balance = b := by simpa [BankingSystem.balanceOf, hga] using hb
      refine ⟨b - amount, ?_, ?_⟩
      · simp only [BankingSystem.balanceOf, heqd, mapGet_mapPut_ne _ _ ht]
        simp only [heqw, mapGet_mapPut_same, Option.map_some', ha]
      · have hn := netAmount_summaryStep_transfer_out f
          (transactionService.GetTransactionSummary bs.transactions f)
          (newTransaction
            ((bs.accounts.Withdraw f amount (clock 0)).1.Deposit t amount (clock 1)).1
            Bank.Transfer f t amount "Fund transfer" (clock 2) (clock 3) (clock 4)) rfl rfl rfl
        simp only [newTransaction, true_or, if_true] at hn ⊢
        rw [hn]
        ring
    · refine ⟨b, ?_, ?_⟩
      · simp only [BankingSystem.balanceOf, heqd, mapGet_mapPut_ne _ _ ht]
        simp only [heqw, mapGet_mapPut_ne _ _ hf]
        exact hb
      · simp only [newTransaction, hf, ht, or_self, if_false]

/-- Along a run of successful orchestrator `Deposit`, `Withdraw` and `Transfer` calls, none
of them a transfer from the account to itself and each with a new id, the net amount of the
summary of the account changes by as much as the account's balance. -/
theorem BankingSystem.net_runOk {X : String} (hX : X ≠ "") :
    ∀ (ops : List (Call × (Nat → Time))) (bs bs' : BankingSystem) (b : Amount),
      bs.balanceOf X = some b → (∀ p ∈ ops, p.1.isMoneyCallFor X = true) →
      bs.runOk ops = some bs' → bs.freshIds ops = true →
      ∃ b', bs'.balanceOf X = some b' ∧
        (bs'.GetTransactionSummary X).netAmount - b' =
          (bs.GetTransactionSummary X).netAmount - b := by
  intro ops
  induction ops with
  | nil =>
    intro bs bs' b hb _ hrun _
    simp only [BankingSystem.runOk, Option.some.injEq] at hrun
    subst hrun
    exact ⟨b, hb, rfl⟩
  | cons p ops ih =>
    intro bs bs' b hb hops hrun hfresh
    obtain ⟨c, clock⟩ := p
    have hc : c.isMoneyCallFor X = true := hops (c, clock) (List.mem_cons_self _ _)
    have hops' : ∀ p ∈ ops, p.1.isMoneyCallFor X = true :=
      fun p hp => hops p (List.mem_cons_of_mem _ hp)
    simp only [BankingSystem.freshIds, Bool.and_eq_true] at hfresh
    obtain ⟨hf1, hf2⟩ := hfresh
    simp only [BankingSystem.runOk] at hrun
    rcases hcall : bs.call c clock with ⟨bs1, err⟩
    rw [hcall] at hrun hf2
    cases err with
    | some e => simp at hrun
    | none =>
      simp only at hrun hf2
      have hstep : ∃ b1, bs1.balanceOf X = some b1 ∧
          (bs1.GetTransactionSummary X).netAmount - b1 =
            (bs.GetTransactionSummary X).netAmount - b := by
        have h1 : (bs.call c clock).1 = bs1 := by rw [hcall]
        have h2 : (bs.call c clock).2 = none := by rw [hcall]
        rw [← h1]
        cases c with
        | deposit k amount =>
          simp only [Call.journalId, Option.isNone_iff_eq_none] at hf1
          exact BankingSystem.net_Deposit hX hb h2 hf1
        | withdraw k amount =>
          simp only [Call.journalId, Option.isNone_iff_eq_none] at hf1
          exact BankingSystem.net_Withdraw hX hb h2 hf1
        | transfer f t amount =>
          simp only [Call.journalId, Option.isNone_iff_eq_none] at hf1
          simp only [Call.isMoneyCallFor, Bool.not_eq_true', Bool.and_eq_false_iff,
            decide_eq_false_iff_not] at hc
          exact BankingSystem.net_Transfer hb (by tauto) h2 hf1
        | ledgerCreate _ => simp [Call.isMoneyCallFor] at hc
        | ledgerDeposit _ _ => simp [Call.isMoneyCallFor] at hc
        | ledgerWithdraw _ _ => simp [Call.isMoneyCallFor] at hc
        | ledgerCloseAccount _ => simp [Call.isMoneyCallFor] at hc
        | createUser _ _ _ _ _ _ _ _ => simp [Call.isMoneyCallFor] at hc
        | createAccount _ _ _ _ => simp [Call.isMoneyCallFor] at hc
        | closeAccount _ => simp [Call.isMoneyCallFor] at hc
      obtain ⟨b1, hb1, hn1⟩ := hstep
      obtain ⟨b', hb', hn'⟩ := ih bs1 bs' b1 hb1 hops' hrun hf2
      exact ⟨b', hb', hn'.trans hn1⟩

/-- With amounts as exact numbers, the summary of an account equals its change in balance
when no transfer goes from the account to itself: take an account just created in a reachable state, by the ledger's `Create`
or by the orchestrator's `CreateAccount`, and any run of successful orchestrator `Deposit`,
`Withdraw` and `Transfer` calls, on any accounts, none of them a transfer from the account to
itself, each generating a transaction id that is not yet a key of the journal.  Then
`totalDeposits - totalWithdrawals - totalTransfersOut + totalTransfersIn - totalFees` is the
account's balance, which is its change in balance since its creation at balance 0. -/
theorem exact_summary_net_eq_balance_change (s : BankingSystem) (account : Account)
    (holder type : String) (userID : Int) (c : Call) (clock : Nat → Time)
    (ops : List (Call × (Nat → Time))) (bs' : BankingSystem) (hr : Reachable s)
    (hc : c = .ledgerCreate account ∨
      c = .createAccount account.AccountNumber holder type userID)
    (hcreate : (s.call c clock).2 = none)
    (hops : ∀ p ∈ ops, p.1.isMoneyCallFor account.AccountNumber = true)
    (hrun : (s.call c clock).1.runOk ops = some bs')
    (hfresh : (s.call c clock).1.freshIds ops = true) :
    (s.call c clock).1.balanceOf account.AccountNumber = some 0 ∧
    ∃ b', bs'.balanceOf account.AccountNumber = some b' ∧
      (bs'.GetTransactionSummary account.AccountNumber).TotalDeposits -
        (bs'.GetTransactionSummary account.AccountNumber).TotalWithdrawals -
        (bs'.GetTransactionSummary account.AccountNumber).TotalTransfersOut +
        (bs'.GetTransactionSummary account.AccountNumber).TotalTransfersIn -
        (bs'.GetTransactionSummary account.AccountNumber).TotalFees = b' - 0 := by
  have h0 : (s.call c clock).1.CashState account.AccountNumber 0 0 0 ∧
      account.AccountNumber ≠ "" := by
    rcases hc with hc | hc
    · subst hc
      have hok : ∃ created, (s.accounts.Create account (clock 0) (clock 1)).2 = .ok created := by
        change errorOf (s.accounts.Create account (clock 0) (clock 1)).2 = none at hcreate
        cases h : (s.accounts.Create account (clock 0) (clock 1)).2 with
        | error e => rw [h] at hcreate; simp [errorOf] at hcreate
        | ok created => exact ⟨created, rfl⟩
      obtain ⟨created, hok⟩ := hok
      exact ⟨BankingSystem.CashState_of_created account hr.journalInLedger hok rfl rfl,
        (accountService.Create_eq_ok hok).1⟩
    · subst hc
      change (s.CreateAccount account.AccountNumber holder type userID clock).2 = none at hcreate
      obtain ⟨created, hok, hacc⟩ := BankingSystem.CreateAccount_eq_none hcreate
      exact ⟨BankingSystem.CashState_of_created
        { AccountNumber := account.AccountNumber, HolderName := holder, Balance := 0,
            AccountType := type, Status := "", CreatedAt := Time.zero, UpdatedAt := Time.zero }
        hr.journalInLedger hok hacc
        (BankingSystem.CreateAccount_transactions s _ _ _ _ _),
        (accountService.Create_eq_ok hok).1⟩
  obtain ⟨⟨hb0, _, _, _, hnet0⟩, hX⟩ := h0
  simp only [sub_zero] at hb0 hnet0
  obtain ⟨b', hb', hn⟩ := BankingSystem.net_runOk hX ops _ bs' 0 hb0 hops hrun hfresh
  refine ⟨hb0, b', hb', ?_⟩
  rw [hnet0] at hn
  simp only [TransactionSummary.netAmount] at hn
  linarith

/-- The summary law at a run with transfers in both directions: `A1` and `A2` created, 1000
deposited into `A1`, 400 transferred to `A2`, 150 transferred back, 50 withdrawn from `A2`;
for `A2` the summary gives `0 - 50 - 150 + 400 - 0 = 200`, the balance of `A2`. -/
theorem exact_summary_net_eq_balance_change_witness :
    exampleA1A2.balanceOf "A2" = some 0 ∧
    ∃ b', exampleTransfersEnd.balanceOf "A2" = some b' ∧
      (exampleTransfersEnd.GetTransactionSummary "A2").TotalDeposits -
        (exampleTransfersEnd.GetTransactionSummary "A2").TotalWithdrawals -
        (exampleTransfersEnd.GetTransactionSummary "A2").TotalTransfersOut +
        (exampleTransfersEnd.GetTransactionSummary "A2").TotalTransfersIn -
        (exampleTransfersEnd.GetTransactionSummary "A2").TotalFees = b' - 0 :=
  exact_summary_net_eq_balance_change exampleA1 (exampleAccount "A2") "" "" 0
    (.ledgerCreate (exampleAccount "A2")) (exampleClock 20) exampleTransfers exampleTransfersEnd
    exampleA1_reachable (Or.inl rfl) (by with_unfolding_all rfl)
    (by
      intro p hp
      simp only [exampleTransfers, List.mem_cons, List.mem_singleton, List.not_mem_nil,
        or_false] at hp
      rcases hp with rfl | rfl | rfl | rfl <;> rfl)
    (by with_unfolding_all rfl) (by with_unfolding_all rfl)

/-- C6 at a transfer from an account to itself: on the new account `A1`, deposit 1000 and
then transfer 400 from `A1` to `A1`, with distinct clock readings.  Both calls succeed and
the balance of `A1` is 1000, so its change in balance since creation is 1000; the summary
counts the transfer as outgoing only and gives
`totalDeposits - totalWithdrawals - totalTransfersOut + totalTransfersIn - totalFees = 600`. -/
theorem C6_self_transfer_summary :
    exampleA1.balanceOf "A1" = some 0 ∧
    exampleA1.runOk exampleSelfTransfer = some exampleSelfTransferEnd ∧
    exampleA1.freshIds exampleSelfTransfer = true ∧
    exampleSelfTransferEnd.balanceOf "A1" = some 1000 ∧
    (exampleSelfTransferEnd.GetTransactionSummary "A1").TotalDeposits = 1000 ∧
    (exampleSelfTransferEnd.GetTransactionSummary "A1").TotalWithdrawals = 0 ∧
    (exampleSelfTransferEnd.GetTransactionSummary "A1").TotalTransfersOut = 400 ∧
    (exampleSelfTransferEnd.GetTransactionSummary "A1").TotalTransfersIn = 0 ∧
    (exampleSelfTransferEnd.GetTransactionSummary "A1").TotalFees = 0 ∧
    (exampleSelfTransferEnd.GetTransactionSummary "A1").TotalDeposits -
      (exampleSelfTransferEnd.GetTransactionSummary "A1").TotalWithdrawals -
      (exampleSelfTransferEnd.GetTransactionSummary "A1").TotalTransfersOut +
      (exampleSelfTransferEnd.GetTransactionSummary "A1").TotalTransfersIn -
      (exampleSelfTransferEnd.GetTransactionSummary "A1").TotalFees = 600 :=
  ⟨by with_unfolding_all rfl, by with_unfolding_all rfl, by with_unfolding_all rfl,
    by with_unfolding_all rfl, by with_unfolding_all rfl, by with_unfolding_all rfl,
    by with_unfolding_all rfl, by with_unfolding_all rfl, by with_unfolding_all rfl,
    by with_unfolding_all rfl⟩

/-! ## The life of an account -/

theorem Account.evolvesTo_refl (a : Account) : a.EvolvesTo a :=
  ⟨rfl, rfl, rfl, rfl, Or.inl rfl, fun h => ⟨h, rfl⟩⟩

theorem Account.evolvesTo_trans {a b c : Account} (h₁ : a.EvolvesTo b) (h₂ : b.EvolvesTo c) :
    a.EvolvesTo c := by
  obtain ⟨n1, o1, t1, c1, s1, k1⟩ := h₁
  obtain ⟨n2, o2, t2, c2, s2, k2⟩ := h₂
  refine ⟨n2.trans n1, o2.trans o1, t2.trans t1, c2.trans c1, ?_, ?_⟩
  · rcases s2 with s2 | s2
    · rcases s1 with s1 | s1
      · exact Or.inl (s2.trans s1)
      · exact Or.inr (s2.trans s1)
    · exact Or.inr s2
  · intro hc
    obtain ⟨hb, hbal⟩ := k1 hc
    obtain ⟨hc', hbal'⟩ := k2 hb
    exact ⟨hc', hbal'.trans hbal⟩

theorem accountService.Evolves.rfl_ (ac : accountService) : ac.Evolves ac :=
  fun _ a h => ⟨a, h, Account.evolvesTo_refl a⟩

theorem accountService.Evolves.comp {a b c : accountService} (h₁ : a.Evolves b)
    (h₂ : b.Evolves c) : a.Evolves c := by
  intro k x hx
  obtain ⟨y, hy, hxy⟩ := h₁ k x hx
  obtain ⟨z, hz, hyz⟩ := h₂ k y hy
  exact ⟨z, hz, Account.evolvesTo_trans hxy hyz⟩

/-- Overwriting the account under `k` by an evolved record lets the ledger evolve. -/
theorem accountService.Evolves_mapPut_of_mapGet {ac : accountService} {k : String}
    {a v : Account} (hg : mapGet ac.accounts k = some a) (hv : a.EvolvesTo v) :
    ac.Evolves { accounts := mapPut ac.accounts k v } := by
  intro k' x hx
  by_cases hk : k = k'
  · subst hk
    rw [hg] at hx
    injection hx with hx
    subst hx
    exact ⟨v, mapGet_mapPut_same _ _ _, hv⟩
  · exact ⟨x, by simp only [mapGet_mapPut_ne _ _ hk]; exact hx, Account.evolvesTo_refl x⟩

/-- Adding an account under a number that is absent lets the ledger evolve. -/
theorem accountService.Evolves_mapPut_of_none {ac : accountService} {k : String}
    (v : Account) (hg : mapGet ac.accounts k = none) :
    ac.Evolves { accounts := mapPut ac.accounts k v } := by
  intro k' x hx
  have hk : k ≠ k' := by
    intro hk
    subst hk
    rw [hg] at hx
    simp at hx
  exact ⟨x, by simp only [mapGet_mapPut_ne _ _ hk]; exact hx, Account.evolvesTo_refl x⟩

theorem accountService.Evolves_Create (ac : accountService) (account : Account) (t1 t2 : Time) :
    ac.Evolves (ac.Create account t1 t2).1 := by
  cases h : (ac.Create account t1 t2).2 with
  | error err =>
    rw [accountService.Create_of_error h]
    exact accountService.Evolves.rfl_ ac
  | ok created =>
    obtain ⟨_, hnone, _, heq⟩ := accountService.Create_eq_ok h
    rw [heq]
    exact accountService.Evolves_mapPut_of_none _ hnone

theorem accountService.Evolves_Deposit (ac : accountService) (k : String) (amount : Amount)
    (now : Time) : ac.Evolves (ac.Deposit k amount now).1 := by
  cases h : (ac.Deposit k amount now).2 with
  | some err =>
    rw [accountService.Deposit_of_error (by simp [h])]
    exact accountService.Evolves.rfl_ ac
  | none =>
    obtain ⟨a, hg, _, hs, heq⟩ := accountService.Deposit_eq_none h
    rw [heq]
    refine accountService.Evolves_mapPut_of_mapGet hg ⟨rfl, rfl, rfl, rfl, Or.inl rfl, ?_⟩
    intro hc
    rw [hs] at hc
    exact absurd hc (by decide)

theorem accountService.Evolves_Withdraw (ac : accountService) (k : String) (amount : Amount)
    (now : Time) : ac.Evolves (ac.Withdraw k amount now).1 := by
  cases h : (ac.Withdraw k amount now).2 with
  | some err =>
    rw [accountService.Withdraw_of_error (by simp [h])]
    exact accountService.Evolves.rfl_ ac
  | none =>
    obtain ⟨a, hg, _, hs, _, heq⟩ := accountService.Withdraw_eq_none h
    rw [heq]
    refine accountService.Evolves_mapPut_of_mapGet hg ⟨rfl, rfl, rfl, rfl, Or.inl rfl, ?_⟩
    intro hc
    rw [hs] at hc
    exact absurd hc (by decide)

theorem accountService.Evolves_CloseAccount (ac : accountService) (k : String) (now : Time) :
    ac.Evolves (ac.CloseAccount k now).1 := by
  unfold accountService.CloseAccount
  cases hg : mapGet ac.accounts k with
  | none => exact accountService.Evolves.rfl_ ac
  | some a =>
    by_cases hb : a.Balance = 0
    · simp only [hb, ne_eq, not_true_eq_false, if_false]
      exact accountService.Evolves_mapPut_of_mapGet hg
        ⟨rfl, rfl, rfl, rfl, Or.inr rfl, fun _ => ⟨rfl, hb.symm⟩⟩
    · simp only [hb, ne_eq, not_false_eq_true, if_true]
      exact accountService.Evolves.rfl_ ac

/-- Every call lets the ledger evolve. -/
theorem BankingSystem.Evolves_call (bs : BankingSystem) (c : Call) (clock : Nat → Time) :
    bs.accounts.Evolves (bs.call c clock).1.accounts := by
  cases c with
  | ledgerCreate account => exact accountService.Evolves_Create _ _ _ _
  | ledgerDeposit k amount => exact accountService.Evolves_Deposit _ _ _ _
  | ledgerWithdraw k amount => exact accountService.Evolves_Withdraw _ _ _ _
  | ledgerCloseAccount k => exact accountService.Evolves_CloseAccount _ _ _
  | createUser a b c d e f g i =>
    show bs.accounts.Evolves (bs.CreateUser a b c d e f g i).1.accounts
    rw [BankingSystem.CreateUser_accounts]
    exact accountService.Evolves.rfl_ _
  | createAccount n hn t u =>
    show bs.accounts.Evolves (bs.CreateAccount n hn t u clock).1.accounts
    rcases BankingSystem.CreateAccount_accounts bs n hn t u clock with e | e
    · rw [e]; exact accountService.Evolves.rfl_ _
    · rw [e]; exact accountService.Evolves_Create _ _ _ _
  | deposit k amount =>
    show bs.accounts.Evolves (bs.Deposit k amount clock).1.accounts
    rw [BankingSystem.Deposit_accounts]
    exact accountService.Evolves_Deposit _ _ _ _
  | withdraw k amount =>
    show bs.accounts.Evolves (bs.Withdraw k amount clock).1.accounts
    rw [BankingSystem.Withdraw_accounts]
    exact accountService.Evolves_Withdraw _ _ _ _
  | transfer f t amount =>
    show bs.accounts.Evolves (bs.Transfer f t amount clock).1.accounts
    rcases BankingSystem.Transfer_accounts bs f t amount clock with e | e | e
    · rw [e]; exact accountService.Evolves.rfl_ _
    · rw [e]
      exact (accountService.Evolves_Withdraw _ _ _ _).comp (accountService.Evolves_Deposit _ _ _ _)
    · rw [e]
      exact ((accountService.Evolves_Withdraw _ _ _ _).comp
        (accountService.Evolves_Deposit _ _ _ _)).comp (accountService.Evolves_Deposit _ _ _ _)
  | closeAccount k =>
    show bs.accounts.Evolves (bs.accounts.CloseAccount k (clock 0)).1
    exact accountService.Evolves_CloseAccount _ _ _

/-- Along any sequence of calls the ledger evolves. -/
theorem ReachableFrom.evolves {s bs : BankingSystem} (h : ReachableFrom s bs) :
    s.accounts.Evolves bs.accounts := by
  induction h with
  | refl => exact accountService.Evolves.rfl_ _
  | step c clock _ ih => exact ih.comp (BankingSystem.Evolves_call _ c clock)

/-! ## Well-formed ledgers -/

theorem accountService.WellFormed_mapPut {ac : accountService} {k : String} {v : Account}
    (h : ac.WellFormed) (hn : v.AccountNumber = k) (hk : k ≠ "")
    (hs : v.Status = "Active" ∨ v.Status = "Closed") (hc : v.Status = "Closed" → v.Balance = 0) :
    accountService.WellFormed { accounts := mapPut ac.accounts k v } := by
  intro p hp
  rcases mem_mapPut hp with hp' | hp'
  · subst hp'
    exact ⟨hn, hk, hs, hc⟩
  · exact h p hp'

theorem accountService.WellFormed_Create {ac : accountService} (account : Account)
    (t1 t2 : Time) (h : ac.WellFormed) : (ac.Create account t1 t2).1.WellFormed := by
  cases hr : (ac.Create account t1 t2).2 with
  | error err =>
    rw [accountService.Create_of_error hr]
    exact h
  | ok created =>
    obtain ⟨hne, _, hc, heq⟩ := accountService.Create_eq_ok hr
    rw [heq]
    subst hc
    exact accountService.WellFormed_mapPut h rfl hne (Or.inl rfl) (fun _ => rfl)

theorem accountService.WellFormed_Deposit {ac : accountService} (k : String) (amount : Amount)
    (now : Time) (h : ac.WellFormed) : (ac.Deposit k amount now).1.WellFormed := by
  cases hr : (ac.Deposit k amount now).2 with
  | some err =>
    rw [accountService.Deposit_of_error (by simp [hr])]
    exact h
  | none =>
    obtain ⟨a, hg, _, hs, heq⟩ := accountService.Deposit_eq_none hr
    obtain ⟨hn, hk, _, _⟩ := h _ (mem_of_mapGet hg)
    rw [heq]
    refine accountService.WellFormed_mapPut h hn hk (Or.inl hs) ?_
    intro hc
    simp only [hs] at hc
    exact absurd hc (by decide)

theorem accountService.WellFormed_Withdraw {ac : accountService} (k : String) (amount : Amount)
    (now : Time) (h : ac.WellFormed) : (ac.Withdraw k amount now).1.WellFormed := by
  cases hr : (ac.Withdraw k amount now).2 with
  | some err =>
    rw [accountService.Withdraw_of_error (by simp [hr])]
    exact h
  | none =>
    obtain ⟨a, hg, _, hs, _, heq⟩ := accountService.Withdraw_eq_none hr
    obtain ⟨hn, hk, _, _⟩ := h _ (mem_of_mapGet hg)
    rw [heq]
    refine accountService.WellFormed_mapPut h hn hk (Or.inl hs) ?_
    intro hc
    simp only [hs] at hc
    exact absurd hc (by decide)

theorem accountService.WellFormed_CloseAccount {ac : accountService} (k : String) (now : Time)
    (h : ac.WellFormed) : (ac.CloseAccount k now).1.WellFormed := by
  unfold accountService.CloseAccount
  cases hg : mapGet ac.accounts k with
  | none => exact h
  | some a =>
    obtain ⟨hn, hk, _, _⟩ := h _ (mem_of_mapGet hg)
    by_cases hb : a.Balance = 0
    · simp only [hb, ne_eq, not_true_eq_false, if_false]
      exact accountService.WellFormed_mapPut h hn hk (Or.inr rfl) (fun _ => rfl)
    · simp only [hb, ne_eq, not_false_eq_true, if_true]
      exact h

/-- Every call keeps the ledger well-formed. -/
theorem BankingSystem.WellFormed_call {bs : BankingSystem} (c : Call) (clock : Nat → Time)
    (h : bs.accounts.WellFormed) : (bs.call c clock).1.accounts.WellFormed := by
  cases c with
  | ledgerCreate account => exact accountService.WellFormed_Create _ _ _ h
  | ledgerDeposit k amount => exact accountService.WellFormed_Deposit _ _ _ h
  | ledgerWithdraw k amount => exact accountService.WellFormed_Withdraw _ _ _ h
  | ledgerCloseAccount k => exact accountService.WellFormed_CloseAccount _ _ h
  | createUser a b c d e f g i =>
    show (bs.CreateUser a b c d e f g i).1.accounts.WellFormed
    rw [BankingSystem.CreateUser_accounts]
    exact h
  | createAccount n hn t u =>
    show (bs.CreateAccount n hn t u clock).1.accounts.WellFormed
    rcases BankingSystem.CreateAccount_accounts bs n hn t u clock with e | e
    · rw [e]; exact h
    · rw [e]; exact accountService.WellFormed_Create _ _ _ h
  | deposit k amount =>
    show (bs.Deposit k amount clock).1.accounts.WellFormed
    rw [BankingSystem.Deposit_accounts]
    exact accountService.WellFormed_Deposit _ _ _ h
  | withdraw k amount =>
    show (bs.Withdraw k amount clock).1.accounts.WellFormed
    rw [BankingSystem.Withdraw_accounts]
    exact accountService.WellFormed_Withdraw _ _ _ h
  | transfer f t amount =>
    show (bs.Transfer f t amount clock).1.accounts.WellFormed
    rcases BankingSystem.Transfer_accounts bs f t amount clock with e | e | e
    · rw [e]; exact h
    · rw [e]
      exact accountService.WellFormed_Deposit _ _ _ (accountService.WellFormed_Withdraw _ _ _ h)
    · rw [e]
      exact accountService.WellFormed_Deposit _ _ _ (accountService.WellFormed_Deposit _ _ _
        (accountService.WellFormed_Withdraw _ _ _ h))
  | closeAccount k =>
    show (bs.accounts.CloseAccount k (clock 0)).1.WellFormed
    exact accountService.WellFormed_CloseAccount _ _ h

/-- The ledger of a reachable state is well-formed. -/
theorem Reachable.wellFormed {bs : BankingSystem} (h : Reachable bs) :
    bs.accounts.WellFormed := by
  induction h with
  | init => intro p hp; simp [NewBankingSystem, NewAccountService] at hp
  | step c clock _ ih => exact BankingSystem.WellFormed_call c clock ih

/-! ## The ledger's `Deposit`, `Create` and `CloseAccount` -/

/-- With amounts as exact numbers (for `float64` amounts see `deposit_contract_float64`):
the ledger's `Deposit` succeeds if and only if the amount is above zero, the account
exists and its status is `Active`, whatever the size of the amount; on success the stored
account is the old one with `balance + amount` as balance and a new update time, so its
number, holder, type, status and creation time are unchanged, every other account is
unchanged, and a second deposit of the amount yields `balance + amount + amount`; a failure
is `ErrInvalidAmount` if the amount is at most zero, else `ErrAccountNotFound` if the number
is unknown, else the inactive-account error, and a failing call changes nothing. -/
theorem exact_deposit_contract (ac : accountService) (id : String) (amount : Amount) (now : Time) :
    ((ac.Deposit id amount now).2 = none ↔
      0 < amount ∧ ∃ a, mapGet ac.accounts id = some a ∧ a.Status = "Active") ∧
    (∀ a, 0 < amount → mapGet ac.accounts id = some a → a.Status = "Active" →
      mapGet (ac.Deposit id amount now).1.accounts id =
          some { a with Balance := a.Balance + amount, UpdatedAt := now } ∧
        (∀ other, other ≠ id →
          mapGet (ac.Deposit id amount now).1.accounts other = mapGet ac.accounts other) ∧
        ∀ later, ((ac.Deposit id amount now).1.Deposit id amount later).2 = none ∧
          (mapGet ((ac.Deposit id amount now).1.Deposit id amount later).1.accounts id).map
            (fun x => x.Balance) = some (a.Balance + amount + amount)) ∧
    (amount ≤ 0 → ac.Deposit id amount now = (ac, some .ErrInvalidAmount)) ∧
    (0 < amount → mapGet ac.accounts id = none →
      ac.Deposit id amount now = (ac, some .ErrAccountNotFound)) ∧
    (∀ a, 0 < amount → mapGet ac.accounts id = some a → a.Status ≠ "Active" →
      ac.Deposit id amount now =
        (ac, some (.msg ("cannot deposit to an account with status: " ++ a.Status)))) := by
  refine ⟨⟨?_, ?_⟩, ?_, ?_, ?_, ?_⟩
  · intro h
    obtain ⟨a, hg, h0, hs, _⟩ := accountService.Deposit_eq_none h
    exact ⟨h0, a, hg, hs⟩
  · rintro ⟨h0, a, hg, hs⟩
    rw [accountService.Deposit_of_active now hg h0 hs]
  · intro a h0 hg hs
    rw [accountService.Deposit_of_active now hg h0 hs]
    refine ⟨mapGet_mapPut_same _ _ _, ?_, ?_⟩
    · intro other hne
      exact mapGet_mapPut_ne _ _ (Ne.symm hne)
    · intro later
      have h2 := @accountService.Deposit_of_active
        { accounts := mapPut ac.accounts id
            { a with Balance := a.Balance + amount, UpdatedAt := now } }
        id amount { a with Balance := a.Balance + amount, UpdatedAt := now } later
        (mapGet_mapPut_same _ _ _) h0 hs
      simp only [h2, mapGet_mapPut_same, Option.map_some', and_self]
  · intro h0
    simp [accountService.Deposit, h0]
  · intro h0 hg
    simp [accountService.Deposit, not_le.mpr h0, hg]
  · intro a h0 hg hs
    simp [accountService.Deposit, not_le.mpr h0, hg, hs]

/-- C12: the ledger's `Create` fails with `ErrInvalidInput` if the account number, holder name
or account type is empty; otherwise with `ErrAccountExists` if the number is already a key of
the ledger; otherwise it stores and returns the given account with balance 0, status `Active`,
whatever balance and status were passed in, and the two clock readings as creation and update
time, leaving every existing account unchanged; a failing call changes nothing.  Hence in
every reachable state no account is stored under the empty number or carries it. -/
theorem C12_create_contract (ac : accountService) (account : Account) (t1 t2 : Time) :
    (account.AccountNumber = "" ∨ account.HolderName = "" ∨ account.AccountType = "" →
      ac.Create account t1 t2 = (ac, .error .ErrInvalidInput)) ∧
    (account.AccountNumber ≠ "" → account.HolderName ≠ "" → account.AccountType ≠ "" →
      (mapGet ac.accounts account.AccountNumber).isSome →
      ac.Create account t1 t2 = (ac, .error .ErrAccountExists)) ∧
    (account.AccountNumber ≠ "" → account.HolderName ≠ "" → account.AccountType ≠ "" →
      mapGet ac.accounts account.AccountNumber = none →
      (ac.Create account t1 t2).2 =
          .ok { account with Balance := 0, Status := "Active", CreatedAt := t1, UpdatedAt := t2 } ∧
        mapGet (ac.Create account t1 t2).1.accounts account.AccountNumber =
          some { account with Balance := 0, Status := "Active", CreatedAt := t1,
                              UpdatedAt := t2 } ∧
        ∀ other, other ≠ account.AccountNumber →
          mapGet (ac.Create account t1 t2).1.accounts other = mapGet ac.accounts other) ∧
    (∀ bs, Reachable bs → mapGet bs.accounts.accounts "" = none ∧
      ∀ p ∈ bs.accounts.accounts, p.1 ≠ "" ∧ p.2.AccountNumber ≠ "") := by
  refine ⟨?_, ?_, ?_, ?_⟩
  · intro h
    simp [accountService.Create, h]
  · intro h1 h2 h3 hex
    obtain ⟨x, hx⟩ := Option.isSome_iff_exists.mp hex
    simp [accountService.Create, h1, h2, h3, hx]
  · intro h1 h2 h3 hnone
    have hc : ac.Create account t1 t2 =
        ({ accounts := mapPut ac.accounts account.AccountNumber
            { account with Balance := 0, Status := "Active", CreatedAt := t1, UpdatedAt := t2 } },
          .ok { account with Balance := 0, Status := "Active", CreatedAt := t1,
                             UpdatedAt := t2 }) := by
      simp [accountService.Create, h1, h2, h3, hnone]
    rw [hc]
    refine ⟨rfl, mapGet_mapPut_same _ _ _, ?_⟩
    intro other hne
    exact mapGet_mapPut_ne _ _ (Ne.symm hne)
  · intro bs hr
    refine ⟨hr.journalInLedger.1, ?_⟩
    intro p hp
    obtain ⟨hn, hk, _, _⟩ := hr.wellFormed p hp
    exact ⟨hk, hn ▸ hk⟩

/-- C13: `CloseAccount` fails with `ErrAccountNotFound` if and only if the number is unknown;
for an existing account it fails with the non-zero-balance error if and only if the balance is
not 0, and then changes nothing; with balance 0 it succeeds, whatever the status, and stores
the old account with status `Closed` and a new update time, so no balance changes, and every
other account is unchanged. -/
theorem C13_close_contract (ac : accountService) (id : String) (now : Time) :
    ((ac.CloseAccount id now).2 = some .ErrAccountNotFound ↔ mapGet ac.accounts id = none) ∧
    (mapGet ac.accounts id = none → ac.CloseAccount id now = (ac, some .ErrAccountNotFound)) ∧
    (∀ a, mapGet ac.accounts id = some a →
      ((ac.CloseAccount id now).2 =
          some (.msg "account balance must be zero to close the account") ↔ a.Balance ≠ 0) ∧
      (a.Balance ≠ 0 → ac.CloseAccount id now =
          (ac, some (.msg "account balance must be zero to close the account"))) ∧
      (a.Balance = 0 →
        (ac.CloseAccount id now).2 = none ∧
        mapGet (ac.CloseAccount id now).1.accounts id =
          some { a with Status := "Closed", UpdatedAt := now } ∧
        ∀ other, other ≠ id →
          mapGet (ac.CloseAccount id now).1.accounts other = mapGet ac.accounts other)) := by
  refine ⟨⟨?_, ?_⟩, ?_, ?_⟩
  · intro h
    cases hg : mapGet ac.accounts id with
    | none => rfl
    | some a =>
      by_cases hb : a.Balance = 0
      · simp [accountService.CloseAccount, hg, hb] at h
      · simp [accountService.CloseAccount, hg, hb] at h
  · intro hg
    simp [accountService.CloseAccount, hg]
  · intro hg
    simp [accountService.CloseAccount, hg]
  · intro a hg
    refine ⟨⟨?_, ?_⟩, ?_, ?_⟩
    · intro h
      intro hb
      simp [accountService.CloseAccount, hg, hb] at h
    · intro hb
      simp [accountService.CloseAccount, hg, hb]
    · intro hb
      simp [accountService.CloseAccount, hg, hb]
    · intro hb
      have hc : ac.CloseAccount id now =
          ({ accounts := mapPut ac.accounts id { a with Status := "Closed", UpdatedAt := now } },
            none) := by
        simp [accountService.CloseAccount, hg, hb]
      rw [hc]
      refine ⟨rfl, mapGet_mapPut_same _ _ _, ?_⟩
      intro other hne
      exact mapGet_mapPut_ne _ _ (Ne.symm hne)

/-! ## Closed accounts -/

/-- A successful `CloseAccount`, read backwards. -/
theorem accountService.CloseAccount_eq_none {ac : accountService} {k : String} {now : Time}
    (h : (ac.CloseAccount k now).2 = none) :
    ∃ a, mapGet ac.accounts k = some a ∧ a.Balance = 0 ∧
      (ac.CloseAccount k now).1 =
        { accounts := mapPut ac.accounts k { a with Status := "Closed", UpdatedAt := now } } := by
  unfold accountService.CloseAccount at h ⊢
  cases hg : mapGet ac.accounts k with
  | none => simp [hg] at h
  | some a =>
    by_cases hb : a.Balance = 0
    · exact ⟨a, rfl, hb, by simp [hb]⟩
    · simp [hg, hb] at h

/-- On an account that is `Closed`, `Deposit` and `Withdraw` fail and change nothing: with the
inactive-account error when the amount is above zero, with `ErrInvalidAmount` otherwise. -/
theorem accountService.closed_rejects {ac : accountService} {k : String} {a : Account}
    (hg : mapGet ac.accounts k = some a) (hs : a.Status = "Closed") (amount : Amount)
    (t : Time) :
    (0 < amount →
      ac.Deposit k amount t =
          (ac, some (.msg "cannot deposit to an account with status: Closed")) ∧
        ac.Withdraw k amount t =
          (ac, some (.msg "cannot withdraw from an account with status: Closed"))) ∧
    (amount ≤ 0 →
      ac.Deposit k amount t = (ac, some .ErrInvalidAmount) ∧
        ac.Withdraw k amount t = (ac, some .ErrInvalidAmount)) := by
  constructor
  · intro h0
    have hne : a.Status ≠ "Active" := by rw [hs]; decide
    constructor
    · simp only [accountService.Deposit, not_le.mpr h0, if_false, hg, hne, ne_eq,
        not_false_eq_true, if_true, hs]
      rfl
    · simp only [accountService.Withdraw, not_le.mpr h0, if_false, hg, hne, ne_eq,
        not_false_eq_true, if_true, hs]
      rfl
  · intro h0
    constructor
    · simp [accountService.Deposit, h0]
    · simp [accountService.Withdraw, h0]

/-- C14, as stated, fails for an amount that is not above zero: `A2` has been closed by a
successful `CloseAccount`, and `Deposit("A2", 0)` and `Withdraw("A2", 0)` then fail with
`ErrInvalidAmount`, not with the inactive-account error. -/
theorem C14_counterexample_zero_amount :
    exampleFunded.call (.closeAccount "A2") (exampleClock 40) = (exampleClosed, none) ∧
    exampleClosed.accounts.Deposit "A2" 0 50 =
      (exampleClosed.accounts, some .ErrInvalidAmount) ∧
    exampleClosed.accounts.Withdraw "A2" 0 50 =
      (exampleClosed.accounts, some .ErrInvalidAmount) ∧
    BankError.ErrInvalidAmount ≠ .msg "cannot deposit to an account with status: Closed" ∧
    BankError.ErrInvalidAmount ≠ .msg "cannot withdraw from an account with status: Closed" :=
  ⟨by with_unfolding_all rfl, by with_unfolding_all rfl, by with_unfolding_all rfl,
    by simp, by simp⟩

/-- C14, amended: after `CloseAccount(id)` has succeeded, in every state reached by any later
calls, `Deposit(id, amount)` and `Withdraw(id, amount)` fail and leave the ledger unchanged:
with the inactive-account error for every amount above zero, with `ErrInvalidAmount` for every
amount that is at most zero. -/
theorem C14_closed_account_rejects (s s' : BankingSystem) (id : String) (now : Time)
    (amount : Amount) (t : Time) (hclose : (s.accounts.CloseAccount id now).2 = none)
    (hlater : ReachableFrom { s with accounts := (s.accounts.CloseAccount id now).1 } s') :
    (0 < amount →
      s'.accounts.Deposit id amount t =
          (s'.accounts, some (.msg "cannot deposit to an account with status: Closed")) ∧
        s'.accounts.Withdraw id amount t =
          (s'.accounts, some (.msg "cannot withdraw from an account with status: Closed"))) ∧
    (amount ≤ 0 →
      s'.accounts.Deposit id amount t = (s'.accounts, some .ErrInvalidAmount) ∧
        s'.accounts.Withdraw id amount t = (s'.accounts, some .ErrInvalidAmount)) := by
  obtain ⟨a, _, _, heq⟩ := accountService.CloseAccount_eq_none hclose
  have hg : mapGet (s.accounts.CloseAccount id now).1.accounts id =
      some { a with Status := "Closed", UpdatedAt := now } := by
    rw [heq]
    exact mapGet_mapPut_same _ _ _
  obtain ⟨a', hg', he⟩ := hlater.evolves id _ hg
  exact accountService.closed_rejects hg' (he.2.2.2.2.2 rfl).1 amount t

/-- The amended C14 at `A2`, closed in `exampleFunded`, after a later deposit into `A1`, for
the amount 100. -/
theorem C14_closed_account_rejects_witness :
    ((0 : Amount) < 100 →
      exampleClosedLater.accounts.Deposit "A2" 100 60 =
          (exampleClosedLater.accounts,
            some (.msg "cannot deposit to an account with status: Closed")) ∧
        exampleClosedLater.accounts.Withdraw "A2" 100 60 =
          (exampleClosedLater.accounts,
            some (.msg "cannot withdraw from an account with status: Closed"))) ∧
    ((100 : Amount) ≤ 0 →
      exampleClosedLater.accounts.Deposit "A2" 100 60 =
          (exampleClosedLater.accounts, some .ErrInvalidAmount) ∧
        exampleClosedLater.accounts.Withdraw "A2" 100 60 =
          (exampleClosedLater.accounts, some .ErrInvalidAmount)) :=
  C14_closed_account_rejects exampleFunded exampleClosedLater "A2" 40 100 60
    (by with_unfolding_all rfl)
    (ReachableFrom.step (.deposit "A1" 5) (exampleClock 50) ReachableFrom.refl)

/-- C15: in every reachable state every account's status is `Active` or `Closed` and every
`Closed` account has balance 0; and whatever call is made next, every account is still in the
ledger afterwards, a `Closed` account keeps its status and its balance, and an account's
status is unchanged or has gone from `Active` to `Closed`. -/
theorem C15_closed_is_terminal (bs : BankingSystem) (h : Reachable bs) :
    (∀ p ∈ bs.accounts.accounts,
      (p.2.Status = "Active" ∨ p.2.Status = "Closed") ∧
      (p.2.Status = "Closed" → p.2.Balance = 0)) ∧
    (∀ (c : Call) (clock : Nat → Time) (k : String) (a : Account),
      mapGet bs.accounts.accounts k = some a →
      ∃ a', mapGet (bs.call c clock).1.accounts.accounts k = some a' ∧
        (a.Status = "Closed" → a'.Status = "Closed" ∧ a'.Balance = a.Balance) ∧
        (a'.Status = a.Status ∨ (a.Status = "Active" ∧ a'.Status = "Closed"))) := by
  have hwf := h.wellFormed
  refine ⟨fun p hp => ⟨(hwf p hp).2.2.1, (hwf p hp).2.2.2⟩, ?_⟩
  intro c clock k a hg
  obtain ⟨a', hg', _, _, _, _, hst, hcl⟩ := BankingSystem.Evolves_call bs c clock k a hg
  refine ⟨a', hg', hcl, ?_⟩
  rcases hst with hst | hst
  · exact Or.inl hst
  · rcases (hwf _ (mem_of_mapGet hg)).2.2.1 with ha | ha
    · exact Or.inr ⟨ha, hst⟩
    · exact Or.inl (hst.trans ha.symm)

/-- C15 at the state in which `A1` holds 1000 and `A2` has been closed. -/
theorem C15_closed_is_terminal_witness :
    Reachable exampleClosed ∧
    (∀ p ∈ exampleClosed.accounts.accounts,
      (p.2.Status = "Active" ∨ p.2.Status = "Closed") ∧
      (p.2.Status = "Closed" → p.2.Balance = 0)) ∧
    (∀ (c : Call) (clock : Nat → Time) (k : String) (a : Account),
      mapGet exampleClosed.accounts.accounts k = some a →
      ∃ a', mapGet (exampleClosed.call c clock).1.accounts.accounts k = some a' ∧
        (a.Status = "Closed" → a'.Status = "Closed" ∧ a'.Balance = a.Balance) ∧
        (a'.Status = a.Status ∨ (a.Status = "Active" ∧ a'.Status = "Closed"))) :=
  ⟨exampleClosed_reachable, C15_closed_is_terminal exampleClosed exampleClosed_reachable⟩

/-! ## The balance snapshot of a journal entry -/

/-- C16 at three successful calls.  `Deposit("A1", 1000)` on balance 0 leaves the balance 1000
and stores `BalanceAfter = 2000`; then `Withdraw("A1", 200)` leaves 800 and stores 600;
instead `Transfer("A1", "A2", 400)` leaves 600 on `A1` and stores 200.  The snapshot is the
balance read after the ledger call with the amount applied to it once more. -/
theorem C16_balance_after_applies_amount_twice :
    exampleA1A2.Deposit "A1" 1000 (exampleClock 30) = (exampleFunded, none) ∧
    exampleFunded.balanceOf "A1" = some 1000 ∧
    (mapGet exampleFunded.transactions.transactions "TXN31").map
      (fun e => (e.Type_, e.ToAccount, e.BalanceAfter)) = some ("DEPOSIT", "A1", 2000) ∧
    (exampleFunded.Withdraw "A1" 200 (exampleClock 40)).2 = none ∧
    (exampleFunded.Withdraw "A1" 200 (exampleClock 40)).1.balanceOf "A1" = some 800 ∧
    (mapGet (exampleFunded.Withdraw "A1" 200 (exampleClock 40)).1.transactions.transactions
      "TXN41").map (fun e => (e.Type_, e.FromAccount, e.BalanceAfter)) =
        some ("WITHDRAWAL", "A1", 600) ∧
    (exampleFunded.Transfer "A1" "A2" 400 (exampleClock 40)).2 = none ∧
    (exampleFunded.Transfer "A1" "A2" 400 (exampleClock 40)).1.balanceOf "A1" = some 600 ∧
    (mapGet (exampleFunded.Transfer "A1" "A2" 400 (exampleClock 40)).1.transactions.transactions
      "TXN42").map (fun e => (e.Type_, e.FromAccount, e.BalanceAfter)) =
        some ("TRANSFER", "A1", 200) :=
  ⟨by with_unfolding_all rfl, by with_unfolding_all rfl, by with_unfolding_all rfl,
    by with_unfolding_all rfl, by with_unfolding_all rfl, by with_unfolding_all rfl,
    by with_unfolding_all rfl, by with_unfolding_all rfl, by with_unfolding_all rfl⟩

/-- The snapshot computed by `CreateTransaction` for a deposit into an existing account. -/
theorem balanceAfter_deposit {accounts : accountService} {k : String} {a : Account}
    (amount : Amount) (hk : k ≠ "") (hg : mapGet accounts.accounts k = some a) :
    balanceAfter accounts Bank.Deposit "" k amount = a.Balance + amount := by
  simp [balanceAfter, hk, accountService.GetBalance, hg]

/-- The snapshot computed by `CreateTransaction` for a withdrawal from an existing account. -/
theorem balanceAfter_withdrawal {accounts : accountService} {k : String} {a : Account}
    (amount : Amount) (hk : k ≠ "") (hg : mapGet accounts.accounts k = some a) :
    balanceAfter accounts Bank.Withdrawal k "" amount = a.Balance - amount := by
  have h1 : Bank.Withdrawal ≠ Bank.Deposit := by decide
  simp [balanceAfter, hk, accountService.GetBalance, hg, h1]

/-- The snapshot computed by `CreateTransaction` for a transfer from an existing account. -/
theorem balanceAfter_transfer {accounts : accountService} {f : String} {a : Account}
    (t : String) (amount : Amount) (hf : f ≠ "") (hg : mapGet accounts.accounts f = some a) :
    balanceAfter accounts Bank.Transfer f t amount = a.Balance - amount := by
  have h1 : Bank.Transfer ≠ Bank.Deposit := by decide
  have h2 : Bank.Transfer ≠ Bank.Withdrawal := by decide
  simp [balanceAfter, hf, accountService.GetBalance, hg, h1, h2]

/-- What the snapshot is: after a successful orchestrator `Deposit` the entry stored under the
generated id has `BalanceAfter` equal to the destination's balance after the call plus the
amount; after a successful `Withdraw` or `Transfer` it is the source's balance after the call
minus the amount. -/
theorem balanceAfter_is_balance_with_amount_reapplied (bs : BankingSystem) (k f t : String)
    (amount : Amount) (clock : Nat → Time) :
    (k ≠ "" → (bs.Deposit k amount clock).2 = none →
      ∃ b e, (bs.Deposit k amount clock).1.balanceOf k = some b ∧
        mapGet (bs.Deposit k amount clock).1.transactions.transactions
          (generateTransactionID (clock 1)) = some e ∧
        e.Type_ = Bank.Deposit ∧ e.ToAccount = k ∧ e.BalanceAfter = b + amount) ∧
    (k ≠ "" → (bs.Withdraw k amount clock).2 = none →
      ∃ b e, (bs.Withdraw k amount clock).1.balanceOf k = some b ∧
        mapGet (bs.Withdraw k amount clock).1.transactions.transactions
          (generateTransactionID (clock 1)) = some e ∧
        e.Type_ = Bank.Withdrawal ∧ e.FromAccount = k ∧ e.BalanceAfter = b - amount) ∧
    (f ≠ "" → (bs.Transfer f t amount clock).2 = none →
      ∃ b e, (bs.Transfer f t amount clock).1.balanceOf f = some b ∧
        mapGet (bs.Transfer f t amount clock).1.transactions.transactions
          (generateTransactionID (clock 2)) = some e ∧
        e.Type_ = Bank.Transfer ∧ e.FromAccount = f ∧ e.BalanceAfter = b - amount) := by
  refine ⟨?_, ?_, ?_⟩
  · intro hk hok
    have hl := BankingSystem.Deposit_ledger_ok hok
    obtain ⟨a, _, _, _, heq⟩ := accountService.Deposit_eq_none hl
    have hg : mapGet (bs.accounts.Deposit k amount (clock 0)).1.accounts k =
        some { a with Balance := a.Balance + amount, UpdatedAt := clock 0 } := by
      rw [heq]; exact mapGet_mapPut_same _ _ _
    rw [BankingSystem.Deposit_of_ok hl]
    refine ⟨a.Balance + amount, _, ?_, mapGet_mapPut_same _ _ _, rfl, rfl, ?_⟩
    · simp only [BankingSystem.balanceOf, hg, Option.map_some']
    · simp only [newTransaction, balanceAfter_deposit amount hk hg]
  · intro hk hok
    have hl := BankingSystem.Withdraw_ledger_ok hok
    obtain ⟨a, _, _, _, _, heq⟩ := accountService.Withdraw_eq_none hl
    have hg : mapGet (bs.accounts.Withdraw k amount (clock 0)).1.accounts k =
        some { a with Balance := a.Balance - amount, UpdatedAt := clock 0 } := by
      rw [heq]; exact mapGet_mapPut_same _ _ _
    rw [BankingSystem.Withdraw_of_ok hl]
    refine ⟨a.Balance - amount, _, ?_, mapGet_mapPut_same _ _ _, rfl, rfl, ?_⟩
    · simp only [BankingSystem.balanceOf, hg, Option.map_some']
    · simp only [newTransaction, balanceAfter_withdrawal amount hk hg]
  · intro hf hok
    obtain ⟨hw, hd⟩ := BankingSystem.Transfer_ledger_ok hok
    obtain ⟨a, _, _, _, _, heq⟩ := accountService.Withdraw_eq_none hw
    have hg : (mapGet (bs.accounts.Withdraw f amount (clock 0)).1.accounts f).isSome := by
      rw [heq]; simp [mapGet_mapPut_same]
    have hg' := (accountService.Extends_Deposit _ t amount (clock 1)).1 f hg
    obtain ⟨x, hx⟩ := Option.isSome_iff_exists.mp hg'
    rw [BankingSystem.Transfer_of_ok_entry hw hd]
    refine ⟨x.Balance, _, ?_, mapGet_mapPut_same _ _ _, rfl, rfl, ?_⟩
    · simp only [BankingSystem.balanceOf, hx, Option.map_some']
    · simp only [newTransaction, balanceAfter_transfer t amount hf hx]

/-! ## Writing to the journal -/

/-- Overwriting the binding of a key that is present keeps the keys and their order. -/
theorem mapKeys_mapPut_of_mapGet {κ β : Type} [DecidableEq κ] {m : List (κ × β)} {k : κ}
    {a : β} (v : β) (h : mapGet m k = some a) : mapKeys (mapPut m k v) = mapKeys m := by
  induction m with
  | nil => simp [mapGet] at h
  | cons p m ih =>
    obtain ⟨k', v'⟩ := p
    by_cases hk : k' = k
    · simp [mapPut, mapKeys, hk]
    · simp only [mapGet, hk, if_false] at h
      have ih' := ih h
      simp only [mapKeys] at ih' ⊢
      simp [mapPut, hk, ih']

/-- Overwriting the binding of a key that is present keeps the number of bindings. -/
theorem length_mapPut_of_mapGet {κ β : Type} [DecidableEq κ] {m : List (κ × β)} {k : κ}
    {a : β} (v : β) (h : mapGet m k = some a) : (mapPut m k v).length = m.length := by
  have hk := congrArg List.length (mapKeys_mapPut_of_mapGet v h)
  simpa [mapKeys] using hk

/-- C17 at a clock reading that repeats.  The journal of `exampleTick` holds one entry, the
`DEPOSIT` stored under `TXN30`.  `CreateTransaction` with the amount 400, above zero, and the
reading 30 succeeds and returns an entry whose id is `TXN30`, the id of the entry already in
the journal; afterwards the journal still holds one entry, the new `TRANSFER`, and the
`DEPOSIT` entry is gone. -/
theorem C17_repeated_reading_overwrites :
    exampleTick.transactions.transactions.length = 1 ∧
    (mapGet exampleTick.transactions.transactions "TXN30").map (fun e => (e.ID, e.Type_)) =
      some ("TXN30", "DEPOSIT") ∧
    (0 : Amount) < 400 ∧
    ∃ e, exampleTick.transactions.CreateTransaction exampleTick.accounts Bank.Transfer "A1" "A2"
        400 "Fund transfer" 30 30 30 = ({ transactions := [("TXN30", e)] }, .ok e) ∧
      e.ID = "TXN30" ∧ e.Type_ = "TRANSFER" :=
  ⟨by with_unfolding_all rfl, by with_unfolding_all rfl, by norm_num,
    ⟨newTransaction exampleTick.accounts Bank.Transfer "A1" "A2" 400 "Fund transfer" 30 30 30,
      by with_unfolding_all rfl, by with_unfolding_all rfl, by with_unfolding_all rfl⟩⟩

/-- What `CreateTransaction` does.  With an amount that is at most zero it fails with its
invalid-amount error and leaves the journal unchanged.  With an amount above zero it succeeds
and returns an entry with the id made from the clock reading, status `COMPLETED`, fee 0 and
the given type, source, destination, amount and description; the entry is stored under its
id and the entries under every other id are unchanged; if no entry had that id before, the
journal is the old journal with this one entry added, so the count grows by 1; if an entry
had that id, the count is unchanged. -/
theorem createTransaction_contract (ts : transactionService) (accounts : accountService)
    (tType : TransactionType) (fromAcc toAcc : String) (amount : Amount) (description : String)
    (tId tStamp tRef : Time) :
    (amount ≤ 0 →
      ts.CreateTransaction accounts tType fromAcc toAcc amount description tId tStamp tRef =
        (ts, .error (.msg "transaction amount must be positive"))) ∧
    (0 < amount →
      ∃ e, (ts.CreateTransaction accounts tType fromAcc toAcc amount description tId tStamp
          tRef).2 = .ok e ∧
        e.ID = generateTransactionID tId ∧ e.Status = Completed ∧ e.Fee = 0 ∧ e.Type_ = tType ∧
        e.FromAccount = fromAcc ∧ e.ToAccount = toAcc ∧ e.Amount = amount ∧
        e.Description = description ∧ e.Timestamp = tStamp ∧
        e.ReferenceNumber = generateReferenceNumber tRef ∧
        mapGet (ts.CreateTransaction accounts tType fromAcc toAcc amount description tId tStamp
          tRef).1.transactions e.ID = some e ∧
        (∀ other, other ≠ e.ID →
          mapGet (ts.CreateTransaction accounts tType fromAcc toAcc amount description tId tStamp
            tRef).1.transactions other = mapGet ts.transactions other) ∧
        (mapGet ts.transactions e.ID = none →
          (ts.CreateTransaction accounts tType fromAcc toAcc amount description tId tStamp
            tRef).1.transactions = ts.transactions ++ [(e.ID, e)] ∧
          (ts.CreateTransaction accounts tType fromAcc toAcc amount description tId tStamp
            tRef).1.transactions.length = ts.transactions.length + 1) ∧
        ((mapGet ts.transactions e.ID).isSome →
          (ts.CreateTransaction accounts tType fromAcc toAcc amount description tId tStamp
            tRef).1.transactions.length = ts.transactions.length)) := by
  constructor
  · intro h0
    simp [transactionService.CreateTransaction, h0]
  · intro h0
    rw [transactionService.CreateTransaction_of_pos ts accounts tType fromAcc toAcc description
      tId tStamp tRef h0]
    refine ⟨_, rfl, rfl, rfl, rfl, rfl, rfl, rfl, rfl, rfl, rfl, rfl, mapGet_mapPut_same _ _ _,
      ?_, ?_, ?_⟩
    · intro other hne
      exact mapGet_mapPut_ne _ _ (Ne.symm hne)
    · intro hnone
      have happ := mapPut_of_mapGet_none
        (newTransaction accounts tType fromAcc toAcc amount description tId tStamp tRef) hnone
      refine ⟨happ, ?_⟩
      have hlen := congrArg List.length happ
      simpa using hlen
    · intro hsome
      obtain ⟨x, hx⟩ := Option.isSome_iff_exists.mp hsome
      exact length_mapPut_of_mapGet _ hx

/-- The contract of `CreateTransaction` at the second entry of the sample transfer: the journal
of `exampleFunded` holds the entry `TXN31`, the reading 42 gives the new id `TXN42`, and the
journal grows to two entries. -/
theorem createTransaction_contract_witness :
    ((400 : Amount) ≤ 0 →
      exampleFunded.transactions.CreateTransaction exampleFunded.accounts Bank.Transfer "A1" "A2"
        400 "Fund transfer" 42 43 44 =
        (exampleFunded.transactions, .error (.msg "transaction amount must be positive"))) ∧
    (exampleFunded.transactions.CreateTransaction exampleFunded.accounts Bank.Transfer "A1" "A2"
      400 "Fund transfer" 42 43 44).1.transactions.length = 2 := by
  obtain ⟨h1, h2⟩ := createTransaction_contract exampleFunded.transactions exampleFunded.accounts
    Bank.Transfer "A1" "A2" 400 "Fund transfer" 42 43 44
  refine ⟨h1, ?_⟩
  obtain ⟨e, _, hid, _, _, _, _, _, _, _, _, _, _, _, h3, _⟩ := h2 (by norm_num)
  rw [hid] at h3
  exact (h3 (by with_unfolding_all rfl)).2

/-! ## `UpdateTransactionStatus` -/

/-- C18: `UpdateTransactionStatus(id, s)` fails, with its not-found error, if and only if no
journal entry has that id, and then leaves the journal unchanged; otherwise it succeeds for
every status `s` and every current status, stores under `id` the old entry with status `s`,
so the entry's id, type, amount, source, destination, timestamp, description, reference
number, balance snapshot and fee are unchanged, leaves the entry under every other id
unchanged and keeps the ids of the journal and their order. -/
theorem C18_update_status_contract (ts : transactionService) (id : String)
    (status : TransactionStatus) :
    ((ts.UpdateTransactionStatus id status).2 ≠ none ↔ mapGet ts.transactions id = none) ∧
    (mapGet ts.transactions id = none →
      ts.UpdateTransactionStatus id status = (ts, some (.msg "transaction not found"))) ∧
    (∀ e, mapGet ts.transactions id = some e →
      (ts.UpdateTransactionStatus id status).2 = none ∧
      mapGet (ts.UpdateTransactionStatus id status).1.transactions id =
        some { e with Status := status } ∧
      (∀ other, other ≠ id →
        mapGet (ts.UpdateTransactionStatus id status).1.transactions other =
          mapGet ts.transactions other) ∧
      mapKeys (ts.UpdateTransactionStatus id status).1.transactions = mapKeys ts.transactions) := by
  refine ⟨⟨?_, ?_⟩, ?_, ?_⟩
  · intro h
    cases hg : mapGet ts.transactions id with
    | none => rfl
    | some e => simp [transactionService.UpdateTransactionStatus, hg] at h
  · intro hg
    simp [transactionService.UpdateTransactionStatus, hg]
  · intro hg
    simp [transactionService.UpdateTransactionStatus, hg]
  · intro e hg
    have hc : ts.UpdateTransactionStatus id status =
        ({ transactions := mapPut ts.transactions id { e with Status := status } }, none) := by
      simp [transactionService.UpdateTransactionStatus, hg]
    rw [hc]
    refine ⟨rfl, mapGet_mapPut_same _ _ _, ?_, mapKeys_mapPut_of_mapGet _ hg⟩
    intro other hne
    exact mapGet_mapPut_ne _ _ (Ne.symm hne)

/-! ## What the summary adds up -/

theorem amountSum_filter_cons (p : Transaction → Bool) (e : Transaction)
    (l : List Transaction) :
    amountSum ((e :: l).filter p) = (if p e then e.Amount else 0) + amountSum (l.filter p) := by
  by_cases h : p e
  · simp [amountSum, List.filter_cons, h]
  · simp [amountSum, List.filter_cons, h]

/-- One iteration of the summary loop, field by field. -/
theorem summaryStep_fields (k : String) (S : TransactionSummary) (e : Transaction) :
    (summaryStep k S e).AccountNumber = S.AccountNumber ∧
    (summaryStep k S e).TotalDeposits = S.TotalDeposits +
      (if e.Status = Completed ∧ e.Type_ = Bank.Deposit then e.Amount else 0) ∧
    (summaryStep k S e).TotalWithdrawals = S.TotalWithdrawals +
      (if e.Status = Completed ∧ e.Type_ = Bank.Withdrawal then e.Amount else 0) ∧
    (summaryStep k S e).TotalTransfersOut = S.TotalTransfersOut +
      (if e.Status = Completed ∧ e.Type_ = Bank.Transfer ∧ e.FromAccount = k
        then e.Amount else 0) ∧
    (summaryStep k S e).TotalTransfersIn = S.TotalTransfersIn +
      (if e.Status = Completed ∧ e.Type_ = Bank.Transfer ∧ e.FromAccount ≠ k
        then e.Amount else 0) ∧
    (summaryStep k S e).TotalFees = S.TotalFees +
      (if e.Status = Completed ∧ e.Type_ = Bank.Fee then e.Amount else 0) ∧
    (summaryStep k S e).TransactionCount = S.TransactionCount +
      (if e.Status = Completed then 1 else 0) ∧
    (summaryStep k S e).LastTransaction =
      (if e.Status = Completed ∧ e.Timestamp > S.LastTransaction then e.Timestamp
        else S.LastTransaction) := by
  by_cases hs : e.Status = Completed
  · by_cases hd : e.Type_ = Bank.Deposit
    · have h1 : Bank.Deposit ≠ Bank.Withdrawal := by decide
      have h2 : Bank.Deposit ≠ Bank.Transfer := by decide
      have h3 : Bank.Deposit ≠ Bank.Fee := by decide
      simp only [summaryStep, hs, hd, h1, h2, h3, if_true, if_false, true_and, false_and,
        add_zero]
      split_ifs <;> simp
    · by_cases hw : e.Type_ = Bank.Withdrawal
      · have h1 : Bank.Withdrawal ≠ Bank.Deposit := by decide
        have h2 : Bank.Withdrawal ≠ Bank.Transfer := by decide
        have h3 : Bank.Withdrawal ≠ Bank.Fee := by decide
        simp only [summaryStep, hs, hw, h1, h2, h3, if_true, if_false, true_and, false_and,
          add_zero]
        split_ifs <;> simp
      · by_cases ht : e.Type_ = Bank.Transfer
        · have h1 : Bank.Transfer ≠ Bank.Deposit := by decide
          have h2 : Bank.Transfer ≠ Bank.Withdrawal := by decide
          have h3 : Bank.Transfer ≠ Bank.Fee := by decide
          by_cases hf : e.FromAccount = k
          · simp only [summaryStep, hs, ht, h1, h2, h3, hf, if_true, if_false, true_and,
              false_and, add_zero, ne_eq, not_true_eq_false, and_false, and_true]
            split_ifs <;> simp
          · simp only [summaryStep, hs, ht, h1, h2, h3, hf, if_true, if_false, true_and,
              false_and, add_zero, ne_eq, not_false_eq_true, and_false, and_true]
            split_ifs <;> simp
        · by_cases hf : e.Type_ = Bank.Fee
          · have h1 : Bank.Fee ≠ Bank.Deposit := by decide
            have h2 : Bank.Fee ≠ Bank.Withdrawal := by decide
            have h3 : Bank.Fee ≠ Bank.Transfer := by decide
            simp only [summaryStep, hs, hf, h1, h2, h3, if_true, if_false, true_and, false_and,
              add_zero]
            split_ifs <;> simp
          · simp only [summaryStep, hs, hd, hw, ht, hf, if_true, if_false, true_and, false_and,
              and_false, add_zero]
            split_ifs <;> simp
  · simp [summaryStep, hs]

/-- The totals and the count after the summary loop has run over a list of entries. -/
theorem foldl_summaryStep_totals (k : String) :
    ∀ (l : List Transaction) (S : TransactionSummary),
      (l.foldl (summaryStep k) S).AccountNumber = S.AccountNumber ∧
      (l.foldl (summaryStep k) S).TotalDeposits = S.TotalDeposits +
        amountSum (l.filter (fun e => e.Status = Completed ∧ e.Type_ = Bank.Deposit)) ∧
      (l.foldl (summaryStep k) S).TotalWithdrawals = S.TotalWithdrawals +
        amountSum (l.filter (fun e => e.Status = Completed ∧ e.Type_ = Bank.Withdrawal)) ∧
      (l.foldl (summaryStep k) S).TotalTransfersOut = S.TotalTransfersOut +
        amountSum (l.filter
          (fun e => e.Status = Completed ∧ e.Type_ = Bank.Transfer ∧ e.FromAccount = k)) ∧
      (l.foldl (summaryStep k) S).TotalTransfersIn = S.TotalTransfersIn +
        amountSum (l.filter
          (fun e => e.Status = Completed ∧ e.Type_ = Bank.Transfer ∧ e.FromAccount ≠ k)) ∧
      (l.foldl (summaryStep k) S).TotalFees = S.TotalFees +
        amountSum (l.filter (fun e => e.Status = Completed ∧ e.Type_ = Bank.Fee)) ∧
      (l.foldl (summaryStep k) S).TransactionCount = S.TransactionCount +
        ((l.filter (fun e => e.Status = Completed)).length : Int) := by
  intro l
  induction l with
  | nil => intro S; simp [amountSum]
  | cons e l ih =>
    intro S
    obtain ⟨i0, i1, i2, i3, i4, i5, i6⟩ := ih (summaryStep k S e)
    obtain ⟨f0, f1, f2, f3, f4, f5, f6, _⟩ := summaryStep_fields k S e
    simp only [List.foldl_cons, amountSum_filter_cons, decide_eq_true_eq]
    refine ⟨i0.trans f0, ?_, ?_, ?_, ?_, ?_, ?_⟩
    · rw [i1, f1]; ring
    · rw [i2, f2]; ring
    · rw [i3, f3]; ring
    · rw [i4, f4]; ring
    · rw [i5, f5]; ring
    · rw [i6, f6]
      by_cases hs : e.Status = Completed
      · simp [List.filter_cons, hs]; ring
      · simp [List.filter_cons, hs]

/-- The last-transaction time after the summary loop has run over a list of entries: it is at
least the time it started from and at least the time of every completed entry, and it is the
time it started from or the time of a completed entry. -/
theorem foldl_summaryStep_last (k : String) :
    ∀ (l : List Transaction) (S : TransactionSummary),
      S.LastTransaction ≤ (l.foldl (summaryStep k) S).LastTransaction ∧
      (∀ e ∈ l, e.Status = Completed →
        e.Timestamp ≤ (l.foldl (summaryStep k) S).LastTransaction) ∧
      ((l.foldl (summaryStep k) S).LastTransaction = S.LastTransaction ∨
        ∃ e ∈ l, e.Status = Completed ∧
          e.Timestamp = (l.foldl (summaryStep k) S).LastTransaction) := by
  intro l
  induction l with
  | nil => intro S; simp
  | cons e l ih =>
    intro S
    obtain ⟨i1, i2, i3⟩ := ih (summaryStep k S e)
    have hl := (summaryStep_fields k S e).2.2.2.2.2.2.2
    simp only [List.foldl_cons]
    have hge : S.LastTransaction ≤ (summaryStep k S e).LastTransaction := by
      rw [hl]
      split_ifs with h
      · exact le_of_lt h.2
      · exact le_refl _
    have hee : e.Status = Completed → e.Timestamp ≤ (summaryStep k S e).LastTransaction := by
      intro hs
      rw [hl]
      split_ifs with h
      · exact le_refl _
      · have : ¬ e.Timestamp > S.LastTransaction := fun hgt => h ⟨hs, hgt⟩
        exact not_lt.mp this
    refine ⟨le_trans hge i1, ?_, ?_⟩
    · intro x hx hs
      rcases List.mem_cons.mp hx with hx | hx
      · subst hx
        exact le_trans (hee hs) i1
      · exact i2 x hx hs
    · rcases i3 with i3 | ⟨x, hx, hs, hxt⟩
      · rw [i3, hl]
        split_ifs with h
        · exact Or.inr ⟨e, List.mem_cons_self _ _, h.1, rfl⟩
        · exact Or.inl rfl
      · exact Or.inr ⟨x, List.mem_cons_of_mem _ hx, hs, hxt⟩

/-- C19 at a journal with a transfer from an account to itself.  In the journal of
`exampleSelfTransferEnd` the entries for `A1` are a completed `DEPOSIT` of 1000 and a completed
`TRANSFER` of 400 with source `A1` and destination `A1`: the amounts of the completed
`TRANSFER` entries whose destination is `A1` add up to 400, and the summary shows
`TotalTransfersIn = 0` (and `TotalTransfersOut = 400`), because its loop counts a transfer as
incoming only when the source is another account. -/
theorem C19_self_transfer_not_counted_as_incoming :
    (entriesOf (exampleSelfTransferEnd.transactions.GetTransactionsByAccount "A1")).map
      (fun e => (e.Type_, e.Status, e.FromAccount, e.ToAccount, e.Amount)) =
      [("DEPOSIT", "COMPLETED", "", "A1", 1000), ("TRANSFER", "COMPLETED", "A1", "A1", 400)] ∧
    amountSum ((mapValues exampleSelfTransferEnd.transactions.transactions).filter
      (fun e => e.Status = Completed ∧ e.Type_ = Bank.Transfer ∧ e.ToAccount = "A1")) = 400 ∧
    (exampleSelfTransferEnd.transactions.GetTransactionSummary "A1").TotalTransfersIn = 0 ∧
    (exampleSelfTransferEnd.transactions.GetTransactionSummary "A1").TotalTransfersOut = 400 :=
  ⟨by with_unfolding_all rfl, by with_unfolding_all rfl, by with_unfolding_all rfl,
    by with_unfolding_all rfl⟩

/-- What `GetTransactionSummary` adds up, with amounts as exact numbers, for every journal
and account number.  Only the
entries returned by `GetTransactionsByAccount` with status `COMPLETED` count.  The totals of
deposits, withdrawals and fees are the sums of the amounts of those of type `DEPOSIT`,
`WITHDRAWAL` and `FEE`; the outgoing total is the sum over those of type `TRANSFER` whose
source is the account, the incoming total the sum over those of type `TRANSFER` whose source
is not the account, which is the sum over those whose destination is the account when no
counted entry goes from the account to itself; the count is their number; the last-transaction
time is the latest of their timestamps and the zero time. -/
theorem exact_summary_totals (ts : transactionService) (k : String) :
    (ts.GetTransactionSummary k).AccountNumber = k ∧
    (ts.GetTransactionSummary k).TotalDeposits =
      amountSum ((entriesOf (ts.GetTransactionsByAccount k)).filter
        (fun e => e.Status = Completed ∧ e.Type_ = Bank.Deposit)) ∧
    (ts.GetTransactionSummary k).TotalWithdrawals =
      amountSum ((entriesOf (ts.GetTransactionsByAccount k)).filter
        (fun e => e.Status = Completed ∧ e.Type_ = Bank.Withdrawal)) ∧
    (ts.GetTransactionSummary k).TotalFees =
      amountSum ((entriesOf (ts.GetTransactionsByAccount k)).filter
        (fun e => e.Status = Completed ∧ e.Type_ = Bank.Fee)) ∧
    (ts.GetTransactionSummary k).TotalTransfersOut =
      amountSum ((entriesOf (ts.GetTransactionsByAccount k)).filter
        (fun e => e.Status = Completed ∧ e.Type_ = Bank.Transfer ∧ e.FromAccount = k)) ∧
    (ts.GetTransactionSummary k).TotalTransfersIn =
      amountSum ((entriesOf (ts.GetTransactionsByAccount k)).filter
        (fun e => e.Status = Completed ∧ e.Type_ = Bank.Transfer ∧ e.FromAccount ≠ k)) ∧
    ((∀ e ∈ entriesOf (ts.GetTransactionsByAccount k),
        ¬ (e.Status = Completed ∧ e.Type_ = Bank.Transfer ∧ e.FromAccount = k ∧
          e.ToAccount = k)) →
      (ts.GetTransactionSummary k).TotalTransfersIn =
        amountSum ((entriesOf (ts.GetTransactionsByAccount k)).filter
          (fun e => e.Status = Completed ∧ e.Type_ = Bank.Transfer ∧ e.ToAccount = k))) ∧
    (ts.GetTransactionSummary k).TransactionCount =
      (((entriesOf (ts.GetTransactionsByAccount k)).filter
        (fun e => e.Status = Completed)).length : Int) ∧
    Time.zero ≤ (ts.GetTransactionSummary k).LastTransaction ∧
    (∀ e ∈ entriesOf (ts.GetTransactionsByAccount k), e.Status = Completed →
      e.Timestamp ≤ (ts.GetTransactionSummary k).LastTransaction) ∧
    ((ts.GetTransactionSummary k).LastTransaction = Time.zero ∨
      ∃ e ∈ entriesOf (ts.GetTransactionsByAccount k), e.Status = Completed ∧
        e.Timestamp = (ts.GetTransactionSummary k).LastTransaction) := by
  obtain ⟨t0, t1, t2, t3, t4, t5, t6⟩ := foldl_summaryStep_totals k
    (entriesOf (ts.GetTransactionsByAccount k)) (emptySummary k)
  obtain ⟨l1, l2, l3⟩ := foldl_summaryStep_last k
    (entriesOf (ts.GetTransactionsByAccount k)) (emptySummary k)
  rw [← transactionService.GetTransactionSummary_eq_foldl] at t0 t1 t2 t3 t4 t5 t6 l1 l2 l3
  simp only [emptySummary, zero_add] at t0 t1 t2 t3 t4 t5 t6 l1 l3
  refine ⟨t0, t1, t2, t5, t3, t4, ?_, t6, l1, l2, l3⟩
  intro hno
  rw [t4]
  congr 1
  apply List.filter_congr
  intro e he
  have htouch : e.FromAccount = k ∨ e.ToAccount = k := by
    rw [transactionService.entriesOf_GetTransactionsByAccount] at he
    simpa using (List.mem_filter.mp he).2
  have hn := hno e he
  by_cases hs : e.Status = Completed
  · by_cases ht : e.Type_ = Bank.Transfer
    · by_cases hf : e.FromAccount = k
      · have hto : e.ToAccount ≠ k := fun hto => hn ⟨hs, ht, hf, hto⟩
        simp [hs, ht, hf, hto]
      · have hto : e.ToAccount = k := htouch.resolve_left hf
        simp [hs, ht, hf, hto]
    · simp [hs, ht]
  · simp [hs]

/-! ## `GetTransactionsByAccount` -/

/-- C20: for every journal and account number, `GetTransactionsByAccount` fails, with its
no-transactions error, if and only if no entry of the journal has the number as source or as
destination; otherwise the slice it returns is, as a multiset, the entries of the journal
whose source or destination is the number, each as often as the journal holds it (an entry
from the account to itself once, not twice); and whichever order the journal is enumerated
in, the same multiset is returned.  The method only reads the journal. -/
theorem C20_transactions_by_account (ts : transactionService) (id : String) :
    ((∃ err, ts.GetTransactionsByAccount id = .error err) ↔
      ∀ e ∈ mapValues ts.transactions, ¬ (e.FromAccount = id ∨ e.ToAccount = id)) ∧
    (∀ err, ts.GetTransactionsByAccount id = .error err →
      err = .msg "no transactions found for account") ∧
    (∀ l, ts.GetTransactionsByAccount id = .ok l →
      (l : Multiset Transaction) =
        Multiset.filter (fun e => e.FromAccount = id ∨ e.ToAccount = id)
          (mapValues ts.transactions : Multiset Transaction) ∧
      ∀ e, l.count e =
        if e.FromAccount = id ∨ e.ToAccount = id then (mapValues ts.transactions).count e
        else 0) ∧
    (∀ m', List.Perm m' ts.transactions →
      List.Perm
        (entriesOf (transactionService.GetTransactionsByAccount { transactions := m' } id))
        (entriesOf (ts.GetTransactionsByAccount id))) := by
  have hent := transactionService.entriesOf_GetTransactionsByAccount ts id
  refine ⟨⟨?_, ?_⟩, ?_, ?_, ?_⟩
  · rintro ⟨err, herr⟩
    rw [herr] at hent
    simp only [entriesOf] at hent
    have hnil := List.filter_eq_nil_iff.mp hent.symm
    intro e he
    simpa using hnil e he
  · intro hno
    refine ⟨_, transactionService.GetTransactionsByAccount_of_nil ts id ?_⟩
    rw [hent, List.filter_eq_nil_iff]
    intro e he
    simpa using hno e he
  · intro err herr
    have hnil : entriesOf (ts.GetTransactionsByAccount id) = [] := by rw [herr]; rfl
    have h := transactionService.GetTransactionsByAccount_of_nil ts id hnil
    rw [herr] at h
    injection h
  · intro l hl
    rw [hl] at hent
    simp only [entriesOf] at hent
    subst hent
    constructor
    · rw [Multiset.filter_coe]
    · intro e
      by_cases h : e.FromAccount = id ∨ e.ToAccount = id
      · rw [if_pos h]
        exact List.count_filter (by simpa using h)
      · rw [if_neg h, List.count_eq_zero]
        intro hmem
        have := (List.mem_filter.mp hmem).2
        exact h (by simpa using this)
  · intro m' hperm
    rw [hent, transactionService.entriesOf_GetTransactionsByAccount]
    exact (hperm.map Prod.snd).filter _

/-! ## `GetTransactionsByDateRange` -/

/-- The entries `GetTransactionsByDateRange` returns are the journal's values stamped within
the closed interval. -/
theorem transactionService.entriesOf_GetTransactionsByDateRange (ts : transactionService)
    (startDate endDate : Time) :
    entriesOf (ts.GetTransactionsByDateRange startDate endDate) =
      (mapValues ts.transactions).filter
        (fun e => startDate ≤ e.Timestamp ∧ e.Timestamp ≤ endDate) := by
  have hf : ((mapValues ts.transactions).filter (fun transaction =>
        (transaction.Timestamp = startDate ∨ transaction.Timestamp > startDate) ∧
        (transaction.Timestamp = endDate ∨ transaction.Timestamp < endDate))) =
      (mapValues ts.transactions).filter
        (fun e => startDate ≤ e.Timestamp ∧ e.Timestamp ≤ endDate) := by
    apply List.filter_congr
    intro e _
    have h1 : (e.Timestamp = startDate ∨ e.Timestamp > startDate) ↔ startDate ≤ e.Timestamp := by
      constructor
      · rintro (h | h)
        · exact le_of_eq h.symm
        · exact le_of_lt h
      · intro h
        rcases lt_or_eq_of_le h with h | h
        · exact Or.inr h
        · exact Or.inl h.symm
    have h2 : (e.Timestamp = endDate ∨ e.Timestamp < endDate) ↔ e.Timestamp ≤ endDate := by
      constructor
      · rintro (h | h)
        · exact le_of_eq h
        · exact le_of_lt h
      · intro h
        rcases lt_or_eq_of_le h with h | h
        · exact Or.inr h
        · exact Or.inl h
    simp only [h1, h2]
  unfold transactionService.GetTransactionsByDateRange
  simp only
  rw [hf]
  split
  · next h => simp only [entriesOf]; exact (List.length_eq_zero.mp h).symm
  · rfl

/-- C21: for every journal and every two instants, `GetTransactionsByDateRange(start, end)`
returns, as a multiset, the entries whose timestamp `t` satisfies `start ≤ t ≤ end`, so an
entry stamped at `start` or at `end` is returned; it fails, with its not-found error, if and
only if no entry lies in that closed interval, in particular whenever `end` is before
`start`; and the multiset returned does not depend on the order of enumeration. -/
theorem C21_transactions_by_date_range (ts : transactionService) (startDate endDate : Time) :
    ((∃ err, ts.GetTransactionsByDateRange startDate endDate = .error err) ↔
      ∀ e ∈ mapValues ts.transactions, ¬ (startDate ≤ e.Timestamp ∧ e.Timestamp ≤ endDate)) ∧
    (∀ err, ts.GetTransactionsByDateRange startDate endDate = .error err →
      err = .msg "no transactions found in the specified date range") ∧
    (∀ l, ts.GetTransactionsByDateRange startDate endDate = .ok l →
      (l : Multiset Transaction) =
        Multiset.filter (fun e => startDate ≤ e.Timestamp ∧ e.Timestamp ≤ endDate)
          (mapValues ts.transactions : Multiset Transaction) ∧
      ∀ e ∈ mapValues ts.transactions,
        (e.Timestamp = startDate ∧ startDate ≤ endDate ∨
          e.Timestamp = endDate ∧ startDate ≤ endDate) → e ∈ l) ∧
    (endDate < startDate → ∃ err, ts.GetTransactionsByDateRange startDate endDate = .error err) ∧
    (∀ m', List.Perm m' ts.transactions →
      List.Perm
        (entriesOf (transactionService.GetTransactionsByDateRange { transactions := m' }
          startDate endDate))
        (entriesOf (ts.GetTransactionsByDateRange startDate endDate))) := by
  have hent := transactionService.entriesOf_GetTransactionsByDateRange ts startDate endDate
  have herr : ∀ err, ts.GetTransactionsByDateRange startDate endDate = .error err →
      err = .msg "no transactions found in the specified date range" := by
    intro err h
    unfold transactionService.GetTransactionsByDateRange at h
    simp only at h
    split at h
    · injection h with h; exact h.symm
    · simp at h
  have hiff : (∃ err, ts.GetTransactionsByDateRange startDate endDate = .error err) ↔
      ∀ e ∈ mapValues ts.transactions,
        ¬ (startDate ≤ e.Timestamp ∧ e.Timestamp ≤ endDate) := by
    constructor
    · rintro ⟨err, h⟩
      rw [h] at hent
      simp only [entriesOf] at hent
      have hnil := List.filter_eq_nil_iff.mp hent.symm
      intro e he
      simpa using hnil e he
    · intro hno
      cases hres : ts.GetTransactionsByDateRange startDate endDate with
      | error err => exact ⟨err, rfl⟩
      | ok l =>
        exfalso
        rw [hres] at hent
        simp only [entriesOf] at hent
        have hnil : l = [] := by
          rw [hent, List.filter_eq_nil_iff]
          intro e he
          simpa using hno e he
        subst hnil
        unfold transactionService.GetTransactionsByDateRange at hres
        simp only at hres
        split at hres
        · simp at hres
        · next hlen =>
          injection hres with hres
          exact hlen (by rw [hres]; rfl)
  refine ⟨hiff, herr, ?_, ?_, ?_⟩
  · intro l hl
    rw [hl] at hent
    simp only [entriesOf] at hent
    subst hent
    constructor
    · rw [Multiset.filter_coe]
    · intro e he hb
      rw [List.mem_filter]
      refine ⟨he, ?_⟩
      rcases hb with ⟨h1, h2⟩ | ⟨h1, h2⟩
      · simp [h1, h2]
      · simp [h1, h2]
  · intro hlt
    rw [hiff]
    intro e _ h
    exact absurd (lt_of_lt_of_le hlt (le_trans h.1 h.2)) (lt_irrefl _)
  · intro m' hperm
    rw [hent, transactionService.entriesOf_GetTransactionsByDateRange]
    exact (hperm.map Prod.snd).filter _

/-! ## Errors of the orchestrator -/

/-- C24: the orchestrator's `Deposit` returns an error exactly when the ledger's `Deposit`
does, and then that same error; likewise `Withdraw`; `Transfer` returns the error of the
ledger's `Withdraw` when that fails, leaving the state as it was whatever the destination is,
and otherwise returns what the ledger's `Deposit` into the destination returns: its error, or
success. -/
theorem C24_orchestrator_returns_ledger_errors (bs : BankingSystem) (k f t : String)
    (amount : Amount) (clock : Nat → Time) :
    (bs.Deposit k amount clock).2 = (bs.accounts.Deposit k amount (clock 0)).2 ∧
    (bs.Withdraw k amount clock).2 = (bs.accounts.Withdraw k amount (clock 0)).2 ∧
    (∀ err, (bs.accounts.Withdraw f amount (clock 0)).2 = some err →
      bs.Transfer f t amount clock = (bs, some err)) ∧
    ((bs.accounts.Withdraw f amount (clock 0)).2 = none →
      (bs.Transfer f t amount clock).2 =
        ((bs.accounts.Withdraw f amount (clock 0)).1.Deposit t amount (clock 1)).2) := by
  refine ⟨?_, ?_, ?_, ?_⟩
  · cases h : (bs.accounts.Deposit k amount (clock 0)).2 with
    | some err => rw [BankingSystem.Deposit_of_ledger_error h]
    | none => rw [BankingSystem.Deposit_of_ok h]
  · cases h : (bs.accounts.Withdraw k amount (clock 0)).2 with
    | some err => rw [BankingSystem.Withdraw_of_ledger_error h]
    | none => rw [BankingSystem.Withdraw_of_ok h]
  · intro err h
    exact BankingSystem.Transfer_of_withdraw_error h
  · intro hw
    cases hd : ((bs.accounts.Withdraw f amount (clock 0)).1.Deposit t amount (clock 1)).2 with
    | some err => rw [BankingSystem.Transfer_of_deposit_error hw hd]
    | none => rw [BankingSystem.Transfer_of_ok hw hd]

/-- C25: in `Transfer`, whenever the withdrawal from the source has succeeded and the deposit
into the destination has failed, the compensating deposit into the source returns no error,
whatever its clock reading; the ledger `Transfer` leaves is the one this deposit produces, and
in it the source holds `(balance - amount) + amount`, the amount added back to what the
withdrawal left. -/
theorem C25_compensating_deposit_succeeds (bs : BankingSystem) (f t : String) (amount : Amount)
    (clock : Nat → Time) (hw : (bs.accounts.Withdraw f amount (clock 0)).2 = none)
    (hd : ((bs.accounts.Withdraw f amount (clock 0)).1.Deposit t amount (clock 1)).2 ≠ none) :
    (∀ t2, ((((bs.accounts.Withdraw f amount (clock 0)).1.Deposit t amount (clock 1)).1.Deposit
      f amount t2).2 = none)) ∧
    (bs.Transfer f t amount clock).1.accounts =
      (((bs.accounts.Withdraw f amount (clock 0)).1.Deposit t amount (clock 1)).1.Deposit
        f amount (clock 1)).1 ∧
    (∃ a, mapGet bs.accounts.accounts f = some a ∧
      (bs.Transfer f t amount clock).1.balanceOf f = some (a.Balance - amount + amount)) := by
  refine ⟨?_, ?_, ?_⟩
  · intro t2
    obtain ⟨a, _, h⟩ := accountService.rollback_Deposit t (clock 1) t2 hw hd
    rw [h]
  · cases hd' : ((bs.accounts.Withdraw f amount (clock 0)).1.Deposit t amount (clock 1)).2 with
    | none => exact absurd hd' hd
    | some err => rw [BankingSystem.Transfer_of_deposit_error hw hd']
  · cases hd' : ((bs.accounts.Withdraw f amount (clock 0)).1.Deposit t amount (clock 1)).2 with
    | none => exact absurd hd' hd
    | some err =>
      obtain ⟨a, hg, h⟩ := accountService.rollback_Deposit t (clock 1) (clock 1) hw hd
      refine ⟨a, hg, ?_⟩
      rw [BankingSystem.Transfer_of_deposit_error hw hd', h]
      simp only [BankingSystem.balanceOf, mapGet_mapPut_same, Option.map_some']

/-- C25 at a transfer of 400 from the funded account `A1` to the closed account `A2`. -/
theorem C25_compensating_deposit_succeeds_witness :
    (∀ t2, ((((exampleClosed.accounts.Withdraw "A1" 400 (exampleClock 50 0)).1.Deposit "A2" 400
      (exampleClock 50 1)).1.Deposit "A1" 400 t2).2 = none)) ∧
    (exampleClosed.Transfer "A1" "A2" 400 (exampleClock 50)).1.accounts =
      (((exampleClosed.accounts.Withdraw "A1" 400 (exampleClock 50 0)).1.Deposit "A2" 400
        (exampleClock 50 1)).1.Deposit "A1" 400 (exampleClock 50 1)).1 ∧
    (∃ a, mapGet exampleClosed.accounts.accounts "A1" = some a ∧
      (exampleClosed.Transfer "A1" "A2" 400 (exampleClock 50)).1.balanceOf "A1" =
        some (a.Balance - 400 + 400)) :=
  C25_compensating_deposit_succeeds exampleClosed "A1" "A2" 400 (exampleClock 50)
    (by with_unfolding_all rfl) (by with_unfolding_all decide)

/-! ## Failing ledger calls and the two reads -/

/-- A failing `CloseAccount` leaves the ledger as it was. -/
theorem accountService.CloseAccount_of_error {ac : accountService} {k : String} {now : Time}
    (h : (ac.CloseAccount k now).2 ≠ none) : (ac.CloseAccount k now).1 = ac := by
  unfold accountService.CloseAccount at h ⊢
  cases hg : mapGet ac.accounts k with
  | none => rfl
  | some a =>
    by_cases hb : a.Balance = 0
    · simp [hg, hb] at h
    · simp [hb]

/-- C27: every failing call of the ledger's `Create`, `Deposit`, `Withdraw` and `CloseAccount`
leaves the whole ledger as it was before the call; `GetBalance` and `GetAccountDetails`, which
only read the ledger, fail, with `ErrAccountNotFound`, if and only if the account number is
absent, and `GetBalance` returns the `Balance` of the account that `GetAccountDetails`
returns. -/
theorem C27_failing_ledger_calls_change_nothing (ac : accountService) (account : Account)
    (k : String) (amount : Amount) (t1 t2 : Time) :
    (∀ err, (ac.Create account t1 t2).2 = .error err → (ac.Create account t1 t2).1 = ac) ∧
    ((ac.Deposit k amount t1).2 ≠ none → (ac.Deposit k amount t1).1 = ac) ∧
    ((ac.Withdraw k amount t1).2 ≠ none → (ac.Withdraw k amount t1).1 = ac) ∧
    ((ac.CloseAccount k t1).2 ≠ none → (ac.CloseAccount k t1).1 = ac) ∧
    ((∃ err, ac.GetBalance k = .error err) ↔ mapGet ac.accounts k = none) ∧
    (∀ err, ac.GetBalance k = .error err → err = .ErrAccountNotFound) ∧
    ((∃ err, ac.GetAccountDetails k = .error err) ↔ mapGet ac.accounts k = none) ∧
    (∀ err, ac.GetAccountDetails k = .error err → err = .ErrAccountNotFound) ∧
    (∀ a, ac.GetAccountDetails k = .ok a →
      mapGet ac.accounts k = some a ∧ ac.GetBalance k = .ok a.Balance) ∧
    (∀ b, ac.GetBalance k = .ok b → ∃ a, ac.GetAccountDetails k = .ok a ∧ a.Balance = b) := by
  refine ⟨fun err h => accountService.Create_of_error h,
    accountService.Deposit_of_error, accountService.Withdraw_of_error,
    accountService.CloseAccount_of_error, ?_, ?_, ?_, ?_, ?_, ?_⟩ <;>
  · simp only [accountService.GetBalance, accountService.GetAccountDetails]
    cases hg : mapGet ac.accounts k <;> simp

/-! ## The summary and the order of enumeration -/

/-- Two summaries with the same eight fields are equal. -/
theorem TransactionSummary.eq_of_fields {S T : TransactionSummary}
    (h0 : S.AccountNumber = T.AccountNumber) (h1 : S.TotalDeposits = T.TotalDeposits)
    (h2 : S.TotalWithdrawals = T.TotalWithdrawals)
    (h3 : S.TotalTransfersOut = T.TotalTransfersOut)
    (h4 : S.TotalTransfersIn = T.TotalTransfersIn) (h5 : S.TotalFees = T.TotalFees)
    (h6 : S.TransactionCount = T.TransactionCount)
    (h7 : S.LastTransaction = T.LastTransaction) : S = T := by
  cases S
  cases T
  simp_all

/-- Two iterations of the summary loop give the same summary in either order. -/
theorem summaryStep_comm (k : String) (S : TransactionSummary) (a b : Transaction) :
    summaryStep k (summaryStep k S a) b = summaryStep k (summaryStep k S b) a := by
  obtain ⟨a0, a1, a2, a3, a4, a5, a6, a7⟩ := summaryStep_fields k S a
  obtain ⟨b0, b1, b2, b3, b4, b5, b6, b7⟩ := summaryStep_fields k S b
  obtain ⟨ab0, ab1, ab2, ab3, ab4, ab5, ab6, ab7⟩ := summaryStep_fields k (summaryStep k S a) b
  obtain ⟨ba0, ba1, ba2, ba3, ba4, ba5, ba6, ba7⟩ := summaryStep_fields k (summaryStep k S b) a
  apply TransactionSummary.eq_of_fields
  · rw [ab0, a0, ba0, b0]
  · rw [ab1, a1, ba1, b1]; ring
  · rw [ab2, a2, ba2, b2]; ring
  · rw [ab3, a3, ba3, b3]; ring
  · rw [ab4, a4, ba4, b4]; ring
  · rw [ab5, a5, ba5, b5]; ring
  · rw [ab6, a6, ba6, b6]; ring
  · rw [ab7, a7, ba7, b7]
    by_cases ha : a.Status = Completed
    · by_cases hb : b.Status = Completed
      · simp only [ha, hb, true_and]
        split_ifs <;> first | rfl | linarith
      · simp only [ha, hb, true_and, false_and, if_false]
    · simp only [ha, false_and, if_false]

/-- The summary loop gives the same summary over two lists of entries that are permutations
of each other. -/
theorem foldl_summaryStep_perm (k : String) {l l' : List Transaction} (h : List.Perm l' l)
    (S : TransactionSummary) : l'.foldl (summaryStep k) S = l.foldl (summaryStep k) S :=
  h.foldl_eq' (fun x _ y _ z => summaryStep_comm k z x y) S

/-- With amounts as exact numbers: for every two enumerations of the same journal entries
that are permutations of each other and every account, `GetTransactionSummary` computes the
same summary: the five totals, the transaction count and the last-transaction timestamp are
equal.  With `float64` amounts the totals depend on the order, see `Binary64`. -/
theorem exact_summary_order_independent (m m' : List (String × Transaction)) (k : String)
    (h : List.Perm m' m) :
    transactionService.GetTransactionSummary { transactions := m' } k =
      transactionService.GetTransactionSummary { transactions := m } k := by
  rw [transactionService.GetTransactionSummary_eq_foldl,
    transactionService.GetTransactionSummary_eq_foldl,
    transactionService.entriesOf_GetTransactionsByAccount,
    transactionService.entriesOf_GetTransactionsByAccount]
  exact foldl_summaryStep_perm k ((h.map Prod.snd).filter _) _

/-- The law of the order of enumeration at the journal of `exampleTransfersEnd` and the same
journal enumerated backwards, for account `A1`. -/
theorem exact_summary_order_independent_witness :
    List.Perm exampleTransfersEnd.transactions.transactions.reverse
      exampleTransfersEnd.transactions.transactions ∧
    exampleTransfersEnd.transactions.transactions.reverse ≠
      exampleTransfersEnd.transactions.transactions ∧
    transactionService.GetTransactionSummary
        { transactions := exampleTransfersEnd.transactions.transactions.reverse } "A1" =
      transactionService.GetTransactionSummary
        { transactions := exampleTransfersEnd.transactions.transactions } "A1" :=
  ⟨List.reverse_perm _, by with_unfolding_all decide,
    exact_summary_order_independent _ _ "A1" (List.reverse_perm _)⟩

/-! ## The journal and the ledger's effects -/

/-- A state reached by calls of the orchestrator is a reachable state. -/
theorem OrchestratorReachable.reachable {bs : BankingSystem} (h : OrchestratorReachable bs) :
    Reachable bs := by
  induction h with
  | init => exact Reachable.init
  | step c clock _ _ ih => exact Reachable.step c clock ih

theorem exampleUser_orchestratorReachable : OrchestratorReachable exampleUser :=
  OrchestratorReachable.step _ _ rfl OrchestratorReachable.init

theorem exampleOwnedA1_orchestratorReachable : OrchestratorReachable exampleOwnedA1 :=
  OrchestratorReachable.step _ _ rfl exampleUser_orchestratorReachable

theorem exampleOwnedA1A2_orchestratorReachable : OrchestratorReachable exampleOwnedA1A2 :=
  OrchestratorReachable.step _ _ rfl exampleOwnedA1_orchestratorReachable

theorem exampleOwnedEnd_orchestratorReachable : OrchestratorReachable exampleOwnedEnd :=
  OrchestratorReachable.step _ _ rfl (OrchestratorReachable.step _ _ rfl
    (OrchestratorReachable.step _ _ rfl exampleOwnedA1A2_orchestratorReachable))

theorem exampleOwnedTick_orchestratorReachable : OrchestratorReachable exampleOwnedTick :=
  OrchestratorReachable.step _ _ rfl exampleOwnedA1A2_orchestratorReachable

/-- C22 at a clock reading that repeats.  In `exampleOwnedTick`, reached by the
orchestrator's calls alone, `A1` holds the 1000 of a successful deposit and the journal holds
its one `DEPOSIT` entry.  A second deposit, of 500, made while the clock still reads 30
returns success and brings the balance to 1500, and the journal still holds one entry: the
call has added none, and the entry of the first deposit, whose effect is in the balance, is
gone. -/
theorem C22_same_tick_deposit_adds_no_entry :
    OrchestratorReachable exampleOwnedTick ∧
    exampleOwnedTick.balanceOf "A1" = some 1000 ∧
    (mapValues exampleOwnedTick.transactions.transactions).map
      (fun e => (e.ID, e.Type_, e.ToAccount, e.Amount)) = [("TXN30", "DEPOSIT", "A1", 1000)] ∧
    (exampleOwnedTick.Deposit "A1" 500 (tickClock 30)).2 = none ∧
    (exampleOwnedTick.Deposit "A1" 500 (tickClock 30)).1.balanceOf "A1" = some 1500 ∧
    (mapValues (exampleOwnedTick.Deposit "A1" 500 (tickClock 30)).1.transactions.transactions).map
      (fun e => (e.ID, e.Type_, e.ToAccount, e.Amount)) = [("TXN30", "DEPOSIT", "A1", 500)] :=
  ⟨exampleOwnedTick_orchestratorReachable, by with_unfolding_all rfl, by with_unfolding_all rfl,
    by with_unfolding_all rfl, by with_unfolding_all rfl, by with_unfolding_all rfl⟩

/-- What the orchestrator's `Deposit`, `Withdraw` and `Transfer` do to the journal, in every
state.  A call that returns an error adds no entry: `Deposit` and `Withdraw` leave the whole
state as it was, `Transfer` leaves the journal as it was.  A call that returns success has made a journal write that did not fail (the
warning branch is not taken), and the journal is the old one with the one new entry, of the
call's type, accounts and amount, put under the id made from the clock reading; so when that
id is not yet a key of the journal, the journal is the old one with exactly this entry
added. -/
theorem journal_follows_ledger (bs : BankingSystem) (k f t : String) (amount : Amount)
    (clock : Nat → Time) :
    ((bs.Deposit k amount clock).2 ≠ none → (bs.Deposit k amount clock).1 = bs) ∧
    ((bs.Withdraw k amount clock).2 ≠ none → (bs.Withdraw k amount clock).1 = bs) ∧
    ((bs.Transfer f t amount clock).2 ≠ none →
      (bs.Transfer f t amount clock).1.transactions = bs.transactions) ∧
    ((bs.Deposit k amount clock).2 = none →
      ∃ e, e.Type_ = Bank.Deposit ∧ e.FromAccount = "" ∧ e.ToAccount = k ∧ e.Amount = amount ∧
        (bs.transactions.CreateTransaction (bs.accounts.Deposit k amount (clock 0)).1
          Bank.Deposit "" k amount "Cash deposit" (clock 1) (clock 2) (clock 3)).2 = .ok e ∧
        (bs.Deposit k amount clock).1.transactions.transactions =
          mapPut bs.transactions.transactions (generateTransactionID (clock 1)) e ∧
        (mapGet bs.transactions.transactions (generateTransactionID (clock 1)) = none →
          (bs.Deposit k amount clock).1.transactions.transactions =
            bs.transactions.transactions ++ [(generateTransactionID (clock 1), e)])) ∧
    ((bs.Withdraw k amount clock).2 = none →
      ∃ e, e.Type_ = Bank.Withdrawal ∧ e.FromAccount = k ∧ e.ToAccount = "" ∧
        e.Amount = amount ∧
        (bs.transactions.CreateTransaction (bs.accounts.Withdraw k amount (clock 0)).1
          Bank.Withdrawal k "" amount "Cash withdrawal" (clock 1) (clock 2) (clock 3)).2 = .ok e ∧
        (bs.Withdraw k amount clock).1.transactions.transactions =
          mapPut bs.transactions.transactions (generateTransactionID (clock 1)) e ∧
        (mapGet bs.transactions.transactions (generateTransactionID (clock 1)) = none →
          (bs.Withdraw k amount clock).1.transactions.transactions =
            bs.transactions.transactions ++ [(generateTransactionID (clock 1), e)])) ∧
    ((bs.Transfer f t amount clock).2 = none →
      ∃ e, e.Type_ = Bank.Transfer ∧ e.FromAccount = f ∧ e.ToAccount = t ∧ e.Amount = amount ∧
        (bs.transactions.CreateTransaction
          ((bs.accounts.Withdraw f amount (clock 0)).1.Deposit t amount (clock 1)).1
          Bank.Transfer f t amount "Fund transfer" (clock 2) (clock 3) (clock 4)).2 = .ok e ∧
        (bs.Transfer f t amount clock).1.transactions.transactions =
          mapPut bs.transactions.transactions (generateTransactionID (clock 2)) e ∧
        (mapGet bs.transactions.transactions (generateTransactionID (clock 2)) = none →
          (bs.Transfer f t amount clock).1.transactions.transactions =
            bs.transactions.transactions ++ [(generateTransactionID (clock 2), e)])) := by
  refine ⟨?_, ?_, ?_, ?_, ?_, ?_⟩
  · intro h
    cases hl : (bs.accounts.Deposit k amount (clock 0)).2 with
    | some err => rw [BankingSystem.Deposit_of_ledger_error hl]
    | none => rw [BankingSystem.Deposit_of_ok hl] at h; exact absurd rfl h
  · intro h
    cases hl : (bs.accounts.Withdraw k amount (clock 0)).2 with
    | some err => rw [BankingSystem.Withdraw_of_ledger_error hl]
    | none => rw [BankingSystem.Withdraw_of_ok hl] at h; exact absurd rfl h
  · intro h
    cases hw : (bs.accounts.Withdraw f amount (clock 0)).2 with
    | some err => rw [BankingSystem.Transfer_of_withdraw_error hw]
    | none =>
      cases hd : ((bs.accounts.Withdraw f amount (clock 0)).1.Deposit t amount (clock 1)).2 with
      | none => rw [BankingSystem.Transfer_of_ok hw hd] at h; exact absurd rfl h
      | some err => rw [BankingSystem.Transfer_of_deposit_error hw hd]
  · intro h
    cases hl : (bs.accounts.Deposit k amount (clock 0)).2 with
    | some err => rw [BankingSystem.Deposit_of_ledger_error hl] at h; simp at h
    | none =>
      obtain ⟨_, _, h0, _, _⟩ := accountService.Deposit_eq_none hl
      refine ⟨newTransaction (bs.accounts.Deposit k amount (clock 0)).1 Bank.Deposit "" k
        amount "Cash deposit" (clock 1) (clock 2) (clock 3), rfl, rfl, rfl, rfl, ?_, ?_, ?_⟩
      · rw [transactionService.CreateTransaction_of_pos _ _ _ _ _ _ _ _ _ h0]
      · rw [BankingSystem.Deposit_of_ok hl]
      · intro hnew
        rw [BankingSystem.Deposit_of_ok hl]
        exact mapPut_of_mapGet_none _ hnew
  · intro h
    cases hl : (bs.accounts.Withdraw k amount (clock 0)).2 with
    | some err => rw [BankingSystem.Withdraw_of_ledger_error hl] at h; simp at h
    | none =>
      obtain ⟨_, _, h0, _, _⟩ := accountService.Withdraw_eq_none hl
      refine ⟨newTransaction (bs.accounts.Withdraw k amount (clock 0)).1 Bank.Withdrawal k ""
        amount "Cash withdrawal" (clock 1) (clock 2) (clock 3), rfl, rfl, rfl, rfl, ?_, ?_, ?_⟩
      · rw [transactionService.CreateTransaction_of_pos _ _ _ _ _ _ _ _ _ h0]
      · rw [BankingSystem.Withdraw_of_ok hl]
      · intro hnew
        rw [BankingSystem.Withdraw_of_ok hl]
        exact mapPut_of_mapGet_none _ hnew
  · intro h
    cases hw : (bs.accounts.Withdraw f amount (clock 0)).2 with
    | some err => rw [BankingSystem.Transfer_of_withdraw_error hw] at h; simp at h
    | none =>
      cases hd : ((bs.accounts.Withdraw f amount (clock 0)).1.Deposit t amount (clock 1)).2 with
      | some err => rw [BankingSystem.Transfer_of_deposit_error hw hd] at h; simp at h
      | none =>
        obtain ⟨_, _, h0, _, _⟩ := accountService.Withdraw_eq_none hw
        refine ⟨newTransaction
          ((bs.accounts.Withdraw f amount (clock 0)).1.Deposit t amount (clock 1)).1
          Bank.Transfer f t amount "Fund transfer" (clock 2) (clock 3) (clock 4),
          rfl, rfl, rfl, rfl, ?_, ?_, ?_⟩
        · rw [transactionService.CreateTransaction_of_pos _ _ _ _ _ _ _ _ _ h0]
        · rw [BankingSystem.Transfer_of_ok_entry hw hd]
        · intro hnew
          rw [BankingSystem.Transfer_of_ok_entry hw hd]
          exact mapPut_of_mapGet_none _ hnew

/-- An entry of the journal after a call was in the journal before the call, or has an amount
above zero and is a `DEPOSIT` without source into an account of the ledger, a `WITHDRAWAL`
without destination from an account of the ledger, or a `TRANSFER` between accounts of the
ledger. -/
theorem BankingSystem.journal_call_shape (bs : BankingSystem) (c : Call) (clock : Nat → Time)
    (p : String × Transaction) (hp : p ∈ (bs.call c clock).1.transactions.transactions) :
    p ∈ bs.transactions.transactions ∨
    (0 < p.2.Amount ∧
      ((p.2.Type_ = Bank.Deposit ∧ p.2.FromAccount = "" ∧
          (mapGet (bs.call c clock).1.accounts.accounts p.2.ToAccount).isSome) ∨
        (p.2.Type_ = Bank.Withdrawal ∧
          (mapGet (bs.call c clock).1.accounts.accounts p.2.FromAccount).isSome ∧
          p.2.ToAccount = "") ∨
        (p.2.Type_ = Bank.Transfer ∧
          (mapGet (bs.call c clock).1.accounts.accounts p.2.FromAccount).isSome ∧
          (mapGet (bs.call c clock).1.accounts.accounts p.2.ToAccount).isSome))) := by
  cases c with
  | ledgerCreate account => exact Or.inl hp
  | ledgerDeposit k amount => exact Or.inl hp
  | ledgerWithdraw k amount => exact Or.inl hp
  | ledgerCloseAccount k => exact Or.inl hp
  | createUser a b c d e f g i =>
    left
    have h := BankingSystem.CreateUser_transactions bs a b c d e f g i
    change p ∈ (bs.CreateUser a b c d e f g i).1.transactions.transactions at hp
    rwa [h] at hp
  | createAccount n hn t u =>
    left
    have h := BankingSystem.CreateAccount_transactions bs n hn t u clock
    change p ∈ (bs.CreateAccount n hn t u clock).1.transactions.transactions at hp
    rwa [h] at hp
  | closeAccount k => exact Or.inl hp
  | deposit k amount =>
    change p ∈ (bs.Deposit k amount clock).1.transactions.transactions at hp
    show _ ∨ (_ ∧ ((_ ∧ _ ∧ (mapGet (bs.Deposit k amount clock).1.accounts.accounts _).isSome) ∨
      (_ ∧ (mapGet (bs.Deposit k amount clock).1.accounts.accounts _).isSome ∧ _) ∨
      (_ ∧ (mapGet (bs.Deposit k amount clock).1.accounts.accounts _).isSome ∧
        (mapGet (bs.Deposit k amount clock).1.accounts.accounts _).isSome)))
    cases h : (bs.accounts.Deposit k amount (clock 0)).2 with
    | some err =>
      rw [BankingSystem.Deposit_of_ledger_error h] at hp
      exact Or.inl hp
    | none =>
      rw [BankingSystem.Deposit_of_ok h] at hp ⊢
      rcases mem_mapPut hp with hp' | hp'
      · right
        subst hp'
        obtain ⟨a, _, h0, _, heq⟩ := accountService.Deposit_eq_none h
        refine ⟨h0, Or.inl ⟨rfl, rfl, ?_⟩⟩
        simp only [newTransaction, heq, mapGet_mapPut_same, Option.isSome_some]
      · exact Or.inl hp'
  | withdraw k amount =>
    change p ∈ (bs.Withdraw k amount clock).1.transactions.transactions at hp
    show _ ∨ (_ ∧ ((_ ∧ _ ∧ (mapGet (bs.Withdraw k amount clock).1.accounts.accounts _).isSome) ∨
      (_ ∧ (mapGet (bs.Withdraw k amount clock).1.accounts.accounts _).isSome ∧ _) ∨
      (_ ∧ (mapGet (bs.Withdraw k amount clock).1.accounts.accounts _).isSome ∧
        (mapGet (bs.Withdraw k amount clock).1.accounts.accounts _).isSome)))
    cases h : (bs.accounts.Withdraw k amount (clock 0)).2 with
    | some err =>
      rw [BankingSystem.Withdraw_of_ledger_error h] at hp
      exact Or.inl hp
    | none =>
      rw [BankingSystem.Withdraw_of_ok h] at hp ⊢
      rcases mem_mapPut hp with hp' | hp'
      · right
        subst hp'
        obtain ⟨a, _, h0, _, _, heq⟩ := accountService.Withdraw_eq_none h
        refine ⟨h0, Or.inr (Or.inl ⟨rfl, ?_, rfl⟩)⟩
        simp only [newTransaction, heq, mapGet_mapPut_same, Option.isSome_some]
      · exact Or.inl hp'
  | transfer f t amount =>
    change p ∈ (bs.Transfer f t amount clock).1.transactions.transactions at hp
    show _ ∨ (_ ∧ ((_ ∧ _ ∧ (mapGet (bs.Transfer f t amount clock).1.accounts.accounts _).isSome) ∨
      (_ ∧ (mapGet (bs.Transfer f t amount clock).1.accounts.accounts _).isSome ∧ _) ∨
      (_ ∧ (mapGet (bs.Transfer f t amount clock).1.accounts.accounts _).isSome ∧
        (mapGet (bs.Transfer f t amount clock).1.accounts.accounts _).isSome)))
    cases hw : (bs.accounts.Withdraw f amount (clock 0)).2 with
    | some err =>
      rw [BankingSystem.Transfer_of_withdraw_error hw] at hp
      exact Or.inl hp
    | none =>
      cases hd : ((bs.accounts.Withdraw f amount (clock 0)).1.Deposit t amount (clock 1)).2 with
      | some err =>
        rw [BankingSystem.Transfer_of_deposit_error hw hd] at hp
        exact Or.inl hp
      | none =>
        rw [BankingSystem.Transfer_of_ok_entry hw hd] at hp ⊢
        rcases mem_mapPut hp with hp' | hp'
        · right
          subst hp'
          obtain ⟨a, _, h0, _, _, heqw⟩ := accountService.Withdraw_eq_none hw
          obtain ⟨b, _, _, _, heqd⟩ := accountService.Deposit_eq_none hd
          refine ⟨h0, Or.inr (Or.inr ⟨rfl, ?_, ?_⟩)⟩
          · apply (accountService.Extends_Deposit _ t amount (clock 1)).1
            simp only [newTransaction, heqw, mapGet_mapPut_same, Option.isSome_some]
          · simp only [newTransaction, heqd, mapGet_mapPut_same, Option.isSome_some]
        · exact Or.inl hp'

/-- In a reachable state every journal entry is well shaped. -/
theorem Reachable.wellShaped {bs : BankingSystem} (h : Reachable bs) :
    ∀ p ∈ bs.transactions.transactions, p.2.WellShaped := by
  induction h with
  | init => intro p hp; simp [NewBankingSystem, NewTransactionService] at hp
  | @step bs c clock hr ih =>
    intro p hp
    have hnone := (Reachable.journalInLedger (Reachable.step c clock hr)).1
    have hne : ∀ x : String, (mapGet (bs.call c clock).1.accounts.accounts x).isSome → x ≠ "" := by
      intro x hx hxe
      rw [hxe, hnone] at hx
      simp at hx
    rcases BankingSystem.journal_call_shape bs c clock p hp with hp' | ⟨h0, hs⟩
    · exact ih p hp'
    · refine ⟨h0, ?_⟩
      rcases hs with ⟨h1, h2, h3⟩ | ⟨h1, h2, h3⟩ | ⟨h1, h2, h3⟩
      · exact Or.inl ⟨h1, h2, hne _ h3⟩
      · exact Or.inr (Or.inl ⟨h1, hne _ h2, h3⟩)
      · exact Or.inr (Or.inr ⟨h1, hne _ h2, hne _ h3⟩)

/-- The source and the destination of the journal's entries: in every reachable state, so in
every state reached from an empty system through the orchestrator's `CreateAccount`,
`Deposit`, `Withdraw` and `Transfer`, every `DEPOSIT` entry has an empty source and a
non-empty destination, every `WITHDRAWAL` entry a non-empty source and an empty destination,
and every `TRANSFER` entry a non-empty source and a non-empty destination; and every entry is
of one of these three types. -/
theorem journal_entry_endpoints (bs : BankingSystem) (h : Reachable bs) :
    ∀ p ∈ bs.transactions.transactions,
      (p.2.Type_ = Bank.Deposit → p.2.FromAccount = "" ∧ p.2.ToAccount ≠ "") ∧
      (p.2.Type_ = Bank.Withdrawal → p.2.FromAccount ≠ "" ∧ p.2.ToAccount = "") ∧
      (p.2.Type_ = Bank.Transfer → p.2.FromAccount ≠ "" ∧ p.2.ToAccount ≠ "") ∧
      (p.2.Type_ = Bank.Deposit ∨ p.2.Type_ = Bank.Withdrawal ∨ p.2.Type_ = Bank.Transfer) := by
  intro p hp
  obtain ⟨_, hs⟩ := Reachable.wellShaped h p hp
  have hdw : Bank.Deposit ≠ Bank.Withdrawal := by decide
  have hdt : Bank.Deposit ≠ Bank.Transfer := by decide
  have hwt : Bank.Withdrawal ≠ Bank.Transfer := by decide
  refine ⟨?_, ?_, ?_, ?_⟩
  · intro ht
    rcases hs with ⟨_, h2, h3⟩ | ⟨h1, _, _⟩ | ⟨h1, _, _⟩
    · exact ⟨h2, h3⟩
    · exact absurd (ht.symm.trans h1) hdw
    · exact absurd (ht.symm.trans h1) hdt
  · intro ht
    rcases hs with ⟨h1, _, _⟩ | ⟨_, h2, h3⟩ | ⟨h1, _, _⟩
    · exact absurd (h1.symm.trans ht) hdw
    · exact ⟨h2, h3⟩
    · exact absurd (ht.symm.trans h1) hwt
  · intro ht
    rcases hs with ⟨h1, _, _⟩ | ⟨h1, _, _⟩ | ⟨_, h2, h3⟩
    · exact absurd (h1.symm.trans ht) hdt
    · exact absurd (h1.symm.trans ht) hwt
    · exact ⟨h2, h3⟩
  · rcases hs with ⟨h1, _, _⟩ | ⟨h1, _, _⟩ | ⟨h1, _, _⟩
    · exact Or.inl h1
    · exact Or.inr (Or.inl h1)
    · exact Or.inr (Or.inr h1)

/-- The law of the sources and destinations at `exampleOwnedEnd`, reached through the
orchestrator alone: its journal holds a `DEPOSIT`, a `TRANSFER` and a `WITHDRAWAL`. -/
theorem journal_entry_endpoints_witness :
    Reachable exampleOwnedEnd ∧
    (mapValues exampleOwnedEnd.transactions.transactions).map (fun e => e.Type_) =
      ["DEPOSIT", "TRANSFER", "WITHDRAWAL"] ∧
    ∀ p ∈ exampleOwnedEnd.transactions.transactions,
      (p.2.Type_ = Bank.Deposit → p.2.FromAccount = "" ∧ p.2.ToAccount ≠ "") ∧
      (p.2.Type_ = Bank.Withdrawal → p.2.FromAccount ≠ "" ∧ p.2.ToAccount = "") ∧
      (p.2.Type_ = Bank.Transfer → p.2.FromAccount ≠ "" ∧ p.2.ToAccount ≠ "") ∧
      (p.2.Type_ = Bank.Deposit ∨ p.2.Type_ = Bank.Withdrawal ∨ p.2.Type_ = Bank.Transfer) :=
  ⟨exampleOwnedEnd_orchestratorReachable.reachable, by with_unfolding_all rfl,
    journal_entry_endpoints exampleOwnedEnd exampleOwnedEnd_orchestratorReachable.reachable⟩

/-! ## `CreateAccount` and the directory -/

/-- A successful `AddAccountToUser`, read backwards. -/
theorem userService.AddAccountToUser_eq_none {us : userService} {u : Int} {n : String}
    (h : (us.AddAccountToUser u n).2 = none) :
    ∃ usr, mapGet us.users u = some usr ∧ n ∉ usr.Accounts ∧
      (us.AddAccountToUser u n).1 =
        { us with users := mapPut us.users u { usr with Accounts := usr.Accounts ++ [n] } } := by
  unfold userService.AddAccountToUser at h ⊢
  cases hg : mapGet us.users u with
  | none => simp [hg] at h
  | some usr =>
    by_cases hm : n ∈ usr.Accounts
    · simp [hg, hm] at h
    · exact ⟨usr, rfl, hm, by simp [hm]⟩

/-- A failing `AddAccountToUser` leaves the directory as it was. -/
theorem userService.AddAccountToUser_of_error {us : userService} {u : Int} {n : String}
    (h : (us.AddAccountToUser u n).2 ≠ none) : (us.AddAccountToUser u n).1 = us := by
  unfold userService.AddAccountToUser at h ⊢
  cases hg : mapGet us.users u with
  | none => rfl
  | some usr =>
    by_cases hm : n ∈ usr.Accounts
    · simp [hm]
    · simp [hg, hm] at h

/-- `AddAccountToUser` for a user who does not have the account number in the list. -/
theorem userService.AddAccountToUser_of_not_mem {us : userService} {u : Int} {n : String}
    {usr : User} (hg : mapGet us.users u = some usr) (hm : n ∉ usr.Accounts) :
    us.AddAccountToUser u n =
      ({ us with users := mapPut us.users u { usr with Accounts := usr.Accounts ++ [n] } },
        none) := by
  unfold userService.AddAccountToUser
  simp [hg, hm]

/-- `CreateAccount` when no user has the id. -/
theorem BankingSystem.CreateAccount_of_no_user {bs : BankingSystem} {u : Int}
    (n h t : String) (clock : Nat → Time) (hu : mapGet bs.users.users u = none) :
    bs.CreateAccount n h t u clock = (bs, some (.msg "user not found")) := by
  unfold BankingSystem.CreateAccount
  simp [userService.Get, hu]

/-- `CreateAccount` when the user exists and the ledger's `Create` fails. -/
theorem BankingSystem.CreateAccount_of_create_error {bs : BankingSystem} {n h t : String}
    {u : Int} {clock : Nat → Time} {usr : User} {err : BankError}
    (hu : mapGet bs.users.users u = some usr)
    (hc : (bs.accounts.Create
      { AccountNumber := n, HolderName := h, Balance := 0, AccountType := t, Status := "",
        CreatedAt := Time.zero, UpdatedAt := Time.zero } (clock 0) (clock 1)).2 = .error err) :
    bs.CreateAccount n h t u clock = (bs, some err) := by
  have hst := accountService.Create_of_error hc
  unfold BankingSystem.CreateAccount
  simp only [userService.Get, hu]
  rcases hc' : bs.accounts.Create
      { AccountNumber := n, HolderName := h, Balance := 0, AccountType := t, Status := "",
        CreatedAt := Time.zero, UpdatedAt := Time.zero } (clock 0) (clock 1) with ⟨acc, r⟩
  rw [hc'] at hc hst
  simp only at hc hst
  subst hc hst
  rfl

/-- `CreateAccount` when the user exists and the ledger's `Create` succeeds: the ledger is the
one `Create` leaves, the directory and the result are those of `AddAccountToUser`. -/
theorem BankingSystem.CreateAccount_of_create_ok {bs : BankingSystem} {n h t : String}
    {u : Int} {clock : Nat → Time} {usr : User} {created : Account}
    (hu : mapGet bs.users.users u = some usr)
    (hc : (bs.accounts.Create
      { AccountNumber := n, HolderName := h, Balance := 0, AccountType := t, Status := "",
        CreatedAt := Time.zero, UpdatedAt := Time.zero } (clock 0) (clock 1)).2 = .ok created) :
    bs.CreateAccount n h t u clock =
      ({ bs with
          accounts := (bs.accounts.Create
            { AccountNumber := n, HolderName := h, Balance := 0, AccountType := t, Status := "",
              CreatedAt := Time.zero, UpdatedAt := Time.zero } (clock 0) (clock 1)).1
          users := (bs.users.AddAccountToUser u n).1 },
        (bs.users.AddAccountToUser u n).2) := by
  unfold BankingSystem.CreateAccount
  simp only [userService.Get, hu]
  rcases hc' : bs.accounts.Create
      { AccountNumber := n, HolderName := h, Balance := 0, AccountType := t, Status := "",
        CreatedAt := Time.zero, UpdatedAt := Time.zero } (clock 0) (clock 1) with ⟨acc, r⟩
  rw [hc'] at hc
  simp only at hc
  subst hc
  simp only
  rcases hl : bs.users.AddAccountToUser u n with ⟨us, e⟩
  cases e <;> rfl

/-- C26: `CreateAccount(accountNumber, holder, type, userID)` fails with the error
`user not found` when no user has the id `userID`, and then leaves the whole state, ledger and
directory, as it was; when the user exists and the ledger's `Create` fails it returns the
ledger's error and leaves the whole state as it was; when it succeeds the user existed, the
ledger holds under `accountNumber` the new account with balance 0 and status `Active`, and
the user's list of linked accounts is the old list with `accountNumber` added at the end. -/
theorem C26_create_account_contract (bs : BankingSystem) (n h t : String) (u : Int)
    (clock : Nat → Time) :
    (mapGet bs.users.users u = none →
      bs.CreateAccount n h t u clock = (bs, some (.msg "user not found"))) ∧
    (∀ usr err, mapGet bs.users.users u = some usr →
      (bs.accounts.Create
        { AccountNumber := n, HolderName := h, Balance := 0, AccountType := t, Status := "",
          CreatedAt := Time.zero, UpdatedAt := Time.zero } (clock 0) (clock 1)).2 = .error err →
      bs.CreateAccount n h t u clock = (bs, some err)) ∧
    ((bs.CreateAccount n h t u clock).2 = none →
      ∃ usr, mapGet bs.users.users u = some usr ∧
        mapGet bs.accounts.accounts n = none ∧
        mapGet (bs.CreateAccount n h t u clock).1.accounts.accounts n =
          some { AccountNumber := n, HolderName := h, Balance := 0, AccountType := t,
                 Status := "Active", CreatedAt := clock 0, UpdatedAt := clock 1 } ∧
        mapGet (bs.CreateAccount n h t u clock).1.users.users u =
          some { usr with Accounts := usr.Accounts ++ [n] } ∧
        n ∈ usr.Accounts ++ [n]) := by
  refine ⟨BankingSystem.CreateAccount_of_no_user n h t clock,
    fun usr err hu hc => BankingSystem.CreateAccount_of_create_error hu hc, ?_⟩
  intro hok
  cases hu : mapGet bs.users.users u with
  | none =>
    rw [BankingSystem.CreateAccount_of_no_user n h t clock hu] at hok
    simp at hok
  | some usr =>
    cases hc : (bs.accounts.Create
        { AccountNumber := n, HolderName := h, Balance := 0, AccountType := t, Status := "",
          CreatedAt := Time.zero, UpdatedAt := Time.zero } (clock 0) (clock 1)).2 with
    | error err =>
      rw [BankingSystem.CreateAccount_of_create_error hu hc] at hok
      simp at hok
    | ok created =>
      rw [BankingSystem.CreateAccount_of_create_ok hu hc] at hok ⊢
      simp only at hok ⊢
      obtain ⟨usr', hu', _, hus⟩ := userService.AddAccountToUser_eq_none hok
      rw [hu] at hu'
      injection hu' with hu'
      subst hu'
      obtain ⟨_, hnone, hcr, hst⟩ := accountService.Create_eq_ok hc
      refine ⟨usr, rfl, hnone, ?_, ?_, by simp⟩
      · rw [hst, hcr]
        simp only [mapGet_mapPut_same]
      · rw [hus]
        simp only [mapGet_mapPut_same]

/-! ## The ledger and the linked accounts of the directory -/

/-- Writing under a key that is in the map does not change which keys are in the map. -/
theorem isSome_mapGet_mapPut {κ β : Type} [DecidableEq κ] {m : List (κ × β)} {k : κ} {a : β}
    (v : β) (h : mapGet m k = some a) (x : κ) :
    (mapGet (mapPut m k v) x).isSome = (mapGet m x).isSome := by
  by_cases hx : k = x
  · subst hx
    rw [mapGet_mapPut_same, h]
    rfl
  · rw [mapGet_mapPut_ne _ _ hx]

/-- A key that differs from every key of the map is not in the map. -/
theorem mapGet_eq_none_of_forall_ne {κ β : Type} [DecidableEq κ] {m : List (κ × β)} {k : κ}
    (h : ∀ p ∈ m, p.1 ≠ k) : mapGet m k = none := by
  induction m with
  | nil => rfl
  | cons p m ih =>
    obtain ⟨k', v'⟩ := p
    have hk : k' ≠ k := h (k', v') (List.mem_cons_self _ _)
    simp only [mapGet, hk, if_false]
    exact ih (fun q hq => h q (List.mem_cons_of_mem _ hq))

/-- In a map with distinct keys every binding of the list is the binding the map gives. -/
theorem mapGet_of_mem_of_nodup {κ β : Type} [DecidableEq κ] {m : List (κ × β)}
    (hn : (mapKeys m).Nodup) {p : κ × β} (hp : p ∈ m) : mapGet m p.1 = some p.2 := by
  induction m with
  | nil => simp at hp
  | cons q m ih =>
    obtain ⟨k', v'⟩ := q
    simp only [mapKeys, List.map_cons, List.nodup_cons] at hn
    rcases List.mem_cons.mp hp with hp | hp
    · subst hp
      simp [mapGet]
    · have hk : k' ≠ p.1 := by
        intro hk
        apply hn.1
        rw [hk]
        exact List.mem_map_of_mem Prod.fst hp
      simp only [mapGet, hk, if_false]
      exact ih hn.2 hp

/-- A sum over the values of a map after the value under a key of the map is replaced. -/
theorem sum_nat_mapPut_of_mapGet {κ β : Type} [DecidableEq κ] (f : β → Nat)
    {m : List (κ × β)} {k : κ} {a : β} (v : β) (h : mapGet m k = some a) :
    ((mapValues (mapPut m k v)).map f).sum + f a = ((mapValues m).map f).sum + f v := by
  induction m with
  | nil => simp [mapGet] at h
  | cons p m ih =>
    obtain ⟨k', v'⟩ := p
    by_cases hk : k' = k
    · simp only [mapGet, hk, if_true] at h
      injection h with h
      subst h
      simp only [mapPut, hk, if_true, mapValues, List.map_cons, List.sum_cons]
      omega
    · simp only [mapGet, hk, if_false] at h
      have := ih h
      simp only [mapValues] at this
      simp only [mapPut, hk, if_false, mapValues, List.map_cons, List.sum_cons]
      omega

/-- A list of numbers whose sum is 1 has one entry 1 and all its other entries 0. -/
theorem sum_eq_one_split {α : Type} (f : α → Nat) :
    ∀ l : List α, (l.map f).sum = 1 →
      ∃ l1 a l2, l = l1 ++ a :: l2 ∧ f a = 1 ∧ (∀ x ∈ l1, f x = 0) ∧ ∀ x ∈ l2, f x = 0 := by
  intro l
  induction l with
  | nil => intro h; simp at h
  | cons b l ih =>
    intro h
    simp only [List.map_cons, List.sum_cons] at h
    by_cases hb : f b = 0
    · rw [hb, Nat.zero_add] at h
      obtain ⟨l1, a, l2, hl, ha, h1, h2⟩ := ih h
      refine ⟨b :: l1, a, l2, by rw [hl]; rfl, ha, ?_, h2⟩
      intro x hx
      rcases List.mem_cons.mp hx with hx | hx
      · rw [hx]; exact hb
      · exact h1 x hx
    · have hb1 : f b = 1 := by omega
      have hz : (l.map f).sum = 0 := by omega
      refine ⟨[], b, l, rfl, hb1, by simp, ?_⟩
      intro x hx
      have hle : f x ≤ (l.map f).sum := List.single_le_sum (by simp) _ (List.mem_map_of_mem f hx)
      omega

/-- A list of numbers whose sum is 0 has only entries 0. -/
theorem eq_zero_of_sum_eq_zero {α : Type} (f : α → Nat) {l : List α} (h : (l.map f).sum = 0)
    {x : α} (hx : x ∈ l) : f x = 0 := by
  have hle : f x ≤ (l.map f).sum := List.single_le_sum (by simp) _ (List.mem_map_of_mem f hx)
  omega

/-- A user of the directory has no account number that no list of linked accounts has. -/
theorem userService.not_mem_of_linkCount_eq_zero {us : userService} {n : String}
    (h : us.linkCount n = 0) {u : Int} {usr : User} (hg : mapGet us.users u = some usr) :
    n ∉ usr.Accounts := by
  have hmem : usr ∈ mapValues us.users := List.mem_map_of_mem Prod.snd (mem_of_mapGet hg)
  have hz := eq_zero_of_sum_eq_zero (fun u : User => u.Accounts.count n) h hmem
  exact List.count_eq_zero.mp hz

/-- The ledger's `Deposit` does not change which account numbers are in the ledger. -/
theorem accountService.Deposit_isSome (ac : accountService) (k : String) (amount : Amount)
    (now : Time) (x : String) :
    (mapGet (ac.Deposit k amount now).1.accounts x).isSome = (mapGet ac.accounts x).isSome := by
  cases h : (ac.Deposit k amount now).2 with
  | some err => rw [accountService.Deposit_of_error (by simp [h])]
  | none =>
    obtain ⟨a, hg, _, _, heq⟩ := accountService.Deposit_eq_none h
    rw [heq]
    exact isSome_mapGet_mapPut _ hg x

/-- The ledger's `Withdraw` does not change which account numbers are in the ledger. -/
theorem accountService.Withdraw_isSome (ac : accountService) (k : String) (amount : Amount)
    (now : Time) (x : String) :
    (mapGet (ac.Withdraw k amount now).1.accounts x).isSome = (mapGet ac.accounts x).isSome := by
  cases h : (ac.Withdraw k amount now).2 with
  | some err => rw [accountService.Withdraw_of_error (by simp [h])]
  | none =>
    obtain ⟨a, hg, _, _, _, heq⟩ := accountService.Withdraw_eq_none h
    rw [heq]
    exact isSome_mapGet_mapPut _ hg x

/-- The ledger's `CloseAccount` does not change which account numbers are in the ledger. -/
theorem accountService.CloseAccount_isSome (ac : accountService) (k : String) (now : Time)
    (x : String) :
    (mapGet (ac.CloseAccount k now).1.accounts x).isSome = (mapGet ac.accounts x).isSome := by
  cases h : (ac.CloseAccount k now).2 with
  | some err => rw [accountService.CloseAccount_of_error (by simp [h])]
  | none =>
    obtain ⟨a, hg, _, heq⟩ := accountService.CloseAccount_eq_none h
    rw [heq]
    exact isSome_mapGet_mapPut _ hg x

/-- The orchestrator's `Deposit` does not touch the directory. -/
theorem BankingSystem.Deposit_directory (bs : BankingSystem) (k : String) (amount : Amount)
    (clock : Nat → Time) : (bs.Deposit k amount clock).1.users = bs.users := by
  cases h : (bs.accounts.Deposit k amount (clock 0)).2 with
  | some err => rw [BankingSystem.Deposit_of_ledger_error h]
  | none => rw [BankingSystem.Deposit_of_ok h]

/-- The orchestrator's `Withdraw` does not touch the directory. -/
theorem BankingSystem.Withdraw_directory (bs : BankingSystem) (k : String) (amount : Amount)
    (clock : Nat → Time) : (bs.Withdraw k amount clock).1.users = bs.users := by
  cases h : (bs.accounts.Withdraw k amount (clock 0)).2 with
  | some err => rw [BankingSystem.Withdraw_of_ledger_error h]
  | none => rw [BankingSystem.Withdraw_of_ok h]

/-- `Transfer` does not touch the directory. -/
theorem BankingSystem.Transfer_directory (bs : BankingSystem) (f t : String) (amount : Amount)
    (clock : Nat → Time) : (bs.Transfer f t amount clock).1.users = bs.users := by
  cases hw : (bs.accounts.Withdraw f amount (clock 0)).2 with
  | some err => rw [BankingSystem.Transfer_of_withdraw_error hw]
  | none =>
    cases hd : ((bs.accounts.Withdraw f amount (clock 0)).1.Deposit t amount (clock 1)).2 with
    | some err => rw [BankingSystem.Transfer_of_deposit_error hw hd]
    | none => rw [BankingSystem.Transfer_of_ok hw hd]

/-- `Transfer` does not change which account numbers are in the ledger. -/
theorem BankingSystem.Transfer_isSome (bs : BankingSystem) (f t : String) (amount : Amount)
    (clock : Nat → Time) (x : String) :
    (mapGet (bs.Transfer f t amount clock).1.accounts.accounts x).isSome =
      (mapGet bs.accounts.accounts x).isSome := by
  rcases BankingSystem.Transfer_accounts bs f t amount clock with h | h | h
  · rw [h]
  · rw [h, accountService.Deposit_isSome, accountService.Withdraw_isSome]
  · rw [h, accountService.Deposit_isSome, accountService.Deposit_isSome,
      accountService.Withdraw_isSome]

/-- A state with the same directory and the same account numbers in the ledger is owned when
the first state is. -/
theorem BankingSystem.Owned_of_same {bs bs' : BankingSystem} (h : bs.Owned)
    (hu : bs'.users = bs.users)
    (ha : ∀ x, (mapGet bs'.accounts.accounts x).isSome = (mapGet bs.accounts.accounts x).isSome) :
    bs'.Owned := by
  unfold BankingSystem.Owned
  rw [hu]
  refine ⟨h.1, h.2.1, ?_⟩
  intro n
  rw [ha n]
  exact h.2.2 n

/-- A successful `userService.Create`, read backwards. -/
theorem userService.Create_user_eq_ok {us : userService} {user created : User}
    (h : (us.Create user).2 = .ok created) :
    created = { user with ID := us.nextID, Accounts := [] } ∧
    (us.Create user).1 =
      { users := mapPut us.users us.nextID created, nextID := us.nextID + 1 } := by
  unfold userService.Create at h ⊢
  split at h
  · simp at h
  · split at h
    · simp at h
    · next h1 h2 =>
      injection h with h
      subst h
      simp [h1, h2]

/-- A failing `userService.Create` leaves the directory as it was. -/
theorem userService.Create_user_of_error {us : userService} {user : User} {err : BankError}
    (h : (us.Create user).2 = .error err) : (us.Create user).1 = us := by
  unfold userService.Create at h ⊢
  split
  · rfl
  · split
    · rfl
    · next h1 h2 => simp [h1, h2] at h

/-- The directory after `CreateUser` is the directory after `userService.Create`. -/
theorem BankingSystem.CreateUser_directory (bs : BankingSystem)
    (a b c d e f g h : String) :
    (bs.CreateUser a b c d e f g h).1.users =
      (bs.users.Create
        { ID := 0, FirstName := a, LastName := b, Email := c, Password := d, Address := e,
          Phone := f, PanCardNumber := g, AadharCardNumber := h, Accounts := [] }).1 := by
  unfold BankingSystem.CreateUser
  simp only
  split <;> simp_all

/-- Every call of the orchestrator keeps the directory and the ledger in agreement. -/
theorem BankingSystem.Owned_call {bs : BankingSystem} (c : Call) (clock : Nat → Time)
    (hc : c.isOrchestrator = true) (h : bs.Owned) : (bs.call c clock).1.Owned := by
  cases c with
  | ledgerCreate account => simp [Call.isOrchestrator] at hc
  | ledgerDeposit k amount => simp [Call.isOrchestrator] at hc
  | ledgerWithdraw k amount => simp [Call.isOrchestrator] at hc
  | ledgerCloseAccount k => simp [Call.isOrchestrator] at hc
  | deposit k amount =>
    refine BankingSystem.Owned_of_same h (BankingSystem.Deposit_directory bs k amount clock) ?_
    intro x
    show (mapGet (bs.Deposit k amount clock).1.accounts.accounts x).isSome = _
    rw [BankingSystem.Deposit_accounts, accountService.Deposit_isSome]
  | withdraw k amount =>
    refine BankingSystem.Owned_of_same h (BankingSystem.Withdraw_directory bs k amount clock) ?_
    intro x
    show (mapGet (bs.Withdraw k amount clock).1.accounts.accounts x).isSome = _
    rw [BankingSystem.Withdraw_accounts, accountService.Withdraw_isSome]
  | transfer f t amount =>
    exact BankingSystem.Owned_of_same h (BankingSystem.Transfer_directory bs f t amount clock)
      (BankingSystem.Transfer_isSome bs f t amount clock)
  | closeAccount k =>
    refine BankingSystem.Owned_of_same h rfl ?_
    intro x
    exact accountService.CloseAccount_isSome bs.accounts k (clock 0) x
  | createUser a b c d e f g i =>
    show (bs.CreateUser a b c d e f g i).1.Owned
    unfold BankingSystem.Owned
    rw [BankingSystem.CreateUser_directory, BankingSystem.CreateUser_accounts]
    cases hr : (bs.users.Create
        { ID := 0, FirstName := a, LastName := b, Email := c, Password := d, Address := e,
          Phone := f, PanCardNumber := g, AadharCardNumber := i, Accounts := [] }).2 with
    | error err =>
      rw [userService.Create_user_of_error hr]
      exact h
    | ok created =>
      obtain ⟨hcr, hst⟩ := userService.Create_user_eq_ok hr
      have hnew : mapGet bs.users.users bs.users.nextID = none :=
        mapGet_eq_none_of_forall_ne (fun p hp => ne_of_lt (h.2.1 p hp))
      rw [hst, mapPut_of_mapGet_none _ hnew]
      refine ⟨?_, ?_, ?_⟩
      · simp only [mapKeys, List.map_append, List.map_cons, List.map_nil]
        refine List.Nodup.append h.1 (List.nodup_singleton _) ?_
        intro x hx hx'
        rw [List.mem_singleton] at hx'
        subst hx'
        obtain ⟨p, hp, hpx⟩ := List.mem_map.mp hx
        exact absurd hpx (ne_of_lt (h.2.1 p hp))
      · intro p hp
        rcases List.mem_append.mp hp with hp | hp
        · exact lt_trans (h.2.1 p hp) (lt_add_one _)
        · rw [List.mem_singleton] at hp
          subst hp
          exact lt_add_one _
      · intro n
        rw [← h.2.2 n]
        simp [userService.linkCount, mapValues, hcr]
  | createAccount n hn t u =>
    show (bs.CreateAccount n hn t u clock).1.Owned
    cases hu : mapGet bs.users.users u with
    | none =>
      rw [BankingSystem.CreateAccount_of_no_user n hn t clock hu]
      exact h
    | some usr =>
      cases hcr : (bs.accounts.Create
          { AccountNumber := n, HolderName := hn, Balance := 0, AccountType := t, Status := "",
            CreatedAt := Time.zero, UpdatedAt := Time.zero } (clock 0) (clock 1)).2 with
      | error err =>
        rw [BankingSystem.CreateAccount_of_create_error hu hcr]
        exact h
      | ok created =>
        obtain ⟨_, hnone, _, hst⟩ := accountService.Create_eq_ok hcr
        have hnone' : mapGet bs.accounts.accounts n = none := hnone
        have hz : bs.users.linkCount n = 0 := by
          rw [h.2.2 n, hnone']
          rfl
        have hm : n ∉ usr.Accounts := userService.not_mem_of_linkCount_eq_zero hz hu
        rw [BankingSystem.CreateAccount_of_create_ok hu hcr,
          userService.AddAccountToUser_of_not_mem hu hm, hst]
        refine ⟨?_, ?_, ?_⟩
        · show (mapKeys (mapPut bs.users.users u _)).Nodup
          rw [mapKeys_mapPut_of_mapGet _ hu]
          exact h.1
        · intro p hp
          rcases mem_mapPut hp with hp | hp
          · rw [hp]
            exact h.2.1 (u, usr) (mem_of_mapGet hu)
          · exact h.2.1 p hp
        · intro x
          have hsum := sum_nat_mapPut_of_mapGet (fun u : User => u.Accounts.count x)
            { usr with Accounts := usr.Accounts ++ [n] } hu
          simp only [List.count_append] at hsum
          have hold := h.2.2 x
          simp only [userService.linkCount] at hold ⊢
          show ((mapValues (mapPut bs.users.users u _)).map _).sum =
            if (mapGet (mapPut bs.accounts.accounts n created) x).isSome then 1 else 0
          by_cases hx : n = x
          · subst hx
            rw [mapGet_mapPut_same]
            have hz' := hz
            simp only [userService.linkCount] at hz'
            simp only [List.count_cons_self, List.count_nil] at hsum
            simp only [Option.isSome_some, if_true]
            omega
          · rw [mapGet_mapPut_ne _ _ hx, ← hold]
            have hc0 : List.count x [n] = 0 := List.count_eq_zero.mpr (by simp [Ne.symm hx])
            rw [hc0] at hsum
            omega

/-- In a state reached by calls of the orchestrator the directory and the ledger agree. -/
theorem OrchestratorReachable.owned {bs : BankingSystem} (h : OrchestratorReachable bs) :
    bs.Owned := by
  induction h with
  | init =>
    refine ⟨by simp [NewBankingSystem, NewUserService, mapKeys], ?_, ?_⟩
    · intro p hp
      simp [NewBankingSystem, NewUserService] at hp
    · intro n
      simp [NewBankingSystem, NewUserService, NewAccountService, userService.linkCount,
        mapValues, mapGet]
  | step c clock hc _ ih => exact BankingSystem.Owned_call c clock hc ih

/-- C29: in every state reached from a new `BankingSystem` through `CreateUser`,
`CreateAccount`, `Deposit`, `Withdraw`, `Transfer` and `CloseAccount`, an account number is in
the ledger if and only if it is in the linked-account list of some user; every account of the
ledger is in the list of one user, occurs once in that list and is in the list of no other
user; and whenever the user exists and the ledger's `Create` succeeds, the linking step
`AddAccountToUser` returns no error, so `CreateAccount` succeeds. -/
theorem C29_ledger_accounts_have_one_owner (bs : BankingSystem)
    (h : OrchestratorReachable bs) :
    (∀ n, (mapGet bs.accounts.accounts n).isSome ↔
      ∃ u usr, mapGet bs.users.users u = some usr ∧ n ∈ usr.Accounts) ∧
    (∀ n, (mapGet bs.accounts.accounts n).isSome →
      ∃ u usr, mapGet bs.users.users u = some usr ∧ usr.Accounts.count n = 1 ∧
        ∀ u' usr', mapGet bs.users.users u' = some usr' → n ∈ usr'.Accounts → u' = u) ∧
    (∀ n hn t u clock usr created, mapGet bs.users.users u = some usr →
      (bs.accounts.Create
        { AccountNumber := n, HolderName := hn, Balance := 0, AccountType := t, Status := "",
          CreatedAt := Time.zero, UpdatedAt := Time.zero } (clock 0) (clock 1)).2 = .ok created →
      (bs.users.AddAccountToUser u n).2 = none ∧
      (bs.CreateAccount n hn t u clock).2 = none) := by
  have ho := h.owned
  have hcount : ∀ n, (mapGet bs.accounts.accounts n).isSome →
      ∃ u usr, mapGet bs.users.users u = some usr ∧ usr.Accounts.count n = 1 ∧
        ∀ u' usr', mapGet bs.users.users u' = some usr' → n ∈ usr'.Accounts → u' = u := by
    intro n hn
    have h1 : bs.users.linkCount n = 1 := by rw [ho.2.2 n, if_pos hn]
    have h1' : (bs.users.users.map (fun p : Int × User => p.2.Accounts.count n)).sum = 1 := by
      simpa [userService.linkCount, mapValues, List.map_map, Function.comp_def] using h1
    obtain ⟨l1, a, l2, hl, ha, hl1, hl2⟩ := sum_eq_one_split _ _ h1'
    have hmem : a ∈ bs.users.users := by rw [hl]; simp
    refine ⟨a.1, a.2, mapGet_of_mem_of_nodup ho.1 hmem, ha, ?_⟩
    intro u' usr' hg hin
    have hm' : (u', usr') ∈ bs.users.users := mem_of_mapGet hg
    have hne : usr'.Accounts.count n ≠ 0 := fun hz => List.count_eq_zero.mp hz hin
    rw [hl] at hm'
    rcases List.mem_append.mp hm' with hm' | hm'
    · exact absurd (hl1 _ hm') hne
    · rcases List.mem_cons.mp hm' with hm' | hm'
      · rw [← hm']
      · exact absurd (hl2 _ hm') hne
  refine ⟨?_, hcount, ?_⟩
  · intro n
    constructor
    · intro hn
      obtain ⟨u, usr, hg, hc, _⟩ := hcount n hn
      refine ⟨u, usr, hg, ?_⟩
      by_contra hnot
      rw [List.count_eq_zero.mpr hnot] at hc
      exact absurd hc (by decide)
    · rintro ⟨u, usr, hg, hin⟩
      by_contra hn
      have hz : bs.users.linkCount n = 0 := by rw [ho.2.2 n, if_neg hn]
      exact userService.not_mem_of_linkCount_eq_zero hz hg hin
  · intro n hn t u clock usr created hu hc
    obtain ⟨_, hnone, _, _⟩ := accountService.Create_eq_ok hc
    have hnone' : mapGet bs.accounts.accounts n = none := hnone
    have hz : bs.users.linkCount n = 0 := by
      rw [ho.2.2 n, hnone']
      rfl
    have hm : n ∉ usr.Accounts := userService.not_mem_of_linkCount_eq_zero hz hu
    have hl := userService.AddAccountToUser_of_not_mem hu hm
    refine ⟨by rw [hl], ?_⟩
    rw [BankingSystem.CreateAccount_of_create_ok hu hc, hl]

/-- C29 at `exampleOwnedEnd`: user 1 with the accounts `A1` and `A2` created, funded and used
through the orchestrator. -/
theorem C29_ledger_accounts_have_one_owner_witness :
    OrchestratorReachable exampleOwnedEnd ∧
    mapKeys exampleOwnedEnd.accounts.accounts = ["A1", "A2"] ∧
    (mapValues exampleOwnedEnd.users.users).map (fun u => (u.ID, u.Accounts)) =
      [(1, ["A1", "A2"])] ∧
    (∀ n, (mapGet exampleOwnedEnd.accounts.accounts n).isSome ↔
      ∃ u usr, mapGet exampleOwnedEnd.users.users u = some usr ∧ n ∈ usr.Accounts) ∧
    (∀ n, (mapGet exampleOwnedEnd.accounts.accounts n).isSome →
      ∃ u usr, mapGet exampleOwnedEnd.users.users u = some usr ∧ usr.Accounts.count n = 1 ∧
        ∀ u' usr', mapGet exampleOwnedEnd.users.users u' = some usr' → n ∈ usr'.Accounts → u' = u) ∧
    (∀ n hn t u clock usr created, mapGet exampleOwnedEnd.users.users u = some usr →
      (exampleOwnedEnd.accounts.Create
        { AccountNumber := n, HolderName := hn, Balance := 0, AccountType := t, Status := "",
          CreatedAt := Time.zero, UpdatedAt := Time.zero } (clock 0) (clock 1)).2 = .ok created →
      (exampleOwnedEnd.users.AddAccountToUser u n).2 = none ∧
      (exampleOwnedEnd.CreateAccount n hn t u clock).2 = none) :=
  ⟨exampleOwnedEnd_orchestratorReachable, by with_unfolding_all rfl, by with_unfolding_all rfl,
    C29_ledger_accounts_have_one_owner exampleOwnedEnd exampleOwnedEnd_orchestratorReachable⟩

end Bank

/-! # The todo service: ids, `Delete` and `Complete` -/

namespace TodoApp

/-- The loop of `Delete` ends without a match exactly when no todo has the id. -/
theorem deleteLoop_eq_none_iff (id : Int) (l : List Todo) :
    deleteLoop id l = none ↔ ∀ todo ∈ l, todo.ID ≠ id := by
  induction l with
  | nil => simp [deleteLoop]
  | cons a l ih =>
    by_cases ha : a.ID = id
    · simp [deleteLoop, ha]
    · simp [deleteLoop, ha, ih]

/-- When the loop of `Delete` finds a match, the list is `l1 ++ a :: l2` with `a` the first
todo that has the id, and the new list is `l1 ++ l2`. -/
theorem deleteLoop_eq_some_split (id : Int) :
    ∀ (l l' : List Todo), deleteLoop id l = some l' →
      ∃ l1 a l2, l = l1 ++ a :: l2 ∧ a.ID = id ∧ (∀ x ∈ l1, x.ID ≠ id) ∧ l' = l1 ++ l2 := by
  intro l
  induction l with
  | nil => intro l' h; simp [deleteLoop] at h
  | cons b l ih =>
    intro l' h
    by_cases hb : b.ID = id
    · simp only [deleteLoop, hb, if_true] at h
      injection h with h
      exact ⟨[], b, l, rfl, hb, by simp, by simp [h]⟩
    · simp only [deleteLoop, hb, if_false] at h
      cases hr : deleteLoop id l with
      | none => simp [hr] at h
      | some r =>
        simp only [hr, Option.map_some'] at h
        injection h with h
        obtain ⟨l1, a, l2, hl, ha, hl1, hr'⟩ := ih r hr
        refine ⟨b :: l1, a, l2, by rw [hl]; rfl, ha, ?_, by rw [← h, hr']; rfl⟩
        intro x hx
        rcases List.mem_cons.mp hx with hx | hx
        · rw [hx]; exact hb
        · exact hl1 x hx

/-- The loop of `Complete` ends without a match exactly when no todo has the id. -/
theorem completeLoop_eq_none_iff (id : Int) (l : List Todo) :
    completeLoop id l = none ↔ ∀ todo ∈ l, todo.ID ≠ id := by
  induction l with
  | nil => simp [completeLoop]
  | cons a l ih =>
    by_cases ha : a.ID = id
    · simp [completeLoop, ha]
    · simp [completeLoop, ha, ih]

/-- When the loop of `Complete` finds a match, the list is `l1 ++ a :: l2` with `a` the first
todo that has the id, and the new list has `a` with `Completed` set in the place of `a`. -/
theorem completeLoop_eq_some_split (id : Int) :
    ∀ (l l' : List Todo), completeLoop id l = some l' →
      ∃ l1 a l2, l = l1 ++ a :: l2 ∧ a.ID = id ∧ (∀ x ∈ l1, x.ID ≠ id) ∧
        l' = l1 ++ { a with Completed := true } :: l2 := by
  intro l
  induction l with
  | nil => intro l' h; simp [completeLoop] at h
  | cons b l ih =>
    intro l' h
    by_cases hb : b.ID = id
    · simp only [completeLoop, hb, if_true] at h
      injection h with h
      exact ⟨[], b, l, rfl, hb, by simp, by rw [← h, hb]; rfl⟩
    · simp only [completeLoop, hb, if_false] at h
      cases hr : completeLoop id l with
      | none => simp [hr] at h
      | some r =>
        simp only [hr, Option.map_some'] at h
        injection h with h
        obtain ⟨l1, a, l2, hl, ha, hl1, hr'⟩ := ih r hr
        refine ⟨b :: l1, a, l2, by rw [hl]; rfl, ha, ?_, by rw [← h, hr']; rfl⟩
        intro x hx
        rcases List.mem_cons.mp hx with hx | hx
        · rw [hx]; exact hb
        · exact hl1 x hx

/-- In a list with strictly increasing ids, the todos after a todo do not have its id. -/
theorem ne_of_pairwise_split {l1 l2 : List Todo} {a : Todo}
    (h : (l1 ++ a :: l2).Pairwise (fun a b => a.ID < b.ID)) : ∀ x ∈ l2, x.ID ≠ a.ID := by
  intro x hx
  have h2 := (List.pairwise_append.mp h).2.1
  exact ne_of_gt (List.rel_of_pairwise_cons h2 hx)

/-- What a failing `Delete` is and does. -/
theorem Delete_of_error {s : InMemoryTodoService} {id : Int} (h : (s.Delete id).2 ≠ none) :
    (∀ todo ∈ s.todos, todo.ID ≠ id) ∧ (s.Delete id).1 = s := by
  unfold InMemoryTodoService.Delete at h ⊢
  cases hd : deleteLoop id s.todos with
  | none => exact ⟨(deleteLoop_eq_none_iff id s.todos).mp hd, rfl⟩
  | some l => simp [hd] at h

/-- What a successful `Delete` does. -/
theorem Delete_of_ok {s : InMemoryTodoService} {id : Int} (h : (s.Delete id).2 = none) :
    (s.Delete id).1.nextID = s.nextID ∧
    ∃ l1 a l2, s.todos = l1 ++ a :: l2 ∧ a.ID = id ∧ (∀ x ∈ l1, x.ID ≠ id) ∧
      (s.Delete id).1.todos = l1 ++ l2 := by
  unfold InMemoryTodoService.Delete at h ⊢
  cases hd : deleteLoop id s.todos with
  | none => simp [hd] at h
  | some l => exact ⟨rfl, deleteLoop_eq_some_split id s.todos l hd⟩

/-- What a failing `Complete` is and does. -/
theorem Complete_of_error {s : InMemoryTodoService} {id : Int}
    (h : (s.Complete id).2 ≠ none) :
    (∀ todo ∈ s.todos, todo.ID ≠ id) ∧ (s.Complete id).1 = s := by
  unfold InMemoryTodoService.Complete at h ⊢
  cases hd : completeLoop id s.todos with
  | none => exact ⟨(completeLoop_eq_none_iff id s.todos).mp hd, rfl⟩
  | some l => simp [hd] at h

/-- What a successful `Complete` does. -/
theorem Complete_of_ok {s : InMemoryTodoService} {id : Int} (h : (s.Complete id).2 = none) :
    (s.Complete id).1.nextID = s.nextID ∧
    ∃ l1 a l2, s.todos = l1 ++ a :: l2 ∧ a.ID = id ∧ (∀ x ∈ l1, x.ID ≠ id) ∧
      (s.Complete id).1.todos = l1 ++ { a with Completed := true } :: l2 := by
  unfold InMemoryTodoService.Complete at h ⊢
  cases hd : completeLoop id s.todos with
  | none => simp [hd] at h
  | some l => exact ⟨rfl, completeLoop_eq_some_split id s.todos l hd⟩

/-- `Add` keeps the ids strictly increasing and below `nextID`. -/
theorem Ordered_Add {s : InMemoryTodoService} (task : String) (h : s.Ordered) :
    (s.Add task).1.Ordered := by
  unfold InMemoryTodoService.Add InMemoryTodoService.Ordered
  simp only
  constructor
  · rw [List.pairwise_append]
    refine ⟨h.1, List.pairwise_singleton _ _, ?_⟩
    intro a ha b hb
    rw [List.mem_singleton] at hb
    subst hb
    exact h.2 a ha
  · intro todo htodo
    rcases List.mem_append.mp htodo with ht | ht
    · exact lt_trans (h.2 todo ht) (lt_add_one _)
    · rw [List.mem_singleton] at ht
      subst ht
      exact lt_add_one _

/-- `Delete` keeps the ids strictly increasing and below `nextID`. -/
theorem Ordered_Delete {s : InMemoryTodoService} (id : Int) (h : s.Ordered) :
    (s.Delete id).1.Ordered := by
  cases hr : (s.Delete id).2 with
  | some err => rw [(Delete_of_error (by simp [hr])).2]; exact h
  | none =>
    obtain ⟨hn, l1, a, l2, hl, _, _, hl'⟩ := Delete_of_ok hr
    have hsub : List.Sublist (s.Delete id).1.todos s.todos := by
      rw [hl, hl']
      exact List.Sublist.append (List.Sublist.refl l1) (List.sublist_cons_self a l2)
    refine ⟨List.Pairwise.sublist hsub h.1, ?_⟩
    intro todo htodo
    rw [hn]
    exact h.2 todo (hsub.subset htodo)

/-- `Complete` keeps the ids strictly increasing and below `nextID`. -/
theorem Ordered_Complete {s : InMemoryTodoService} (id : Int) (h : s.Ordered) :
    (s.Complete id).1.Ordered := by
  cases hr : (s.Complete id).2 with
  | some err => rw [(Complete_of_error (by simp [hr])).2]; exact h
  | none =>
    obtain ⟨hn, l1, a, l2, hl, _, _, hl'⟩ := Complete_of_ok hr
    have hids : (s.Complete id).1.todos.map (fun todo => todo.ID) =
        s.todos.map (fun todo => todo.ID) := by
      rw [hl, hl']
      simp
    have hp : ∀ l : List Todo, l.Pairwise (fun a b => a.ID < b.ID) ↔
        (l.map (fun todo => todo.ID)).Pairwise (fun a b => a < b) := by
      intro l
      rw [List.pairwise_map]
    constructor
    · rw [hp, hids, ← hp]
      exact h.1
    · intro todo htodo
      rw [hn]
      have hmem : todo.ID ∈ (s.Complete id).1.todos.map (fun todo => todo.ID) :=
        List.mem_map_of_mem _ htodo
      rw [hids] at hmem
      obtain ⟨x, hx, hxe⟩ := List.mem_map.mp hmem
      rw [← hxe]
      exact h.2 x hx

/-- Every call keeps the ids strictly increasing and below `nextID`. -/
theorem Ordered_call {s : InMemoryTodoService} (c : TodoCall) (h : s.Ordered) :
    (s.call c).Ordered := by
  cases c with
  | add task => exact Ordered_Add task h
  | complete id => exact Ordered_Complete id h
  | delete id => exact Ordered_Delete id h

/-- In a reachable state the ids are strictly increasing and below `nextID`. -/
theorem TodoReachable.ordered {s : InMemoryTodoService} (h : TodoReachable s) : s.Ordered := by
  induction h with
  | init => exact ⟨List.Pairwise.nil, by intro todo htodo; simp [NewInMemoryTodoService] at htodo⟩
  | step c _ ih => exact Ordered_call c ih

/-- No call lowers `nextID`. -/
theorem nextID_le_call (s : InMemoryTodoService) (c : TodoCall) :
    s.nextID ≤ (s.call c).nextID := by
  cases c with
  | add task => exact le_of_lt (lt_add_one _)
  | complete id =>
    show s.nextID ≤ (s.Complete id).1.nextID
    cases hr : (s.Complete id).2 with
    | some err => rw [(Complete_of_error (by simp [hr])).2]
    | none => rw [(Complete_of_ok hr).1]
  | delete id =>
    show s.nextID ≤ (s.Delete id).1.nextID
    cases hr : (s.Delete id).2 with
    | some err => rw [(Delete_of_error (by simp [hr])).2]
    | none => rw [(Delete_of_ok hr).1]

/-- No sequence of calls lowers `nextID`. -/
theorem nextID_le_runCalls (calls : List TodoCall) :
    ∀ s : InMemoryTodoService, s.nextID ≤ (runCalls s calls).nextID := by
  induction calls with
  | nil => intro s; exact le_refl _
  | cons c rest ih =>
    intro s
    exact le_trans (nextID_le_call s c) (ih (s.call c))

/-- C30: for the in-memory todo service, in every state reachable from
`NewInMemoryTodoService` by `Add`, `Complete` and `Delete`, the ids of the list are strictly
increasing in list order, so pairwise distinct, and all below `nextID`; the id `Add` issues
after any further calls is above every id of the list, so no id is issued again, also after a
`Delete`.  `Delete(id)` fails if and only if no todo has that id, and then changes nothing;
otherwise it removes exactly the todo with that id, one entry, and keeps every other todo
unchanged and in the same order.  `Complete(id)` fails if and only if no todo has that id, and
then changes nothing; otherwise it sets `Completed` on the todo with that id and leaves every
other todo, the order and `nextID` unchanged. -/
theorem C30_todo_ids_delete_complete (s : InMemoryTodoService) (h : TodoReachable s)
    (id : Int) :
    s.todos.Pairwise (fun a b => a.ID < b.ID) ∧
    (s.todos.map (fun todo => todo.ID)).Nodup ∧
    (∀ todo ∈ s.todos, todo.ID < s.nextID) ∧
    (∀ calls task, ∀ todo ∈ s.todos, todo.ID < ((runCalls s calls).Add task).2.ID) ∧
    ((s.Delete id).2 ≠ none ↔ ∀ todo ∈ s.todos, todo.ID ≠ id) ∧
    ((s.Delete id).2 ≠ none → (s.Delete id).1 = s) ∧
    ((s.Delete id).2 = none →
      (s.Delete id).1.nextID = s.nextID ∧
      (s.Delete id).1.todos = s.todos.filter (fun todo => todo.ID ≠ id) ∧
      (s.Delete id).1.todos.length + 1 = s.todos.length) ∧
    ((s.Complete id).2 ≠ none ↔ ∀ todo ∈ s.todos, todo.ID ≠ id) ∧
    ((s.Complete id).2 ≠ none → (s.Complete id).1 = s) ∧
    ((s.Complete id).2 = none →
      (s.Complete id).1.nextID = s.nextID ∧
      (s.Complete id).1.todos =
        s.todos.map (fun todo => if todo.ID = id then { todo with Completed := true } else todo))
    := by
  have ho := h.ordered
  refine ⟨ho.1, ?_, ho.2, ?_, ?_, fun he => (Delete_of_error he).2, ?_, ?_,
    fun he => (Complete_of_error he).2, ?_⟩
  · rw [List.Nodup, List.pairwise_map]
    exact ho.1.imp (fun hab => ne_of_lt hab)
  · intro calls task todo htodo
    exact lt_of_lt_of_le (ho.2 todo htodo) (nextID_le_runCalls calls s)
  · constructor
    · intro he
      exact (Delete_of_error he).1
    · intro hno
      unfold InMemoryTodoService.Delete
      rw [(deleteLoop_eq_none_iff id s.todos).mpr hno]
      simp
  · intro hok
    obtain ⟨hn, l1, a, l2, hl, ha, hl1, hl'⟩ := Delete_of_ok hok
    have hl2 : ∀ x ∈ l2, x.ID ≠ id := by
      have hp := ho.1
      rw [hl] at hp
      intro x hx
      rw [← ha]
      exact ne_of_pairwise_split hp x hx
    refine ⟨hn, ?_, ?_⟩
    · rw [hl', hl, List.filter_append, List.filter_cons]
      have h1 : l1.filter (fun todo => todo.ID ≠ id) = l1 :=
        List.filter_eq_self.mpr (fun x hx => by simpa using hl1 x hx)
      have h2 : l2.filter (fun todo => todo.ID ≠ id) = l2 :=
        List.filter_eq_self.mpr (fun x hx => by simpa using hl2 x hx)
      rw [h1, h2]
      simp [ha]
    · rw [hl', hl]
      simp
      omega
  · constructor
    · intro he
      exact (Complete_of_error he).1
    · intro hno
      unfold InMemoryTodoService.Complete
      rw [(completeLoop_eq_none_iff id s.todos).mpr hno]
      simp
  · intro hok
    obtain ⟨hn, l1, a, l2, hl, ha, hl1, hl'⟩ := Complete_of_ok hok
    have hl2 : ∀ x ∈ l2, x.ID ≠ id := by
      have hp := ho.1
      rw [hl] at hp
      intro x hx
      rw [← ha]
      exact ne_of_pairwise_split hp x hx
    refine ⟨hn, ?_⟩
    rw [hl', hl, List.map_append, List.map_cons]
    have h1 : l1.map (fun todo => if todo.ID = id then { todo with Completed := true } else todo)
        = l1 := by
      conv_rhs => rw [← List.map_id l1]
      exact List.map_congr_left (fun x hx => by simp [hl1 x hx])
    have h2 : l2.map (fun todo => if todo.ID = id then { todo with Completed := true } else todo)
        = l2 := by
      conv_rhs => rw [← List.map_id l2]
      exact List.map_congr_left (fun x hx => by simp [hl2 x hx])
    rw [h1, h2]
    simp [ha]

/-- A sequence of calls leads from a reachable state to a reachable state. -/
theorem reachable_runCalls (calls : List TodoCall) :
    ∀ s : InMemoryTodoService, TodoReachable s → TodoReachable (runCalls s calls) := by
  induction calls with
  | nil => intro s h; exact h
  | cons c rest ih => intro s h; exact ih (s.call c) (TodoReachable.step c h)

/-- The state `exampleTodos` is reachable. -/
theorem exampleTodos_reachable : TodoReachable exampleTodos :=
  reachable_runCalls _ _ TodoReachable.init

/-- C30 at `exampleTodos`, the list with the todos 1 and 3 left and `nextID` 4, and the
id 3. -/
theorem C30_todo_ids_delete_complete_witness :
    TodoReachable exampleTodos ∧
    exampleTodos.todos.map (fun todo => todo.ID) = [1, 3] ∧ exampleTodos.nextID = 4 ∧
    (exampleTodos.Delete 3).1.todos.map (fun todo => todo.ID) = [1] ∧
    (exampleTodos.Add "again").2.ID = 4 ∧
    (exampleTodos.todos.Pairwise (fun a b => a.ID < b.ID) ∧
    (exampleTodos.todos.map (fun todo => todo.ID)).Nodup ∧
    (∀ todo ∈ exampleTodos.todos, todo.ID < exampleTodos.nextID) ∧
    (∀ calls task, ∀ todo ∈ exampleTodos.todos,
      todo.ID < ((runCalls exampleTodos calls).Add task).2.ID) ∧
    ((exampleTodos.Delete 3).2 ≠ none ↔ ∀ todo ∈ exampleTodos.todos, todo.ID ≠ 3) ∧
    ((exampleTodos.Delete 3).2 ≠ none → (exampleTodos.Delete 3).1 = exampleTodos) ∧
    ((exampleTodos.Delete 3).2 = none →
      (exampleTodos.Delete 3).1.nextID = exampleTodos.nextID ∧
      (exampleTodos.Delete 3).1.todos = exampleTodos.todos.filter (fun todo => todo.ID ≠ 3) ∧
      (exampleTodos.Delete 3).1.todos.length + 1 = exampleTodos.todos.length) ∧
    ((exampleTodos.Complete 3).2 ≠ none ↔ ∀ todo ∈ exampleTodos.todos, todo.ID ≠ 3) ∧
    ((exampleTodos.Complete 3).2 ≠ none → (exampleTodos.Complete 3).1 = exampleTodos) ∧
    ((exampleTodos.Complete 3).2 = none →
      (exampleTodos.Complete 3).1.nextID = exampleTodos.nextID ∧
      (exampleTodos.Complete 3).1.todos =
        exampleTodos.todos.map
          (fun todo => if todo.ID = 3 then { todo with Completed := true } else todo))) :=
  ⟨exampleTodos_reachable, by decide, by decide, by decide, by decide,
    C30_todo_ids_delete_complete exampleTodos exampleTodos_reachable 3⟩

end TodoApp

/-! # The ledger with `float64` amounts -/

namespace Bank

/-- The amounts that pass the guard `amount <= 0` of `Deposit`, `Withdraw` and
`CreateTransaction` are NaN and the amounts above zero. -/
theorem Float64.le_zero_eq_false_iff (amount : Float64) :
    amount.le Float64.zero = false ↔ amount = .nan ∨ Float64.lt Float64.zero amount = true := by
  cases amount with
  | nan => simp [Float64.le]
  | inf negative => cases negative <;> simp [Float64.le, Float64.lt, Float64.zero]
  | finite value => simp [Float64.le, Float64.lt, Float64.zero]

/-- `x < y` is false exactly when an operand is NaN or `y <= x`. -/
theorem Float64.lt_eq_false_iff (x y : Float64) :
    x.lt y = false ↔ x = .nan ∨ y = .nan ∨ y.le x = true := by
  cases x with
  | nan => simp [Float64.lt]
  | inf a =>
    cases y with
    | nan => simp [Float64.lt]
    | inf b => cases a <;> cases b <;> simp [Float64.lt, Float64.le]
    | finite w => cases a <;> simp [Float64.lt, Float64.le]
  | finite v =>
    cases y with
    | nan => simp [Float64.lt]
    | inf b => cases b <;> simp [Float64.lt, Float64.le]
    | finite w => simp [Float64.lt, Float64.le]

namespace Binary64

/-! ## The ledger's `Deposit` and `Withdraw` with `float64` amounts -/

/-- What the ledger's `Deposit` does with a `float64` amount.  It returns no error if and only
if `amount <= 0` is false, the account exists and its status is `Active`; `amount <= 0` is
false for NaN and for the amounts above zero, and for no other.  On success the stored
account is the old one with the `float64` sum `balance + amount` as balance and a new update
time, and every other account is unchanged.  It fails with `ErrInvalidAmount` if
`amount <= 0`, otherwise with `ErrAccountNotFound` if the number is unknown, otherwise with
the inactive-account error, and a failing call changes nothing. -/
theorem deposit_contract_float64 (ac : accountService) (id : String) (amount : Float64)
    (now : Time) :
    ((ac.Deposit id amount now).2 = none ↔
      amount.le Float64.zero = false ∧
        ∃ a, mapGet ac.accounts id = some a ∧ a.Status = "Active") ∧
    (amount.le Float64.zero = false ↔
      amount = .nan ∨ Float64.lt Float64.zero amount = true) ∧
    (∀ a, amount.le Float64.zero = false → mapGet ac.accounts id = some a →
      a.Status = "Active" →
      mapGet (ac.Deposit id amount now).1.accounts id =
          some { a with Balance := a.Balance.add amount, UpdatedAt := now } ∧
        ∀ other, other ≠ id →
          mapGet (ac.Deposit id amount now).1.accounts other = mapGet ac.accounts other) ∧
    (amount.le Float64.zero = true → ac.Deposit id amount now = (ac, some .ErrInvalidAmount)) ∧
    (amount.le Float64.zero = false → mapGet ac.accounts id = none →
      ac.Deposit id amount now = (ac, some .ErrAccountNotFound)) ∧
    (∀ a, amount.le Float64.zero = false → mapGet ac.accounts id = some a →
      a.Status ≠ "Active" →
      ac.Deposit id amount now =
        (ac, some (.msg ("cannot deposit to an account with status: " ++ a.Status)))) := by
  refine ⟨⟨?_, ?_⟩, Float64.le_zero_eq_false_iff amount, ?_, ?_, ?_, ?_⟩
  · intro h
    unfold accountService.Deposit at h
    cases hle : amount.le Float64.zero
    · cases hg : mapGet ac.accounts id with
      | none => simp [hle, hg] at h
      | some a =>
        by_cases hs : a.Status = "Active"
        · exact ⟨rfl, a, rfl, hs⟩
        · simp [hle, hg, hs] at h
    · simp [hle] at h
  · rintro ⟨hle, a, hg, hs⟩
    simp [accountService.Deposit, hle, hg, hs]
  · intro a hle hg hs
    simp only [accountService.Deposit, hle, hg, hs]
    refine ⟨by simp [mapGet_mapPut_same], ?_⟩
    intro other hne
    simp [mapGet_mapPut_ne _ _ (Ne.symm hne)]
  · intro hle
    simp [accountService.Deposit, hle]
  · intro hle hg
    simp [accountService.Deposit, hle, hg]
  · intro a hle hg hs
    simp [accountService.Deposit, hle, hg, hs]

/-- What the ledger's `Withdraw` does with a `float64` amount.  It returns no error if and
only if `amount <= 0` is false, the account exists, its status is `Active` and
`balance < amount` is false; `amount <= 0` is false for NaN and for the amounts above zero,
and `balance < amount` is false when the balance or the amount is NaN or
`amount <= balance`.  On success the balance becomes the `float64` difference
`balance - amount` and every other account is unchanged.  It fails with `ErrInvalidAmount` if
`amount <= 0`, otherwise with `ErrAccountNotFound` if the number is unknown, otherwise with
the inactive-account error if the status is not `Active`, otherwise with
`ErrInsufficientFunds` if `balance < amount`, and a failing call changes nothing. -/
theorem withdraw_contract_float64 (ac : accountService) (id : String) (amount : Float64)
    (now : Time) :
    ((ac.Withdraw id amount now).2 = none ↔
      amount.le Float64.zero = false ∧
        ∃ a, mapGet ac.accounts id = some a ∧ a.Status = "Active" ∧
          a.Balance.lt amount = false) ∧
    (amount.le Float64.zero = false ↔
      amount = .nan ∨ Float64.lt Float64.zero amount = true) ∧
    (∀ a : Account, a.Balance.lt amount = false ↔
      a.Balance = .nan ∨ amount = .nan ∨ amount.le a.Balance = true) ∧
    (∀ a, amount.le Float64.zero = false → mapGet ac.accounts id = some a →
      a.Status = "Active" → a.Balance.lt amount = false →
      mapGet (ac.Withdraw id amount now).1.accounts id =
          some { a with Balance := a.Balance.sub amount, UpdatedAt := now } ∧
        ∀ other, other ≠ id →
          mapGet (ac.Withdraw id amount now).1.accounts other = mapGet ac.accounts other) ∧
    (amount.le Float64.zero = true → ac.Withdraw id amount now = (ac, some .ErrInvalidAmount)) ∧
    (amount.le Float64.zero = false → mapGet ac.accounts id = none →
      ac.Withdraw id amount now = (ac, some .ErrAccountNotFound)) ∧
    (∀ a, amount.le Float64.zero = false → mapGet ac.accounts id = some a →
      a.Status ≠ "Active" →
      ac.Withdraw id amount now =
        (ac, some (.msg ("cannot withdraw from an account with status: " ++ a.Status)))) ∧
    (∀ a, amount.le Float64.zero = false → mapGet ac.accounts id = some a →
      a.Status = "Active" → a.Balance.lt amount = true →
      ac.Withdraw id amount now = (ac, some .ErrInsufficientFunds)) := by
  refine ⟨⟨?_, ?_⟩, Float64.le_zero_eq_false_iff amount,
    fun a => Float64.lt_eq_false_iff a.Balance amount, ?_, ?_, ?_, ?_, ?_⟩
  · intro h
    unfold accountService.Withdraw at h
    cases hle : amount.le Float64.zero
    · cases hg : mapGet ac.accounts id with
      | none => simp [hle, hg] at h
      | some a =>
        by_cases hs : a.Status = "Active"
        · cases hlt : a.Balance.lt amount
          · exact ⟨rfl, a, rfl, hs, hlt⟩
          · simp [hle, hg, hs, hlt] at h
        · simp [hle, hg, hs] at h
    · simp [hle] at h
  · rintro ⟨hle, a, hg, hs, hlt⟩
    simp [accountService.Withdraw, hle, hg, hs, hlt]
  · intro a hle hg hs hlt
    simp only [accountService.Withdraw, hle, hg, hs, hlt]
    refine ⟨by simp [mapGet_mapPut_same], ?_⟩
    intro other hne
    simp [mapGet_mapPut_ne _ _ (Ne.symm hne)]
  · intro hle
    simp [accountService.Withdraw, hle]
  · intro hle hg
    simp [accountService.Withdraw, hle, hg]
  · intro a hle hg hs
    simp [accountService.Withdraw, hle, hg, hs]
  · intro a hle hg hs hlt
    simp [accountService.Withdraw, hle, hg, hs, hlt]

/-! ## NaN passes the amount guard -/

/-- C1 at a deposit of NaN.  From the empty ledger, `Create` makes account `A1`; `Deposit` of
NaN into `A1` passes the guard `amount <= 0` and returns no error; afterwards the balance of
`A1` is NaN, and `balance >= 0` is false. -/
theorem C1_nan_deposit_breaks_nonneg :
    sampleLedgerA1 = (NewAccountService.Create (sampleAccount "A1") 10 11).1 ∧
    (sampleLedgerA1.Deposit "A1" .nan 30).2 = none ∧
    (mapGet (sampleLedgerA1.Deposit "A1" .nan 30).1.accounts "A1").map (fun a => a.Balance) =
      some .nan ∧
    Float64.le Float64.zero .nan = false :=
  ⟨rfl, by with_unfolding_all rfl, by with_unfolding_all rfl, rfl⟩

/-- C9 at a withdrawal of NaN.  `A1` is `Active` with balance 1000.  `Withdraw` of NaN returns
no error although `amount > 0` is false and `balance >= amount` is false, and leaves the
balance NaN; on that balance a withdrawal of 1000000000 then returns no error too, since
`balance < amount` is false. -/
theorem C9_nan_withdraw_succeeds :
    (mapGet sampleLedgerFunded.accounts "A1").map (fun a => (a.Status, a.Balance)) =
      some ("Active", .finite 1000) ∧
    Float64.lt Float64.zero .nan = false ∧
    Float64.le .nan (.finite 1000) = false ∧
    (sampleLedgerFunded.Withdraw "A1" .nan 30).2 = none ∧
    (mapGet (sampleLedgerFunded.Withdraw "A1" .nan 30).1.accounts "A1").map
      (fun a => a.Balance) = some .nan ∧
    ((sampleLedgerFunded.Withdraw "A1" .nan 30).1.Withdraw "A1" (Float64.ofRat 1000000000)
      40).2 = none :=
  ⟨by with_unfolding_all rfl, rfl, rfl, by with_unfolding_all rfl, by with_unfolding_all rfl,
    by with_unfolding_all rfl⟩

/-- C11 at a deposit of NaN.  `A1` is `Active` with balance 1000.  `Deposit` of NaN returns no
error although `amount > 0` is false, and the balance of `A1` becomes NaN. -/
theorem C11_nan_deposit_succeeds :
    (mapGet sampleLedgerFunded.accounts "A1").map (fun a => (a.Status, a.Balance)) =
      some ("Active", .finite 1000) ∧
    Float64.lt Float64.zero .nan = false ∧
    (sampleLedgerFunded.Deposit "A1" .nan 30).2 = none ∧
    (mapGet (sampleLedgerFunded.Deposit "A1" .nan 30).1.accounts "A1").map
      (fun a => a.Balance) = some .nan :=
  ⟨by with_unfolding_all rfl, rfl, by with_unfolding_all rfl, by with_unfolding_all rfl⟩

/-- C23 at a deposit of NaN through the orchestrator.  In `sampleA1A2`, reached through
`CreateUser` and `CreateAccount`, the orchestrator's `Deposit` of NaN into `A1` returns no
error and the journal gets a `DEPOSIT` entry whose amount is NaN, for which `amount > 0` is
false. -/
theorem C23_nan_amount_is_journalled :
    sampleA1A2.transactions.transactions = [] ∧
    (sampleA1A2.Deposit "A1" .nan (exampleClock 30)).2 = none ∧
    (mapValues (sampleA1A2.Deposit "A1" .nan (exampleClock 30)).1.transactions.transactions).map
      (fun e => (e.Type_, e.FromAccount, e.ToAccount, e.Amount)) =
      [("DEPOSIT", "", "A1", .nan)] ∧
    Float64.lt Float64.zero .nan = false :=
  ⟨by with_unfolding_all rfl, by with_unfolding_all rfl, by with_unfolding_all rfl, rfl⟩

/-! ## Sums and differences are rounded -/

/-- C2 at a transfer of 1 out of a balance of 10000000000000000.  `A1` holds
10000000000000000 and `A2` holds 0.  `Transfer` of 1 from `A1` to `A2` returns no error; the
difference 9999999999999999 is not a `float64` and is rounded back to 10000000000000000, so
`A1` keeps its balance while `A2` receives 1: the sum of the balances has grown by 1. -/
theorem C2_transfer_creates_money :
    sampleLarge.balanceOf "A1" = some (.finite 10000000000000000) ∧
    sampleLarge.balanceOf "A2" = some (.finite 0) ∧
    (sampleLarge.Transfer "A1" "A2" (Float64.ofRat 1) (exampleClock 40)).2 = none ∧
    (sampleLarge.Transfer "A1" "A2" (Float64.ofRat 1) (exampleClock 40)).1.balanceOf "A1" =
      some (.finite 10000000000000000) ∧
    (sampleLarge.Transfer "A1" "A2" (Float64.ofRat 1) (exampleClock 40)).1.balanceOf "A2" =
      some (.finite 1) ∧
    sampleLarge.accounts.totalBalance = 10000000000000000 ∧
    (sampleLarge.Transfer "A1" "A2" (Float64.ofRat 1) (exampleClock 40)).1.accounts.totalBalance =
      10000000000000001 :=
  ⟨by with_unfolding_all rfl, by with_unfolding_all rfl, by with_unfolding_all rfl,
    by with_unfolding_all rfl, by with_unfolding_all rfl, by with_unfolding_all rfl,
    by with_unfolding_all rfl⟩

/-- C3 at a transfer of 0.2 out of a balance of 0.9 into a closed account.  `A1` holds 0.9 and
`A2` is `Closed`.  In `Transfer` the withdrawal succeeds, the deposit into `A2` fails and the
compensating deposit runs; `Transfer` returns the deposit's error and the journal is
unchanged, but the balance of `A1` is `(0.9 - 0.2) + 0.2`, which in `float64` is
0.8999999999999999, below the 0.9 it was before the call. -/
theorem C3_compensation_leaves_less :
    sampleClosed.balanceOf "A1" = some (Float64.ofRat (9 / 10)) ∧
    Float64.ofRat (9 / 10) = .finite (8106479329266893 / 9007199254740992) ∧
    (sampleClosed.Transfer "A1" "A2" (Float64.ofRat (2 / 10)) (exampleClock 50)).2 =
      some (.msg "cannot deposit to an account with status: Closed") ∧
    (sampleClosed.Transfer "A1" "A2" (Float64.ofRat (2 / 10)) (exampleClock 50)).1.transactions =
      sampleClosed.transactions ∧
    (sampleClosed.Transfer "A1" "A2" (Float64.ofRat (2 / 10)) (exampleClock 50)).1.balanceOf "A1" =
      some (.finite (2026619832316723 / 2251799813685248)) ∧
    Float64.lt (.finite (2026619832316723 / 2251799813685248)) (Float64.ofRat (9 / 10)) = true :=
  ⟨by with_unfolding_all rfl, by with_unfolding_all rfl, by with_unfolding_all rfl,
    by with_unfolding_all rfl, by with_unfolding_all rfl, by with_unfolding_all rfl⟩

/-- C8 at a balance of 0.1 and the amount 0.2.  `A1` is `Active` with balance 0.1.  `Deposit`
of 0.2 and then `Withdraw` of 0.2 both return no error, and the balance is
`(0.1 + 0.2) - 0.2`, which in `float64` is 0.10000000000000003, above the 0.1 it was before
the deposit. -/
theorem C8_deposit_withdraw_drifts :
    (mapGet sampleLedgerTenth.accounts "A1").map (fun a => (a.Status, a.Balance)) =
      some ("Active", Float64.ofRat (1 / 10)) ∧
    Float64.ofRat (1 / 10) = .finite (3602879701896397 / 36028797018963968) ∧
    Float64.lt Float64.zero (Float64.ofRat (2 / 10)) = true ∧
    (sampleLedgerTenth.Deposit "A1" (Float64.ofRat (2 / 10)) 30).2 = none ∧
    ((sampleLedgerTenth.Deposit "A1" (Float64.ofRat (2 / 10)) 30).1.Withdraw "A1"
      (Float64.ofRat (2 / 10)) 40).2 = none ∧
    (mapGet ((sampleLedgerTenth.Deposit "A1" (Float64.ofRat (2 / 10)) 30).1.Withdraw "A1"
      (Float64.ofRat (2 / 10)) 40).1.accounts "A1").map (fun a => a.Balance) =
      some (.finite (1801439850948199 / 18014398509481984)) ∧
    Float64.lt (Float64.ofRat (1 / 10)) (.finite (1801439850948199 / 18014398509481984)) = true :=
  ⟨by with_unfolding_all rfl, by with_unfolding_all rfl, by with_unfolding_all rfl,
    by with_unfolding_all rfl, by with_unfolding_all rfl, by with_unfolding_all rfl,
    by with_unfolding_all rfl⟩

/-- The summary against the balance after a deposit of 2.7 and withdrawals of 0.2 and 0.7,
at distinct clock readings: the journal has the three entries, the balance is
`(2.7 - 0.2) - 0.7`, which in `float64` is 1.8, and the net amount of the summary is
`2.7 - (0.2 + 0.7)`, which is 1.8000000000000003. -/
theorem summary_net_drifts_from_balance :
    sampleCash.transactions.transactions.length = 3 ∧
    sampleCash.balanceOf "A1" = some (.finite (8106479329266893 / 4503599627370496)) ∧
    Float64.ofRat (18 / 10) = .finite (8106479329266893 / 4503599627370496) ∧
    (sampleCash.GetTransactionSummary "A1").netAmount =
      .finite (4053239664633447 / 2251799813685248) ∧
    Float64.lt (.finite (8106479329266893 / 4503599627370496))
      (.finite (4053239664633447 / 2251799813685248)) = true :=
  ⟨by with_unfolding_all rfl, by with_unfolding_all rfl, by with_unfolding_all rfl,
    by with_unfolding_all rfl, by with_unfolding_all rfl⟩

/-- C28 at the journal of three deposits of 0.1, 0.2 and 0.3 into `A1`.  Enumerated in the
order of the deposits the summary adds `((0 + 0.1) + 0.2) + 0.3`, which in `float64` is
0.6000000000000001; enumerated backwards it adds `((0 + 0.3) + 0.2) + 0.1`, which is 0.6.  The
two enumerations are permutations of each other and the two `TotalDeposits` differ. -/
theorem C28_summary_depends_on_order :
    (mapValues sampleThree.transactions.transactions).map
      (fun e => (e.Type_, e.Status, e.ToAccount, e.Amount)) =
      [("DEPOSIT", "COMPLETED", "A1", Float64.ofRat (1 / 10)),
        ("DEPOSIT", "COMPLETED", "A1", Float64.ofRat (2 / 10)),
        ("DEPOSIT", "COMPLETED", "A1", Float64.ofRat (3 / 10))] ∧
    List.Perm sampleThree.transactions.transactions.reverse
      sampleThree.transactions.transactions ∧
    (transactionService.GetTransactionSummary
      { transactions := sampleThree.transactions.transactions } "A1").TotalDeposits =
      .finite (1351079888211149 / 2251799813685248) ∧
    (transactionService.GetTransactionSummary
      { transactions := sampleThree.transactions.transactions.reverse } "A1").TotalDeposits =
      .finite (5404319552844595 / 9007199254740992) ∧
    Float64.ofRat (6 / 10) = .finite (5404319552844595 / 9007199254740992) ∧
    Float64.lt (.finite (5404319552844595 / 9007199254740992))
      (.finite (1351079888211149 / 2251799813685248)) = true :=
  ⟨by with_unfolding_all rfl, List.reverse_perm _, by with_unfolding_all rfl,
    by with_unfolding_all rfl, by with_unfolding_all rfl, by with_unfolding_all rfl⟩

end Binary64

end Bank
